import Mathlib

/-!
# A Simple File System: FAT12 utilities `diskinfo`, `disklist`, `diskget`, `diskput`

Shallow embedding of the C sources (`sfs.h`, `diskinfo.c`, `disklist.c`, `diskget.c`,
`diskput.c`) and theorems about them.

Conventions of the embedding (the ABI the utilities are built for, x86-64 Linux):

* a byte of memory or of a file is a `Byte = Fin 256`;
* `char` is a *signed* 8-bit type: reading a `char` inside an arithmetic expression
  promotes it to `int` with sign extension (`charToInt`);
* `int` is 32 bits wide; an `int` value is carried as its two's-complement bit pattern,
  a natural number below `2 ^ 32` (so `-1` is `4294967295`), except where a function
  is documented to return a mathematical `Int`;
* `uint16_t` conversions are `% 65536`, stores into a `char` are `% 256`;
* the content of the disk image is a total map from byte offsets to bytes; `fseek` +
  `fread` of `n` bytes at offset `off` is `readBytes img off n` where the read is taken to
  lie inside the file (the boot record, the FAT, the root region, the label scan of
  `diskinfo` and the sectors that the subtree search of `diskput` visits), `fseek` +
  `fwrite` is `writeBytes`; the sector reads of the directory scans of `disklist` and
  `diskinfo` and of `get_file`, whose offsets come from directory entries and FAT links,
  take the length `size` of the image file into account (`freadAt`): `fread` is never
  tested in the source, and where the file has ended the buffer keeps its prior content;
* `fat_table` (the `malloc`ed mirror of FAT #1) is a `List Byte`; an access outside the
  list is undefined behaviour in C and is reported as `none` / `fault`;
* memory that the source reads before writing it (the block of `emalloc(13)` in
  `trimFileName`, the block of `emalloc(bytes_per_sector)` of the directory scans, the
  local arrays `content[512]` of `put_in_data_area` and `get_file`, the local entry `dir`
  of `main` of `diskinfo.c`) is an explicit parameter holding its prior content;
* loops and recursions whose termination is not evident take a `fuel` argument and
  report `outOfFuel` when it is exhausted.
-/

namespace SFS

/-! ## Machine-level helpers -/

/-- One byte of memory or of a file. -/
abbrev Byte := Fin 256

/-- Conversion of an integer value to a stored byte (`% 256`). -/
def toByte (x : Nat) : Byte := ⟨x % 256, Nat.mod_lt _ (by decide)⟩

/-- Integer promotion of a signed `char` holding the byte `b`: the 32-bit two's-complement
pattern of the sign-extended value (`0x80..0xFF` become `0xFFFFFF80..0xFFFFFFFF`). -/
def charToInt (b : Byte) : Nat :=
  if b.val < 128 then b.val else b.val + 4294967040

/-- Wrap-around of 32-bit `int` arithmetic on bit patterns. -/
def wrap32 (x : Nat) : Nat := x % 4294967296

/-- Conversion to `uint16_t`. -/
def toUint16 (x : Nat) : Nat := x % 65536

/-- Mathematical value of a 32-bit `int` bit pattern. -/
def int32Val (x : Nat) : Int :=
  if x % 4294967296 < 2147483648 then (x % 4294967296 : Nat) else (x % 4294967296 : Nat) - 4294967296

/-- The disk image file: byte offset to byte. -/
abbrev Image := Nat → Byte

/-- The bytes delivered by `fseek(fp, off, SEEK_SET); fread(buf, n, 1, fp)`. -/
def readBytes (img : Image) (off n : Nat) : List Byte :=
  (List.range n).map (fun k => img (off + k))

/-- The image after `fseek(fp, off, SEEK_SET); fwrite(bs, bs.length, 1, fp)`. -/
def writeBytes (img : Image) (off : Nat) (bs : List Byte) : Image :=
  fun k => if off ≤ k ∧ k < off + bs.length then bs.getD (k - off) (img k) else img k

/-- The first `n` bytes of `buf` after `fseek(fp, off, SEEK_SET); fread(buf, n, 1, fp)` on
an image file of `size` bytes, the return value of `fread` not being tested: the bytes of
the file at offsets below `size` are delivered (also those of an element that the file
holds only in part, as the C library stores them); where the file has ended the buffer
keeps its prior content `buf`. -/
def freadAt (img : Image) (size off n : Nat) (buf : List Byte) : List Byte :=
  (List.range n).map (fun k => if off + k < size then img (off + k) else buf.getD k 0)

/-- Result of a computation that may hit undefined behaviour or run out of fuel. -/
inductive Res (α : Type) where
  | ok (a : α)
  | fault
  | outOfFuel
  deriving DecidableEq, Repr

/-! ## Boot sector (`boot_t`, packed, little-endian) -/

/-- Field `bytes_per_sector` of the boot record (offset 11, 2 bytes). -/
def bytes_per_sector (img : Image) : Nat := (img 11).val + 256 * (img 12).val

/-- Field `total_sectors` of the boot record (offset 19, 2 bytes). -/
def total_sectors (img : Image) : Nat := (img 19).val + 256 * (img 20).val

/-- The byte size of the FAT mirror for `fat_size` entries:
`(fat_size & 0x01) ? (fat_size*3+1)/2 : fat_size*3/2`. -/
def fat_mem_size (fat_size : Nat) : Nat :=
  if fat_size &&& 0x01 ≠ 0 then (fat_size * 3 + 1) / 2 else fat_size * 3 / 2

/-- The FAT mirror as loaded by every `main`:
`fseek(fp, 0x200, SEEK_SET); fread(fat_table, fat_mem_size, 1, fp)`. -/
def load_fat (img : Image) (fat_size : Nat) : List Byte :=
  readBytes img 0x200 (fat_mem_size fat_size)

/-! ## FAT codec -/

/-- Function `get_fat` of `diskput.c`, `diskget.c` and `disklist.c` (identical text):
parameter and result are `uint16_t`, the byte index `j` is a `uint16_t`.
For odd `i` the index `j` is never `0`, so `j - 1` does not underflow. The left shift of
a negative `int` is the shift of its two's-complement pattern, as gcc and clang
evaluate it. -/
def get_fat (fat_table : List Byte) (fat_size : Nat) (i : Nat) : Option Nat :=
  let i := toUint16 i
  if fat_size = 0 then some 0
  else if i &&& 0x01 ≠ 0 then
    let j := toUint16 ((1 + i * 3) / 2)
    match fat_table[j - 1]?, fat_table[j]? with
    | some lo, some hi =>
        some (toUint16 (wrap32 (((charToInt lo &&& 0xF0) >>> 4) + wrap32 (charToInt hi <<< 4))))
    | _, _ => none
  else
    let j := toUint16 (i * 3 / 2)
    match fat_table[j + 1]?, fat_table[j]? with
    | some hi, some lo =>
        some (toUint16 (wrap32 (((charToInt hi &&& 0x0F) <<< 8) + (charToInt lo &&& 0x0FF))))
    | _, _ => none

/-- Function `update_fat` of `diskput.c`. The stores go to `char` objects (`toByte`);
the neighbouring byte is *added* to the shifted nibble, as in the source. -/
def update_fat (fat_table : List Byte) (i new_val : Nat) : Option (List Byte) :=
  let i := toUint16 i
  let new_val := toUint16 new_val &&& 0xFFF
  if i &&& 0x01 ≠ 0 then
    let j := toUint16 ((1 + i * 3) / 2)
    if j < fat_table.length then
      let t := fat_table.set j (toByte ((new_val >>> 4) &&& 0xFF))
      match t[j - 1]? with
      | some old => some (t.set (j - 1) (toByte (wrap32 (((new_val &&& 0x0F) <<< 4) + charToInt old))))
      | none => none
    else none
  else
    let j := toUint16 (i * 3 / 2)
    if j < fat_table.length then
      let t := fat_table.set j (toByte (new_val &&& 0xFF))
      match t[j + 1]? with
      | some old => some (t.set (j + 1) (toByte (wrap32 (((new_val >>> 8) &&& 0x0F) + charToInt old))))
      | none => none
    else none

/-- The loop `for (i = ...; i < fat_size; i++) if (get_fat(i) == 0) free_blocks += 1;`
of `getFreeBlocks`, with `n` iterations left starting at index `i`. The reader `rd` is the
program's own `get_fat`. -/
def countLoop (rd : Nat → Option Nat) : Nat → Nat → Nat → Option Nat
  | 0, _, free_blocks => some free_blocks
  | n + 1, i, free_blocks =>
    match rd i with
    | none => none
    | some v => countLoop rd n (i + 1) (if v = 0 then free_blocks + 1 else free_blocks)

/-- Function `getFreeBlocks` of `diskput.c`; the result is the mathematical value of the
returned `int` (`-1` when the table is not loaded), `none` on an out-of-bounds read. -/
def getFreeBlocks (fat_table : List Byte) (fat_size : Nat) : Option Int :=
  if fat_size = 0 then some (-1)
  else (countLoop (get_fat fat_table fat_size) (fat_size - 2) 2 0).map (fun n => (n : Int))

namespace Diskinfo

/-- Function `get_fat` of `diskinfo.c`: parameter, index and result are `int`; the low
byte of an even entry is not masked. The result is the `int` bit pattern. -/
def get_fat (fat_table : List Byte) (fat_size : Nat) (i : Nat) : Option Nat :=
  if fat_size = 0 then some 4294967295
  else if i &&& 0x01 ≠ 0 then
    let j := (1 + i * 3) / 2
    match fat_table[j - 1]?, fat_table[j]? with
    | some lo, some hi =>
        some (wrap32 (((charToInt lo &&& 0xF0) >>> 4) + wrap32 (charToInt hi <<< 4)))
    | _, _ => none
  else
    let j := i * 3 / 2
    match fat_table[j + 1]?, fat_table[j]? with
    | some hi, some lo =>
        some (wrap32 (((charToInt hi &&& 0x0F) <<< 8) + charToInt lo))
    | _, _ => none

/-- Function `getFreeBlocks` of `diskinfo.c`. -/
def getFreeBlocks (fat_table : List Byte) (fat_size : Nat) : Option Int :=
  if fat_size = 0 then some (-1)
  else (countLoop (get_fat fat_table fat_size) (fat_size - 2) 2 0).map (fun n => (n : Int))

/-- The variable `free_disk_size` of `main` of `diskinfo.c`, the value reported after
"Free size of the disk:": `freeBlocks * boot_sector.bytes_per_sector` in 32-bit `int`
arithmetic. `none` when `main` exits before computing it (table not loaded) or on an
out-of-bounds read.
`fat_size = total_sectors - 33 + 2`; for `total_sectors < 31` the allocation of the
mirror fails and `main` exits. -/
def free_disk_size (img : Image) : Option Int :=
  if total_sectors img < 31 then none
  else
    let fat_size := total_sectors img + 2 - 33
    match getFreeBlocks (load_fat img fat_size) fat_size with
    | none => none
    | some freeBlocks =>
      if freeBlocks = -1 then none
      else some (int32Val (freeBlocks * (bytes_per_sector img : Int)).toNat)

end Diskinfo

/-! ## Directory entries (`entry_t`, 32 bytes, packed, little-endian) -/

/-- Field `filename` (offset 0, 8 bytes) of a 32-byte entry. -/
def entry_filename (entry : List Byte) : List Byte := entry.take 8

/-- Field `extension` (offset 8, 3 bytes). -/
def entry_extension (entry : List Byte) : List Byte := (entry.drop 8).take 3

/-- Field `attributes` (offset 11). -/
def entry_attributes (entry : List Byte) : Nat := (entry.getD 11 0).val

/-- Field `cluster` (offset 26, `uint16_t`). -/
def entry_cluster (entry : List Byte) : Nat := (entry.getD 26 0).val + 256 * (entry.getD 27 0).val

/-- Field `size` (offset 28, `uint32_t`). -/
def entry_size (entry : List Byte) : Nat :=
  (entry.getD 28 0).val + 256 * (entry.getD 29 0).val + 65536 * (entry.getD 30 0).val
    + 16777216 * (entry.getD 31 0).val

/-- The two bytes of a `uint16_t` store. -/
def le16 (x : Nat) : List Byte := [toByte x, toByte (x / 256)]

/-- The four bytes of a `uint32_t` store. -/
def le32 (x : Nat) : List Byte := [toByte x, toByte (x / 256), toByte (x / 65536), toByte (x / 16777216)]

/-- Overwrite the bytes of `mem` from index `off` on with `bs` (a field store). -/
def storeAt (mem : List Byte) (off : Nat) (bs : List Byte) : List Byte :=
  mem.take off ++ bs ++ mem.drop (off + bs.length)

/-- Function `toupper` of the C locale on one byte. -/
def toupper (c : Byte) : Byte := if 97 ≤ c.val ∧ c.val ≤ 122 then toByte (c.val - 32) else c

/-- Function `trimFileName` (identical in all four programs). `heap` is the content of the
13-byte block returned by `emalloc(13)` before the function writes to it: every
non-space byte of the name is copied; only when the extension does not start with a
space are '.', the non-space extension bytes and the terminating NUL appended. -/
def trimFileName (heap : List Byte) (filename ext : List Byte) : List Byte :=
  let name := filename.filter (fun c => c ≠ 0x20)
  let str :=
    if ext.headD 0 ≠ 0x20 then name ++ [0x2E] ++ ext.filter (fun c => c ≠ 0x20) ++ [0]
    else name
  str ++ heap.drop str.length

/-- The test `strcmp(block, s) == 0` where `block` is a memory block that may lack a
terminating NUL and `s` lists the characters of a properly terminated string.
`none`: the comparison runs past the end of the block. -/
def strcmp_eq : List Byte → List Byte → Option Bool
  | [], _ => none
  | b :: _, [] => some (b == 0)
  | b :: bs, c :: cs => if b = c then (if b = 0 then some true else strcmp_eq bs cs) else some false

/-- Outcome of the search for a free directory slot in `diskput.c`:
`duplicate` is the exit "There is a file of the same name in the disk.", `slot a` the
normal return with `*free_entry_address = a` (`none` is the initial `-1`). -/
inductive SlotScan where
  | duplicate
  | slot (free_entry_address : Option Nat)
  | fault
  | outOfFuel
  deriving DecidableEq, Repr

/-- The `while (start_byte < end_byte_of_root_dir)` loop of `get_free_entry_in_root_dir`;
`n` bounds the number of remaining iterations (the region has at most `n` slots left),
`heap a` is the prior content of the block `emalloc`ed for the entry at offset `a`. -/
def get_free_entry_in_root_dir_loop (img : Image) (heap : Nat → List Byte) (file_name : List Byte)
    (end_byte_of_root_dir : Nat) : Nat → Nat → Option Nat → SlotScan
  | 0, _, free_entry_address => .slot free_entry_address
  | n + 1, start_byte, free_entry_address =>
    if start_byte < end_byte_of_root_dir then
      let cur_entry := readBytes img start_byte 32
      if (cur_entry.getD 0 0).val = 0x00 then .slot (some start_byte)
      else if (cur_entry.getD 0 0).val = 0xE5 then
        get_free_entry_in_root_dir_loop img heap file_name end_byte_of_root_dir n
          (start_byte + 32) (some start_byte)
      else
        match strcmp_eq (trimFileName (heap start_byte) (entry_filename cur_entry)
            (entry_extension cur_entry)) file_name with
        | none => .fault
        | some true => .duplicate
        | some false =>
          get_free_entry_in_root_dir_loop img heap file_name end_byte_of_root_dir n
            (start_byte + 32) free_entry_address
    else .slot free_entry_address

/-- Function `get_free_entry_in_root_dir` of `diskput.c`. The loop runs at most
`(14 * B + 31) / 32` times, so no fuel is needed. -/
def get_free_entry_in_root_dir (img : Image) (heap : Nat → List Byte) (file_name : List Byte)
    (free_entry_address : Option Nat) : SlotScan :=
  let start_byte_of_root_dir := 19 * bytes_per_sector img
  let end_byte_of_root_dir := start_byte_of_root_dir + 14 * bytes_per_sector img
  get_free_entry_in_root_dir_loop img heap file_name end_byte_of_root_dir
    ((14 * bytes_per_sector img + 31) / 32) start_byte_of_root_dir free_entry_address

/-- The name comparison that the root scan of `diskput` makes for the entry at byte offset
`a`: `strcmp(trimFileName(cur_entry.filename, cur_entry.extension), file_name) == 0`. -/
def rootCompare (img : Image) (heap : Nat → List Byte) (file_name : List Byte) (a : Nat) :
    Option Bool :=
  strcmp_eq (trimFileName (heap a) (entry_filename (readBytes img a 32))
    (entry_extension (readBytes img a 32))) file_name

/-- Function `get_free_sub_dir_entries` of `diskput.c`, one step per unit of fuel.
`local_dir_cluster`, `address` and `j` are the variables of the source (`j` the offset
inside the sector buffer), `cur_dir_name` is the memory the parameter of that name
points to (the caller's 32-byte `entry`, or the literal "ROOT" with its NUL). -/
def get_free_sub_dir_entries (img : Image) (fat_table : List Byte) (fat_size : Nat)
    (heap : Nat → List Byte) (destination file_name : List Byte) :
    Nat → Nat → Nat → Nat → List Byte → Option Nat → SlotScan
  | 0, _, _, _, _, _ => .outOfFuel
  | fuel + 1, local_dir_cluster, address, j, cur_dir_name, free_entry_address =>
    if j < bytes_per_sector img then
      if bytes_per_sector img < j + 32 then .fault
      else
        let entry := readBytes img (address + j) 32
        if (entry.getD 0 0).val = 0x00 then
          match strcmp_eq cur_dir_name destination with
          | none => .fault
          | some true => .slot (some (address + j))
          | some false => .slot free_entry_address
        else if (entry.getD 0 0).val = 0xE5 then
          match strcmp_eq cur_dir_name destination with
          | none => .fault
          | some true =>
            get_free_sub_dir_entries img fat_table fat_size heap destination file_name fuel
              local_dir_cluster address (j + 32) cur_dir_name (some (address + j))
          | some false =>
            get_free_sub_dir_entries img fat_table fat_size heap destination file_name fuel
              local_dir_cluster address (j + 32) cur_dir_name free_entry_address
        else if entry_attributes entry = 0x0F then
          get_free_sub_dir_entries img fat_table fat_size heap destination file_name fuel
            local_dir_cluster address (j + 32) cur_dir_name free_entry_address
        else if (entry.getD 0 0).val = 0x2E then
          get_free_sub_dir_entries img fat_table fat_size heap destination file_name fuel
            local_dir_cluster address (j + 32) cur_dir_name free_entry_address
        else if entry_attributes entry &&& 0x10 ≠ 0 then
          match get_free_sub_dir_entries img fat_table fat_size heap destination file_name fuel
              (entry_cluster entry)
              (if entry_cluster entry = 0 then 0x2600 else (entry_cluster entry + 33 - 2) * 512)
              0 entry free_entry_address with
          | .slot free_entry_address' =>
            get_free_sub_dir_entries img fat_table fat_size heap destination file_name fuel
              local_dir_cluster address (j + 32) cur_dir_name free_entry_address'
          | r => r
        else
          match strcmp_eq (trimFileName (heap (address + j)) (entry_filename entry)
              (entry_extension entry)) file_name with
          | none => .fault
          | some true => .duplicate
          | some false =>
            get_free_sub_dir_entries img fat_table fat_size heap destination file_name fuel
              local_dir_cluster address (j + 32) cur_dir_name free_entry_address
    else if local_dir_cluster = 0 then
      get_free_sub_dir_entries img fat_table fat_size heap destination file_name fuel
        local_dir_cluster (address + bytes_per_sector img) 0 cur_dir_name free_entry_address
    else
      match get_fat fat_table fat_size local_dir_cluster with
      | none => .fault
      | some v =>
        if 0x0FF8 ≤ v ∨ v = 0xFF then .slot free_entry_address
        else
          get_free_sub_dir_entries img fat_table fat_size heap destination file_name fuel
            v ((v + 33 - 2) * 512) 0 cur_dir_name free_entry_address

/-- The loop `while (file_name[i] != '.')` of `fill_info_to_entry`; `file_name` lists the
characters before the terminating NUL, reading index `file_name.length` gives the NUL,
reading beyond it is `none`. Returns the entry, the final `i` and `any_extension`.
The loop ends at `i = 8` at the latest, so 9 iterations suffice. -/
def fill_name_loop (file_name : List Byte) : Nat → Nat → List Byte → Option (List Byte × Nat × Bool)
  | 0, _, _ => none
  | n + 1, i, entry =>
    if file_name.length < i then none
    else if (file_name.getD i 0).val = 0x2E then some (entry, i, true)
    else if i = 8 then some (entry, i, false)
    else fill_name_loop file_name n (i + 1) (entry.set i (file_name.getD i 0))

/-- The loop `while (file_name[i] != '\0') { entry.extension[j] = file_name[i]; ... }` on the
characters that follow the '.'; `entry.extension[j]` is byte `8 + j` of the entry, a
store beyond byte 31 leaves the object and is `none`. -/
def fill_ext_loop : List Byte → Nat → List Byte → Option (List Byte)
  | [], _, entry => some entry
  | c :: cs, j, entry =>
    if c.val = 0 then some entry
    else if 8 + j < 32 then fill_ext_loop cs (j + 1) (entry.set (8 + j) c)
    else none

/-- Function `fill_info_to_entry` of `diskput.c` on the 32 bytes of the entry;
`file_size` is the value of `ftell` at the end of the host file. The store
`entry.cluster = first_physical_sector - 33 + 2` converts an `int` to the `uint16_t` field:
for a sector number below 31 the negative value wraps (`65536` is added). -/
def fill_info_to_entry (file_size : Nat) (file_name : List Byte) (first_physical_sector : Nat) :
    Option (List Byte) :=
  let entry : List Byte := List.replicate 32 0
  let entry := storeAt entry 28 (le32 file_size)
  let entry := storeAt entry 0 (List.replicate 11 0x20)
  match fill_name_loop file_name 9 0 entry with
  | none => none
  | some (entry, i, any_extension) =>
    match (if any_extension then fill_ext_loop (file_name.drop (i + 1)) 0 entry else some entry) with
    | none => none
    | some entry =>
      some (storeAt entry 26 (le16 (toUint16 (first_physical_sector + 65536 + 2 - 33))))

/-- The loop of `get_free_sector` of `diskput.c`: `start_sector` advances while
`get_fat(start_sector+33-2) != 0`. -/
def get_free_sector_loop (fat_table : List Byte) (fat_size : Nat) : Nat → Nat → Res Nat
  | 0, _ => .outOfFuel
  | fuel + 1, start_sector =>
    match get_fat fat_table fat_size (start_sector + 33 - 2) with
    | none => .fault
    | some v =>
      if v ≠ 0x00 then get_free_sector_loop fat_table fat_size fuel (start_sector + 1)
      else .ok start_sector

/-- Function `get_free_sector` of `diskput.c`. -/
def get_free_sector (fat_table : List Byte) (fat_size : Nat) (fuel : Nat) : Res Nat :=
  get_free_sector_loop fat_table fat_size fuel 33

/-- The content of `buf` after `fread(buf, n, 1, file)` on the host file `file` at position
`pos`: the bytes available from `pos` on (at most `n`) replace the start of `buf`, the
rest of `buf` keeps its previous content. -/
def fread_file (file : List Byte) (pos : Nat) (buf : List Byte) (n : Nat) : List Byte :=
  ((file.drop pos).take n) ++ buf.drop ((file.drop pos).take n).length

/-- The mutable state of `diskput`: the image, the FAT mirror and the read position of the
host file. -/
structure PutState where
  disk : Image
  fat_table : List Byte
  file_pos : Nat

/-- Function `put_in_data_area` of `diskput.c`. `file` is the host file, `stack n` the
prior (uninitialised) content of the local array `content` in the activation entered
with `sectors_needed = n`. -/
def put_in_data_area (B : Nat) (fat_size : Nat) (file : List Byte) (stack : Int → List Byte) :
    Nat → PutState → Nat → Int → Nat → Res PutState
  | 0, _, _, _, _ => .outOfFuel
  | fuel + 1, st, cur_physical_sector, sectors_needed0, total_size =>
    let address := cur_physical_sector * 512
    let sectors_needed := sectors_needed0 - 1
    let content := stack sectors_needed0
    if sectors_needed = 0 then
      let content := fread_file file st.file_pos content (total_size % 512)
      let disk := writeBytes st.disk address (content.take (total_size % 512))
      match update_fat st.fat_table (cur_physical_sector + 2 - 33) 0xFFF with
      | none => .fault
      | some t => .ok { disk := disk, fat_table := t,
                        file_pos := st.file_pos + ((file.drop st.file_pos).take (total_size % 512)).length }
    else
      let content := fread_file file st.file_pos content 512
      let disk := writeBytes st.disk address (content.take 512)
      match get_free_sector st.fat_table fat_size fuel with
      | .fault => .fault
      | .outOfFuel => .outOfFuel
      | .ok next_sector =>
        let next_address := (next_sector + 2 - 33) * B
        match update_fat st.fat_table (cur_physical_sector + 2 - 33) next_address with
        | none => .fault
        | some t =>
          put_in_data_area B fat_size file stack fuel
            { disk := disk, fat_table := t,
              file_pos := st.file_pos + ((file.drop st.file_pos).take 512).length }
            next_sector sectors_needed total_size

namespace Diskput

/-- How a run of `diskput` ends. For the outcomes `fault` and `outOfFuel` the image and
mirror of the result are the state reached when the run was abandoned. -/
inductive Outcome where
  | fileNotFound
  | mallocFailed
  | notLoaded
  | noSpace
  | duplicateName
  | dirNotFound
  | fault
  | outOfFuel
  | done
  deriving DecidableEq, Repr

/-- What a run of `diskput` leaves behind: how it ended, the image, the FAT mirror. -/
structure Result where
  outcome : Outcome
  disk : Image
  fat_table : List Byte

/-- The part of `main` of `diskput.c` after the free-space test: slot search, allocation
of the first sector, construction and write of the entry, data transfer. -/
def main_after_space_check (fuel : Nat) (img : Image) (fat_table : List Byte) (fat_size : Nat)
    (destination file_name file : List Byte) (formatted_date formatted_time : Nat)
    (heap : Nat → List Byte) (stack : Int → List Byte) : Result :=
  let file_size := file.length
  let scan :=
    if destination = [0x52, 0x4F, 0x4F, 0x54] then
      get_free_entry_in_root_dir img heap file_name none
    else
      get_free_sub_dir_entries img fat_table fat_size heap destination file_name fuel
        0 0x2600 0 [0x52, 0x4F, 0x4F, 0x54, 0] none
  match scan with
  | .duplicate => ⟨.duplicateName, img, fat_table⟩
  | .fault => ⟨.fault, img, fat_table⟩
  | .outOfFuel => ⟨.outOfFuel, img, fat_table⟩
  | .slot none => ⟨.dirNotFound, img, fat_table⟩
  | .slot (some free_entry_address) =>
    match get_free_sector fat_table fat_size fuel with
    | .fault => ⟨.fault, img, fat_table⟩
    | .outOfFuel => ⟨.outOfFuel, img, fat_table⟩
    | .ok free_sector =>
      match fill_info_to_entry file_size file_name free_sector with
      | none => ⟨.fault, img, fat_table⟩
      | some new_entry =>
        let new_entry := storeAt new_entry 16 (le16 formatted_date)
        let new_entry := storeAt new_entry 24 (le16 formatted_date)
        let new_entry := storeAt new_entry 14 (le16 formatted_time)
        let new_entry := storeAt new_entry 22 (le16 formatted_time)
        let disk := writeBytes img free_entry_address new_entry
        if bytes_per_sector img = 0 then ⟨.fault, disk, fat_table⟩
        else
          let sectors_needed : Int :=
            (file_size / 512 : Nat) + (if file_size % bytes_per_sector img ≠ 0 then 1 else 0)
          match put_in_data_area (bytes_per_sector img) fat_size file stack fuel
              { disk := disk, fat_table := fat_table, file_pos := file_size }
              free_sector sectors_needed file_size with
          | .fault => ⟨.fault, disk, fat_table⟩
          | .outOfFuel => ⟨.outOfFuel, disk, fat_table⟩
          | .ok st => ⟨.done, st.disk, st.fat_table⟩

/-- Function `main` of `diskput.c`. `destination` is `none` for the two-argument form (the
source then uses "ROOT"), `file` is the content of the host file when it can be opened;
past the free-space test its length is taken to fit the `int file_size`. `formatted_date` / `formatted_time`
are the packed values computed from the host's modification time. After the two
`fseek(file, 0, SEEK_END)` the host file is never repositioned, so the data transfer
starts with the read position at the end of the file. -/
def main (fuel : Nat) (img : Image) (destination : Option (List Byte)) (file_name : List Byte)
    (file : Option (List Byte)) (formatted_date formatted_time : Nat)
    (heap : Nat → List Byte) (stack : Int → List Byte) : Result :=
  match file with
  | none => ⟨.fileNotFound, img, []⟩
  | some file =>
    let file_name := file_name.map toupper
    if total_sectors img < 31 then ⟨.mallocFailed, img, []⟩
    else
      let fat_size := total_sectors img + 2 - 33
      let fat_table := load_fat img fat_size
      match getFreeBlocks fat_table fat_size with
      | none => ⟨.fault, img, fat_table⟩
      | some freeBlocks =>
        if freeBlocks = -1 then ⟨.notLoaded, img, fat_table⟩
        else
          let free_disk_size := freeBlocks * 512
          let file_size : Int := int32Val file.length
          if file_size > free_disk_size then ⟨.noSpace, img, fat_table⟩
          else
            main_after_space_check fuel img fat_table fat_size
              (destination.getD [0x52, 0x4F, 0x4F, 0x54]) file_name file
              formatted_date formatted_time heap stack

end Diskput

/-! ## `diskget.c` -/

namespace Diskget

/-- Result of `get_file_entry_in_root`: the returned entry, the exit " File not found.",
or the end of the function body reached without a `return` (`fault`). -/
inductive Lookup where
  | found (entry : List Byte)
  | notFound
  | fault
  deriving DecidableEq, Repr

/-- The `while (start_byte < end_byte_of_root_dir)` loop of `get_file_entry_in_root`; `n`
bounds the remaining iterations. When the loop ends the function body ends without a
`return` statement. -/
def get_file_entry_in_root_loop (img : Image) (heap : Nat → List Byte) (file_name : List Byte)
    (end_byte_of_root_dir : Nat) : Nat → Nat → Lookup
  | 0, _ => .fault
  | n + 1, start_byte =>
    if start_byte < end_byte_of_root_dir then
      let cur_entry := readBytes img start_byte 32
      if (cur_entry.getD 0 0).val = 0x00 then .notFound
      else if (cur_entry.getD 0 0).val = 0xE5 then
        get_file_entry_in_root_loop img heap file_name end_byte_of_root_dir n (start_byte + 32)
      else if entry_attributes cur_entry = 0x0F then
        get_file_entry_in_root_loop img heap file_name end_byte_of_root_dir n (start_byte + 32)
      else if entry_attributes cur_entry &&& 0x10 ≠ 0 then
        get_file_entry_in_root_loop img heap file_name end_byte_of_root_dir n (start_byte + 32)
      else
        match strcmp_eq (trimFileName (heap start_byte) (entry_filename cur_entry)
            (entry_extension cur_entry)) file_name with
        | none => .fault
        | some true => .found cur_entry
        | some false =>
          get_file_entry_in_root_loop img heap file_name end_byte_of_root_dir n (start_byte + 32)
    else .fault

/-- Function `get_file_entry_in_root` of `diskget.c`. -/
def get_file_entry_in_root (img : Image) (heap : Nat → List Byte) (start_byte : Nat)
    (file_name : List Byte) : Lookup :=
  get_file_entry_in_root_loop img heap file_name (start_byte + 14 * bytes_per_sector img)
    ((14 * bytes_per_sector img + 31) / 32 + 1) start_byte

/-- Function `get_file` of `diskget.c`; the result is the sequence of bytes written to the
local file by this activation and the ones it calls. `size` is the length of the image
file and `stack n` the prior (uninitialised) content of the local array `content` in the
activation entered with `remain_sectors = n`: the array is written to the local file
whatever `fread` has delivered. -/
def get_file (img : Image) (size : Nat) (stack : Int → List Byte) (fat_table : List Byte)
    (fat_size : Nat) : Nat → Nat → Int → Nat → Res (List Byte)
  | 0, _, _, _ => .outOfFuel
  | fuel + 1, cur_sector, remain_sectors0, total_size =>
    let address := cur_sector * 512
    let remain_sectors := remain_sectors0 - 1
    let content := stack remain_sectors0
    if remain_sectors = 0 then
      .ok (freadAt img size address (total_size % 512) content)
    else
      let content := freadAt img size address 512 content
      match get_fat fat_table fat_size (cur_sector + 2 - 33) with
      | none => .fault
      | some v =>
        let next_sector := v + 33 - 2
        match get_file img size stack fat_table fat_size fuel next_sector remain_sectors
            total_size with
        | .ok rest => .ok (content ++ rest)
        | r => r

/-- How a run of `diskget` ends. -/
inductive Outcome where
  | localExists
  | mallocFailed
  | notFound
  | fault
  | outOfFuel
  | done
  deriving DecidableEq, Repr

/-- What a run of `diskget` produces: how it ended and the content of the local file it
wrote (meaningful for `done`). -/
structure Result where
  outcome : Outcome
  out : List Byte
  deriving DecidableEq, Repr

/-- Function `main` of `diskget.c`. `size` is the length of the image file,
`local_exists` tells whether a host file with the upper-cased name can already be opened,
`stack` is the prior content of the array `content` in the activations of `get_file`. -/
def main (fuel : Nat) (img : Image) (size : Nat) (file_name : List Byte) (local_exists : Bool)
    (heap : Nat → List Byte) (stack : Int → List Byte) : Result :=
  let file_name := file_name.map toupper
  if local_exists then ⟨.localExists, []⟩
  else if total_sectors img < 31 then ⟨.mallocFailed, []⟩
  else
    let fat_size := total_sectors img + 2 - 33
    let fat_table := load_fat img fat_size
    let start_byte_of_root_dir := 19 * bytes_per_sector img
    match get_file_entry_in_root img heap start_byte_of_root_dir file_name with
    | .notFound => ⟨.notFound, []⟩
    | .fault => ⟨.fault, []⟩
    | .found root_file_entry =>
      let first_sector := 33 + entry_cluster root_file_entry - 2
      let file_size := entry_size root_file_entry
      if bytes_per_sector img = 0 then ⟨.fault, []⟩
      else
        let occupied_sectors : Int :=
          int32Val (file_size / bytes_per_sector img
            + (if file_size % bytes_per_sector img ≠ 0 then 1 else 0))
        match get_file img size stack fat_table fat_size fuel first_sector occupied_sectors
            file_size with
        | .ok out => ⟨.done, out⟩
        | .fault => ⟨.fault, []⟩
        | .outOfFuel => ⟨.outOfFuel, []⟩

end Diskget

/-! ## Date and time packing (`diskput.c`) and unpacking (`disklist.c`) -/

/-- The digits loop of `atoi`: decimal value of the leading digits of `s`, starting from
the accumulator `acc`. -/
def atoi_digits : List Byte → Nat → Nat
  | [], acc => acc
  | c :: cs, acc =>
    if 48 ≤ c.val ∧ c.val ≤ 57 then atoi_digits cs (acc * 10 + (c.val - 48)) else acc

/-- Function `atoi` of the C library on the characters of a string: leading white space is
skipped, an optional sign is read, then the leading decimal digits. -/
def atoi (s : List Byte) : Int :=
  match s.dropWhile (fun c => c.val = 32 ∨ (9 ≤ c.val ∧ c.val ≤ 13)) with
  | [] => 0
  | c :: cs =>
    if c.val = 0x2D then - (atoi_digits cs 0 : Int)
    else if c.val = 0x2B then (atoi_digits cs 0 : Int)
    else (atoi_digits (c :: cs) 0 : Int)

namespace Diskput

/-- The chain of `strcmp(month, "Jan") == 0 ... else month_int = 12` of `process_date`. -/
def month_int (month : List Byte) : Int :=
  if month = [0x4A, 0x61, 0x6E] then 1
  else if month = [0x46, 0x65, 0x62] then 2
  else if month = [0x4D, 0x61, 0x72] then 3
  else if month = [0x41, 0x70, 0x72] then 4
  else if month = [0x4D, 0x61, 0x79] then 5
  else if month = [0x4A, 0x75, 0x6E] then 6
  else if month = [0x4A, 0x75, 0x6C] then 7
  else if month = [0x41, 0x75, 0x67] then 8
  else if month = [0x53, 0x65, 0x70] then 9
  else if month = [0x4F, 0x63, 0x74] then 10
  else if month = [0x4E, 0x6F, 0x76] then 11
  else 12

/-- Function `process_date` of `diskput.c`: the value stored into `*formatted_date`, a
`uint16_t`, from the strings `year`, `month`, `day`:
`(data_year << 9) + (month_int << 5) + day_int` with `data_year = atoi(year) - 1980`. -/
def process_date (year month day : List Byte) : Nat :=
  let year_int := atoi year
  let day_int := atoi day
  let data_year := year_int - 1980
  ((data_year * 2 ^ 9 + month_int month * 2 ^ 5 + day_int) % 65536).toNat

/-- Function `process_time` of `diskput.c`: the value stored into `*formatted_time`:
`(hour_int << 11) + (minute_int << 5)`. -/
def process_time (hour minute : List Byte) : Nat :=
  let hour_int := atoi hour
  let minute_int := atoi minute
  ((hour_int * 2 ^ 11 + minute_int * 2 ^ 5) % 65536).toNat

end Diskput

/-- The characters printed by `sprintf(buf, "%d", n)` for a non-negative `n`. -/
def decimal (n : Nat) : List Byte := (Nat.toDigits 10 n).map (fun c => toByte c.toNat)

/-- The characters printed by `sprintf(buf, "%02d", n)` for a non-negative `n`. -/
def decimal02 (n : Nat) : List Byte := if n < 10 then [48, toByte (48 + n)] else decimal n

namespace Disklist

/-- The locals `year`, `month`, `day` of `process_date` of `disklist.c`. -/
def process_date_fields (raw_info : Nat) : Nat × Nat × Nat :=
  (((raw_info &&& 0b1111111000000000) >>> 9) + 1980,
   (raw_info &&& 0b0000000111100000) >>> 5,
   raw_info &&& 0b0000000000011111)

/-- Function `process_date` of `disklist.c`: the text appended to `formatted_date`,
`yyyy/mm/dd`. -/
def process_date (raw_info : Nat) : List Byte :=
  decimal (process_date_fields raw_info).1 ++ [0x2F]
    ++ decimal02 (process_date_fields raw_info).2.1 ++ [0x2F]
    ++ decimal02 (process_date_fields raw_info).2.2

/-- The locals `hour`, `minute` of `process_time` of `disklist.c`. -/
def process_time_fields (raw_info : Nat) : Nat × Nat :=
  ((raw_info &&& 0b1111100000000000) >>> 11, (raw_info &&& 0b0000011111100000) >>> 5)

/-- Function `process_time` of `disklist.c`: the text appended to `formatted_time`,
`hh:mm`. -/
def process_time (raw_info : Nat) : List Byte :=
  decimal02 (process_time_fields raw_info).1 ++ [0x3A] ++ decimal02 (process_time_fields raw_info).2

/-- One line group printed by `list_dir_entries`: an `F` line for a file, or a `D` line
with its header block for a subdirectory; `tabsize` is the indentation level, `entry`
the 32 bytes of the directory entry the printed fields are taken from. -/
inductive Row where
  | file (tabsize : Nat) (entry : List Byte)
  | dir (tabsize : Nat) (entry : List Byte)
  deriving DecidableEq, Repr

/-- Function `list_dir_entries` of `disklist.c`, one step per unit of fuel; the result is
the sequence of rows printed from the position `j` of the sector buffer `buf` on. `buf` is
the content of the block `emalloc(bytes_per_sector)` of this activation after the `fread`
of the sector at `address`; `size` is the length of the image file and `sector_heap c`
the prior (uninitialised) content of the block in the activation for the directory
cluster `c`. -/
def list_dir_entries (img : Image) (size : Nat) (sector_heap : Nat → List Byte)
    (fat_table : List Byte) (fat_size : Nat) :
    Nat → Nat → Nat → Nat → List Byte → Nat → Res (List Row)
  | 0, _, _, _, _, _ => .outOfFuel
  | fuel + 1, local_dir_cluster, address, j, buf, tabsize =>
    if j < bytes_per_sector img then
      if bytes_per_sector img < j + 32 then .fault
      else
        let entry := (buf.drop j).take 32
        if (entry.getD 0 0).val = 0x00 then .ok []
        else if (entry.getD 0 0).val = 0xE5 then
          list_dir_entries img size sector_heap fat_table fat_size fuel local_dir_cluster address
            (j + 32) buf tabsize
        else if entry_attributes entry = 0x0F then
          list_dir_entries img size sector_heap fat_table fat_size fuel local_dir_cluster address
            (j + 32) buf tabsize
        else if (entry.getD 0 0).val = 0x2E then
          list_dir_entries img size sector_heap fat_table fat_size fuel local_dir_cluster address
            (j + 32) buf tabsize
        else if entry_cluster entry < 2 then
          list_dir_entries img size sector_heap fat_table fat_size fuel local_dir_cluster address
            (j + 32) buf tabsize
        else if entry_attributes entry &&& 0x10 ≠ 0 then
          match list_dir_entries img size sector_heap fat_table fat_size fuel (entry_cluster entry)
              ((entry_cluster entry + 33 - 2) * 512) 0
              (freadAt img size ((entry_cluster entry + 33 - 2) * 512) (bytes_per_sector img)
                (sector_heap (entry_cluster entry)))
              (tabsize + 1) with
          | .ok sub =>
            match list_dir_entries img size sector_heap fat_table fat_size fuel local_dir_cluster
                address (j + 32) buf tabsize with
            | .ok rest => .ok (Row.dir tabsize entry :: sub ++ rest)
            | r => r
          | r => r
        else
          match list_dir_entries img size sector_heap fat_table fat_size fuel local_dir_cluster
              address (j + 32) buf tabsize with
          | .ok rest => .ok (Row.file tabsize entry :: rest)
          | r => r
    else if local_dir_cluster = 0 then
      list_dir_entries img size sector_heap fat_table fat_size fuel local_dir_cluster
        (address + bytes_per_sector img) 0
        (freadAt img size (address + bytes_per_sector img) (bytes_per_sector img) buf) tabsize
    else
      match get_fat fat_table fat_size local_dir_cluster with
      | none => .fault
      | some v =>
        if 0x0FF8 ≤ v ∨ v = 0xFF then .ok []
        else
          list_dir_entries img size sector_heap fat_table fat_size fuel v ((v + 33 - 2) * 512) 0
            (freadAt img size ((v + 33 - 2) * 512) (bytes_per_sector img) buf) tabsize

/-- Function `main` of `disklist.c`: the rows printed below the "ROOT" header. For
`total_sectors < 31` the allocation of the mirror fails and nothing is listed. -/
def main (fuel : Nat) (img : Image) (size : Nat) (sector_heap : Nat → List Byte) :
    Res (List Row) :=
  if total_sectors img < 31 then .fault
  else
    let fat_size := total_sectors img + 2 - 33
    list_dir_entries img size sector_heap (load_fat img fat_size) fat_size fuel 0 0x2600 0
      (freadAt img size 0x2600 (bytes_per_sector img) (sector_heap 0)) 0

/-- The number of `F` rows among the printed rows. -/
def file_rows (rows : List Row) : Nat :=
  (rows.filter (fun r => match r with | .file _ _ => true | .dir _ _ => false)).length

end Disklist

namespace Diskinfo

/-- Function `count_files_in_dir` of `diskinfo.c`, one step per unit of fuel; the result is
the amount added to `file_count` from the position `j` of the sector buffer `buf` on;
`buf`, `size` and `sector_heap` are as for `list_dir_entries` of `disklist.c`.
The FAT entry is an `int` here: the end-of-chain test compares its signed value,
`address` is the `uint32_t` conversion of `(get_fat(..) + 33 - 2) * 512` and
`local_dir_cluster` the `uint16_t` conversion of the entry. -/
def count_files_in_dir (img : Image) (size : Nat) (sector_heap : Nat → List Byte)
    (fat_table : List Byte) (fat_size : Nat) :
    Nat → Nat → Nat → Nat → List Byte → Res Nat
  | 0, _, _, _, _ => .outOfFuel
  | fuel + 1, local_dir_cluster, address, j, buf =>
    if j < bytes_per_sector img then
      if bytes_per_sector img < j + 32 then .fault
      else
        let entry := (buf.drop j).take 32
        if (entry.getD 0 0).val = 0x00 then .ok 0
        else if (entry.getD 0 0).val = 0xE5 then
          count_files_in_dir img size sector_heap fat_table fat_size fuel local_dir_cluster address
            (j + 32) buf
        else if entry_attributes entry = 0x0F then
          count_files_in_dir img size sector_heap fat_table fat_size fuel local_dir_cluster address
            (j + 32) buf
        else if (entry.getD 0 0).val = 0x2E then
          count_files_in_dir img size sector_heap fat_table fat_size fuel local_dir_cluster address
            (j + 32) buf
        else if entry_cluster entry < 2 then
          count_files_in_dir img size sector_heap fat_table fat_size fuel local_dir_cluster address
            (j + 32) buf
        else if entry_attributes entry &&& 0x10 ≠ 0 then
          match count_files_in_dir img size sector_heap fat_table fat_size fuel (entry_cluster entry)
              ((entry_cluster entry + 33 - 2) * 512) 0
              (freadAt img size ((entry_cluster entry + 33 - 2) * 512) (bytes_per_sector img)
                (sector_heap (entry_cluster entry))) with
          | .ok sub =>
            match count_files_in_dir img size sector_heap fat_table fat_size fuel local_dir_cluster
                address (j + 32) buf with
            | .ok rest => .ok (sub + rest)
            | r => r
          | r => r
        else
          match count_files_in_dir img size sector_heap fat_table fat_size fuel local_dir_cluster
              address (j + 32) buf with
          | .ok rest => .ok (1 + rest)
          | r => r
    else if local_dir_cluster = 0 then
      count_files_in_dir img size sector_heap fat_table fat_size fuel local_dir_cluster
        (address + bytes_per_sector img) 0
        (freadAt img size (address + bytes_per_sector img) (bytes_per_sector img) buf)
    else
      match get_fat fat_table fat_size local_dir_cluster with
      | none => .fault
      | some v =>
        if 0x0FF8 ≤ int32Val v ∨ int32Val v = 0xFF then .ok 0
        else
          count_files_in_dir img size sector_heap fat_table fat_size fuel (toUint16 v)
            (wrap32 ((v + 33 - 2) * 512)) 0
            (freadAt img size (wrap32 ((v + 33 - 2) * 512)) (bytes_per_sector img) buf)

/-- The value of `file_count` printed by `main` of `diskinfo.c`. `main` exits before the
count when the mirror cannot be allocated or `getFreeBlocks` returns `-1`. -/
def file_count (fuel : Nat) (img : Image) (size : Nat) (sector_heap : Nat → List Byte) :
    Res Nat :=
  if total_sectors img < 31 then .fault
  else
    let fat_size := total_sectors img + 2 - 33
    if fat_size = 0 then .fault
    else count_files_in_dir img size sector_heap (load_fat img fat_size) fat_size fuel 0 0x2600 0
      (freadAt img size 0x2600 (bytes_per_sector img) (sector_heap 0))

end Diskinfo

/-- The C string that starts a memory block: the bytes before the first NUL; `none` when
the block holds no NUL. -/
def cstring : List Byte → Option (List Byte)
  | [] => none
  | b :: bs => if b.val = 0 then some [] else (cstring bs).map (fun s => b :: s)

/-! ## The volume label scan of `diskinfo.c`, results and directory slots -/

namespace Diskinfo

/-- The loop `while (dir.attributes != 0x08 && start_byte_of_entry < end_byte_of_root_dir)`
of `main` of `diskinfo.c`: each iteration first advances `start_byte_of_entry` by 32 and
then reads the entry at the new offset into `dir`; `n` bounds the remaining iterations.
The result is the content of `dir` when the loop ends. -/
def label_loop (img : Image) (end_byte_of_root_dir : Nat) : Nat → Nat → List Byte → List Byte
  | 0, _, dir => dir
  | n + 1, start_byte_of_entry, dir =>
    if entry_attributes dir ≠ 0x08 ∧ start_byte_of_entry < end_byte_of_root_dir then
      label_loop img end_byte_of_root_dir n (start_byte_of_entry + 32)
        (readBytes img (start_byte_of_entry + 32) 32)
    else dir

/-- The first 8 bytes of the array `label` of `main` of `diskinfo.c`, the text printed after
"Label of the disk:". `dir0` is the prior (uninitialised) content of the local `dir`, whose
field `attributes` is set to 0 before the loop. The loop makes at most
`ceil(14 * bytes_per_sector / 32)` iterations. -/
def label (img : Image) (dir0 : List Byte) : List Byte :=
  let start_byte_of_root_dir := 19 * bytes_per_sector img
  let end_byte_of_root_dir := start_byte_of_root_dir + 14 * bytes_per_sector img
  entry_filename (label_loop img end_byte_of_root_dir ((14 * bytes_per_sector img + 31) / 32)
    start_byte_of_root_dir (storeAt dir0 11 [0]))

end Diskinfo

/-- The result of a computation with `f` applied to its value; `fault` and `outOfFuel` are
passed on. -/
def Res.map {α β : Type} (f : α → β) : Res α → Res β
  | .ok a => .ok (f a)
  | .fault => .fault
  | .outOfFuel => .outOfFuel

/-- The `n` consecutive 32-byte slots of the image that start at byte offset
`address + j`. -/
def slotsFrom (img : Image) (address j n : Nat) : List (List Byte) :=
  (List.range n).map (fun k => readBytes img (address + (j + 32 * k)) 32)

/-- The `n` consecutive 32-byte slots of the sector buffer `buf` that start at offset
`j`. -/
def slotsOf (buf : List Byte) (j n : Nat) : List (List Byte) :=
  (List.range n).map (fun k => (buf.drop (j + 32 * k)).take 32)

/-! ## The FAT12 entry codec as the specification words it -/

/-- The 12-bit FAT entry of index `i` as the specification defines it, with byte values
taken as unsigned: for even `i`, `byte[3i/2] | ((byte[3i/2+1] & 0x0F) << 8)`; for odd `i`,
`((byte[(3i+1)/2 - 1] & 0xF0) >> 4) | (byte[(3i+1)/2] << 4)`. -/
def specEntry (fat_table : List Byte) (i : Nat) : Nat :=
  if i % 2 = 0 then
    (fat_table.getD (3 * i / 2) 0).val ||| (((fat_table.getD (3 * i / 2 + 1) 0).val &&& 0x0F) <<< 8)
  else
    (((fat_table.getD ((3 * i + 1) / 2 - 1) 0).val &&& 0xF0) >>> 4) |||
      ((fat_table.getD ((3 * i + 1) / 2) 0).val <<< 4)

/-- The specification's `free_count()`: the number of cluster indices in `[2, N)` whose
12-bit entry equals 0. -/
def specFreeCount (fat_table : List Byte) (N : Nat) : Nat :=
  ((List.range' 2 (N - 2)).filter (fun i => decide (specEntry fat_table i = 0))).length

/-! ## Name trimming and date packing as the specification words them -/

/-- The specification's "strip trailing 0x20". -/
def stripTrailingSpaces (l : List Byte) : List Byte :=
  (l.reverse.dropWhile (fun c => c = 0x20)).reverse

/-- The specification's canonical 8.3 formatting: the name without its trailing spaces,
followed by '.' and the extension without its trailing spaces when the extension's first
byte is not 0x20. -/
def specTrimFileName (filename ext : List Byte) : List Byte :=
  if ext.headD 0 ≠ 0x20 then stripTrailingSpaces filename ++ [0x2E] ++ stripTrailingSpaces ext
  else stripTrailingSpaces filename

/-- The specification's packed date `((year - 1980) << 9) | (month << 5) | day`. -/
def specPackDate (y m d : Nat) : Nat := ((y - 1980) <<< 9) ||| (m <<< 5) ||| d

/-- The specification's packed time `(hour << 11) | (minute << 5)`. -/
def specPackTime (h n : Nat) : Nat := (h <<< 11) ||| (n <<< 5)

/-- The three-letter month abbreviation of `ctime` for month `m` (1 = Jan, ..., 12 = Dec). -/
def monthAbbrev (m : Nat) : List Byte :=
  [[0x4A, 0x61, 0x6E], [0x46, 0x65, 0x62], [0x4D, 0x61, 0x72], [0x41, 0x70, 0x72],
   [0x4D, 0x61, 0x79], [0x4A, 0x75, 0x6E], [0x4A, 0x75, 0x6C], [0x41, 0x75, 0x67],
   [0x53, 0x65, 0x70], [0x4F, 0x63, 0x74], [0x4E, 0x6F, 0x76], [0x44, 0x65, 0x63]].getD (m - 1) []

/-- The two characters of the day of the month in the text of `ctime` (padded with a
space below 10). -/
def ctimeDay (d : Nat) : List Byte := if d < 10 then [0x20, toByte (48 + d)] else decimal d

/-! ## The masked write, the chain and the slot filter as the specification words them -/

/-- The specification's `write(i, v)`: `v &= 0x0FFF`; for odd `i` at `j = (1+3i)/2`,
`byte[j] ← (v >> 4) & 0xFF` and `byte[j-1] ← (byte[j-1] & 0x0F) | ((v & 0x0F) << 4)`; for
even `i` at `j = 3i/2`, `byte[j] ← v & 0xFF` and
`byte[j+1] ← (byte[j+1] & 0xF0) | ((v >> 8) & 0x0F)`. -/
def specWrite (fat_table : List Byte) (i v : Nat) : List Byte :=
  let v := v &&& 0x0FFF
  if i % 2 = 1 then
    let j := (3 * i + 1) / 2
    (fat_table.set j (toByte ((v >>> 4) &&& 0xFF))).set (j - 1)
      (toByte (((fat_table.getD (j - 1) 0).val &&& 0x0F) ||| ((v &&& 0x0F) <<< 4)))
  else
    let j := 3 * i / 2
    (fat_table.set j (toByte (v &&& 0xFF))).set (j + 1)
      (toByte (((fat_table.getD (j + 1) 0).val &&& 0xF0) ||| ((v >>> 8) &&& 0x0F)))

/-- The chain of the specification: `c0, FAT[c0], FAT[FAT[c0]], ...` over the 12-bit
entries. -/
def specChain (fat_table : List Byte) (c0 : Nat) (i : Nat) : Nat :=
  (specEntry fat_table)^[i] c0

/-- The specification's test for a slot that is emitted: the first byte is none of `0x00`,
`0xE5`, `0x2E`, the attribute byte is not `0x0F` and the starting cluster is at least 2. -/
def specEmits (entry : List Byte) : Bool :=
  decide ((entry.getD 0 0).val ≠ 0x00 ∧ (entry.getD 0 0).val ≠ 0xE5 ∧ (entry.getD 0 0).val ≠ 0x2E ∧
    entry_attributes entry ≠ 0x0F ∧ 2 ≤ entry_cluster entry)

/-! ## Concrete inputs used by the closed theorems -/

/-- A 4-entry FAT: entries 0 and 1 reserved (`F0 FF FF`), cluster 2 free, cluster 3
holding the end-of-chain value `0xFFF`. -/
def fatEoc3 : List Byte := [0xF0, 0xFF, 0xFF, 0x00, 0xF0, 0xFF]

/-- A 4-entry FAT: cluster 2 holding `0xFFF`, cluster 3 free. -/
def fatEoc2 : List Byte := [0xF0, 0xFF, 0xFF, 0xFF, 0x0F, 0x00]

/-- A small image: `bytes_per_sector = 512`, `total_sectors = 35` (4 FAT entries), FAT #1
equal to `fatEoc3`, every other byte zero. -/
def imgTiny : Image := fun k =>
  if k = 12 then 2 else if k = 19 then 35
  else if k = 512 then 0xF0 else if k = 513 then 0xFF else if k = 514 then 0xFF
  else if k = 516 then 0xF0 else if k = 517 then 0xFF else 0

/-- A small freshly formatted image: `bytes_per_sector = 512`, `total_sectors = 100`
(69 FAT entries), FAT #1 = `F0 FF FF` followed by zeros (67 free clusters), empty root
directory, every other byte zero. -/
def imgSmall : Image := fun k =>
  if k = 12 then 2 else if k = 19 then 100
  else if k = 512 then 0xF0 else if k = 513 then 0xFF else if k = 514 then 0xFF else 0

/-- A 69-entry FAT whose cluster 2 is in use (`0xFFF`) and whose other clusters are
free. -/
def fatUsed2 : List Byte := [0xF0, 0xFF, 0xFF, 0xFF, 0x0F] ++ List.replicate 99 0

/-- A 69-entry FAT without any free entry (all bytes `0xFF`). -/
def fatNoFree : List Byte := List.replicate 104 0xFF

/-- The host file name "c.dat". -/
def nameCDat : List Byte := [0x63, 0x2E, 0x64, 0x61, 0x74]

/-- The host file name "a.txt". -/
def nameATxt : List Byte := [0x61, 0x2E, 0x74, 0x78, 0x74]

/-- A host file of `n` bytes, all `0x41`. -/
def fileOfA (n : Nat) : List Byte := List.replicate n 0x41

/-- Heap blocks that happen to be zero-filled. -/
def heapZero : Nat → List Byte := fun _ => List.replicate 13 0

/-- Stack content that marks the activations of `put_in_data_area`: the array `content` of
the activation entered with `sectors_needed = 2` holds `0x11`, every other one
`0x22`. -/
def stackMarked : Int → List Byte := fun n => List.replicate 512 (if n = 2 then 0x11 else 0x22)

/-- An image holding one root file "A.TXT" with recorded size `size` and starting
cluster `cluster`; FAT entry 2 holds the 12-bit value `fat2`, entry 3 holds `0xFFF`
(FAT bytes `F0 FF FF`, then the packed pair); data sector 33 (cluster 2) is filled with
`0xAA`, data sector 34 (cluster 3) with `0xBB`. -/
def imgOneFile (size cluster fat2 : Nat) : Image := fun k =>
  if k = 12 then 2 else if k = 19 then 100
  else if k = 512 then 0xF0 else if k = 513 then 0xFF else if k = 514 then 0xFF
  else if k = 515 then toByte fat2 else if k = 516 then toByte (0xF0 + fat2 / 256 % 16)
  else if k = 517 then 0xFF
  else if k = 9728 then 0x41
  else if 9729 ≤ k ∧ k < 9736 then 0x20
  else if k = 9736 then 0x54 else if k = 9737 then 0x58 else if k = 9738 then 0x54
  else if k = 9739 then 0x20
  else if 9754 ≤ k ∧ k < 9756 then (le16 cluster).getD (k - 9754) 0
  else if 9756 ≤ k ∧ k < 9760 then (le32 size).getD (k - 9756) 0
  else if 16896 ≤ k ∧ k < 17408 then 0xAA
  else if 17408 ≤ k ∧ k < 17920 then 0xBB
  else 0

/-- The image `imgNoFree` (no free cluster) with the root entry "C       DAT" in slot 0. -/
def imgNoFreeDup : Image := fun k =>
  if k = 12 then 2 else if k = 19 then 100
  else if 512 ≤ k ∧ k < 616 then 0xFF
  else if k = 9728 then 0x43
  else if 9729 ≤ k ∧ k < 9736 then 0x20
  else if k = 9736 then 0x44 else if k = 9737 then 0x41 else if k = 9738 then 0x54
  else if k = 9739 then 0x20
  else 0

/-- The image `imgSmall` with a completely full root directory: each of the 224 slots
holds a live entry "X       Y  " (trimmed name "X.Y"). -/
def imgFullRoot : Image := fun k =>
  if k = 12 then 2 else if k = 19 then 100
  else if k = 512 then 0xF0 else if k = 513 then 0xFF else if k = 514 then 0xFF
  else if 9728 ≤ k ∧ k < 16896 then
    (if (k - 9728) % 32 = 0 then 0x58
     else if (k - 9728) % 32 = 8 then 0x59
     else if (k - 9728) % 32 < 11 then 0x20
     else 0)
  else 0

/-- The image `imgSmall` whose root slot 0 is a deleted entry (first byte `0xE5`) and whose
root slot 1 is the first never-used slot (first byte `0x00`). -/
def imgDeletedThenFree : Image := fun k =>
  if k = 12 then 2 else if k = 19 then 100
  else if k = 512 then 0xF0 else if k = 513 then 0xFF else if k = 514 then 0xFF
  else if k = 9728 then 0xE5
  else 0

/-- An image whose root holds the subdirectory "SUB" (attribute `0x10`, cluster 2, FAT entry
2 = `0xFFF`); the directory sector 33 holds the entries "." and ".." followed by unused
slots. -/
def imgSub : Image := fun k =>
  if k = 12 then 2 else if k = 19 then 100
  else if k = 512 then 0xF0 else if k = 513 then 0xFF else if k = 514 then 0xFF
  else if k = 515 then 0xFF else if k = 516 then 0x0F
  else if k = 9728 then 0x53 else if k = 9729 then 0x55 else if k = 9730 then 0x42
  else if 9731 ≤ k ∧ k < 9739 then 0x20
  else if k = 9739 then 0x10
  else if k = 9754 then 2
  else if k = 16896 then 0x2E
  else if 16897 ≤ k ∧ k < 16907 then 0x20
  else if k = 16907 then 0x10
  else if k = 16922 then 2
  else if k = 16928 then 0x2E else if k = 16929 then 0x2E
  else if 16930 ≤ k ∧ k < 16939 then 0x20
  else if k = 16939 then 0x10
  else 0

/-- The destination name "SUB". -/
def nameSub : List Byte := [0x53, 0x55, 0x42]

/-- A 512-sector image whose root holds the subdirectory "SUB" at cluster 4. The
directory has two clusters, 4 → 0x185 → end (FAT entry 4 = `0x185`, entry 389 =
`0xFFF`): its first sector (sector 35) holds ".", ".." and 14 deleted entries, its
second sector (sector 420) holds the file "F.X" (cluster 5, FAT entry 5 = `0xFFF`). -/
def imgChain : Image := fun k =>
  if k = 12 then 2 else if k = 20 then 2
  else if k = 512 then 0xF0 else if k = 513 then 0xFF else if k = 514 then 0xFF
  else if k = 518 then 0x85 else if k = 519 then 0xF1 else if k = 520 then 0xFF
  else if k = 1095 then 0xF0 else if k = 1096 then 0xFF
  else if k = 9728 then 0x53 else if k = 9729 then 0x55 else if k = 9730 then 0x42
  else if 9731 ≤ k ∧ k < 9739 then 0x20
  else if k = 9739 then 0x10
  else if k = 9754 then 4
  else if 17920 ≤ k ∧ k < 18432 then
    (if (k - 17920) % 32 = 0 then (if k < 17984 then 0x2E else 0xE5)
     else if k = 17953 then 0x2E
     else if (k - 17920) % 32 < 11 then 0x20
     else if (k - 17920) % 32 = 11 ∧ k < 17984 then 0x10
     else 0)
  else if k = 215040 then 0x46
  else if 215041 ≤ k ∧ k < 215048 then 0x20
  else if k = 215048 then 0x58
  else if 215049 ≤ k ∧ k < 215051 then 0x20
  else if k = 215051 then 0x20
  else if k = 215066 then 5
  else if k = 215068 then 3
  else 0

/-- The freshly formatted image `imgSmall` with the root entry "C       DAT" in slot 0. -/
def imgDup : Image := fun k =>
  if k = 12 then 2 else if k = 19 then 100
  else if k = 512 then 0xF0 else if k = 513 then 0xFF else if k = 514 then 0xFF
  else if k = 9728 then 0x43
  else if 9729 ≤ k ∧ k < 9736 then 0x20
  else if k = 9736 then 0x44 else if k = 9737 then 0x41 else if k = 9738 then 0x54
  else if k = 9739 then 0x20
  else 0

/-- The host file name "ABCDEFGH.TXT". -/
def nameLongTxt : List Byte :=
  [0x41, 0x42, 0x43, 0x44, 0x45, 0x46, 0x47, 0x48, 0x2E, 0x54, 0x58, 0x54]

/-- The image `imgSmall` whose root slot `slot` holds the volume label "VOL1" (attribute
`0x08`); data sector 33, right behind the root region, is filled with `0xAA`. -/
def imgLabel (slot : Nat) : Image := fun k =>
  if k = 12 then 2 else if k = 19 then 100
  else if k = 512 then 0xF0 else if k = 513 then 0xFF else if k = 514 then 0xFF
  else if k = 9728 + 32 * slot then 0x56
  else if k = 9729 + 32 * slot then 0x4F
  else if k = 9730 + 32 * slot then 0x4C
  else if k = 9731 + 32 * slot then 0x31
  else if 9732 + 32 * slot ≤ k ∧ k < 9739 + 32 * slot then 0x20
  else if k = 9739 + 32 * slot then 0x08
  else if 16896 ≤ k ∧ k < 17408 then 0xAA
  else 0

/-- The image `imgFullRoot` (224 live root entries "X.Y" with cluster 0) whose data sector
33, right behind the root region, starts with 32 bytes that read as the entry
"F       X  " (attribute `0x20`, cluster 2). -/
def imgRootOverflow : Image := fun k =>
  if k = 12 then 2 else if k = 19 then 100
  else if k = 512 then 0xF0 else if k = 513 then 0xFF else if k = 514 then 0xFF
  else if 9728 ≤ k ∧ k < 16896 then
    (if (k - 9728) % 32 = 0 then 0x58
     else if (k - 9728) % 32 = 8 then 0x59
     else if (k - 9728) % 32 < 11 then 0x20
     else 0)
  else if k = 16896 then 0x46
  else if 16897 ≤ k ∧ k < 16904 then 0x20
  else if k = 16904 then 0x58
  else if 16905 ≤ k ∧ k < 16907 then 0x20
  else if k = 16907 then 0x20
  else if k = 16922 then 2
  else 0

/-- The host file name "f.x". -/
def nameFX : List Byte := [0x66, 0x2E, 0x78]

/-- A 2880-sector image (2849 FAT entries) whose root holds the subdirectory "SUB" at
cluster 3. The directory has two clusters, 3 → 0x805 → end (FAT entry 3 = `0x805`, entry
0x805 = `0xFFF`): its first sector (sector 34) holds 16 deleted entries, its second sector
(sector 2084) holds the file "F.X" (cluster 5, FAT entry 5 = `0xFFF`). -/
def imgHighLink : Image := fun k =>
  if k = 12 then 2 else if k = 19 then 0x40 else if k = 20 then 0x0B
  else if k = 512 then 0xF0 else if k = 513 then 0xFF else if k = 514 then 0xFF
  else if k = 516 then 0x50 else if k = 517 then 0x80
  else if k = 519 then 0xF0 else if k = 520 then 0xFF
  else if k = 3591 then 0xF0 else if k = 3592 then 0xFF
  else if k = 9728 then 0x53 else if k = 9729 then 0x55 else if k = 9730 then 0x42
  else if 9731 ≤ k ∧ k < 9739 then 0x20
  else if k = 9739 then 0x10
  else if k = 9754 then 3
  else if 17408 ≤ k ∧ k < 17920 then
    (if (k - 17408) % 32 = 0 then 0xE5
     else if (k - 17408) % 32 < 11 then 0x20
     else 0)
  else if k = 1067008 then 0x46
  else if 1067009 ≤ k ∧ k < 1067016 then 0x20
  else if k = 1067016 then 0x58
  else if 1067017 ≤ k ∧ k < 1067019 then 0x20
  else if k = 1067019 then 0x20
  else if k = 1067034 then 5
  else if k = 1067036 then 3
  else 0

/-- An image whose root slot 0 holds the file "README" without extension (name field
"README  ", extension field of three spaces, cluster 2, size 5, FAT entry 2 = `0xFFF`);
data sector 33 is filled with `0xAA`. -/
def imgReadme : Image := fun k =>
  if k = 12 then 2 else if k = 19 then 100
  else if k = 512 then 0xF0 else if k = 513 then 0xFF else if k = 514 then 0xFF
  else if k = 515 then 0xFF else if k = 516 then 0x0F
  else if k = 9728 then 0x52 else if k = 9729 then 0x45 else if k = 9730 then 0x41
  else if k = 9731 then 0x44 else if k = 9732 then 0x4D else if k = 9733 then 0x45
  else if 9734 ≤ k ∧ k < 9739 then 0x20
  else if k = 9739 then 0x20
  else if k = 9754 then 2
  else if k = 9756 then 5
  else if 16896 ≤ k ∧ k < 17408 then 0xAA
  else 0

/-- The name "readme". -/
def nameReadme : List Byte := [0x72, 0x65, 0x61, 0x64, 0x6D, 0x65]

/-- Heap blocks that happen to hold the byte `0x41` everywhere. -/
def heapOfA : Nat → List Byte := fun _ => List.replicate 13 0x41

/-- A 32-byte directory entry with the 11 bytes `name` of the name and extension fields, the
attribute `attr`, the starting cluster `cluster` and the size `size`. -/
def dirEntry (name : List Byte) (attr cluster size : Nat) : List Byte :=
  name ++ [toByte attr] ++ List.replicate 14 0 ++ le16 cluster ++ le32 size

/-- The entry "C       DAT" that `diskput` builds for the host file "c.dat" of `size` bytes
when the first free sector is sector 33 (cluster 2) and the packed date and time are 0. -/
def entryCDat (size : Nat) : List Byte :=
  dirEntry [0x43, 0x20, 0x20, 0x20, 0x20, 0x20, 0x20, 0x20, 0x44, 0x41, 0x54] 0 2 size

/-- The entry "X       Y  " (file, cluster 0, size 0) of the root slots of `imgFullRoot`. -/
def entryXY : List Byte :=
  dirEntry [0x58, 0x20, 0x20, 0x20, 0x20, 0x20, 0x20, 0x20, 0x59, 0x20, 0x20] 0 0 0

/-- The entry "A       TXT" (file, cluster 3, size 5). -/
def entryA : List Byte :=
  dirEntry [0x41, 0x20, 0x20, 0x20, 0x20, 0x20, 0x20, 0x20, 0x54, 0x58, 0x54] 0x20 3 5

/-- The entry "SUB        " (subdirectory, cluster 2). -/
def entrySub : List Byte :=
  dirEntry [0x53, 0x55, 0x42, 0x20, 0x20, 0x20, 0x20, 0x20, 0x20, 0x20, 0x20] 0x10 2 0

/-- The entry "C       TXT" (file, cluster 4, size 7). -/
def entryC : List Byte :=
  dirEntry [0x43, 0x20, 0x20, 0x20, 0x20, 0x20, 0x20, 0x20, 0x54, 0x58, 0x54] 0x20 4 7

/-- The entry "B       BIN" (file, cluster 5, size 1). -/
def entryB : List Byte :=
  dirEntry [0x42, 0x20, 0x20, 0x20, 0x20, 0x20, 0x20, 0x20, 0x42, 0x49, 0x4E] 0x20 5 1

/-- The entry "OLD     TXT" (file, cluster 6, size 9). -/
def entryOld : List Byte :=
  dirEntry [0x4F, 0x4C, 0x44, 0x20, 0x20, 0x20, 0x20, 0x20, 0x54, 0x58, 0x54] 0x20 6 9

/-- An image with a small tree. Root: "A.TXT", the subdirectory "SUB" (cluster 2), "C.TXT",
a never-used slot and, behind it, the stale entry "OLD.TXT". Sector 33 (the directory
"SUB"): ".", "..", "B.BIN", a never-used slot and, behind it, the stale entry "OLD.TXT".
FAT entries 2 to 5 hold `0xFFF`. -/
def imgTree : Image := fun k =>
  if k = 12 then 2 else if k = 19 then 100
  else if k = 512 then 0xF0 else if 513 ≤ k ∧ k < 521 then 0xFF
  else if 9728 ≤ k ∧ k < 9760 then entryA.getD (k - 9728) 0
  else if 9760 ≤ k ∧ k < 9792 then entrySub.getD (k - 9760) 0
  else if 9792 ≤ k ∧ k < 9824 then entryC.getD (k - 9792) 0
  else if 9856 ≤ k ∧ k < 9888 then entryOld.getD (k - 9856) 0
  else if 16896 ≤ k ∧ k < 16928 then
    (dirEntry [0x2E, 0x20, 0x20, 0x20, 0x20, 0x20, 0x20, 0x20, 0x20, 0x20, 0x20] 0x10 2 0).getD (k - 16896) 0
  else if 16928 ≤ k ∧ k < 16960 then
    (dirEntry [0x2E, 0x2E, 0x20, 0x20, 0x20, 0x20, 0x20, 0x20, 0x20, 0x20, 0x20] 0x10 0 0).getD (k - 16928) 0
  else if 16960 ≤ k ∧ k < 16992 then entryB.getD (k - 16960) 0
  else if 17024 ≤ k ∧ k < 17056 then entryOld.getD (k - 17024) 0
  else 0

/-- A state of `diskput` on the image `imgSmall` before the first chunk of a 700-byte host
file is written: the FAT mirror as loaded, the read position at the end of the file. -/
def stFresh : PutState := ⟨imgSmall, load_fat imgSmall 69, 700⟩

/-- The host file "HELLO" (5 bytes). -/
def fileHello : List Byte := [0x48, 0x45, 0x4C, 0x4C, 0x4F]

/-- Stack content that holds the byte `0x33` everywhere. -/
def stackOf33 : Int → List Byte := fun _ => List.replicate 512 0x33

/-- Blocks returned by `emalloc(bytes_per_sector)` that happen to be zero-filled. -/
def sectorsZero : Nat → List Byte := fun _ => List.replicate 512 0

/-- Blocks returned by `emalloc(bytes_per_sector)` that happen to hold 16 copies of the
entry "OLD     TXT" (a file with cluster 6). -/
def sectorsOld : Nat → List Byte := fun _ => (List.replicate 16 entryOld).flatten

/-- A 2880-sector image (2849 FAT entries, 1474560 bytes) whose root holds two files with
recorded size `3 * 512`: "A.TXT" with the chain 3 → 0x805 → 0x806 → end and "B.TXT" with
the chain 4 → 0x805 → 0x806 → end (FAT entries 3 and 4 = `0x805`, entry 0x805 = `0x806`,
entry 0x806 = `0xFFF`). Sector 34 (cluster 3) is filled with `0xBB`, sector 35 (cluster 4)
with `0xAA`, sector 2084 (cluster 0x805) with `0xCC`, sector 2085 (cluster 0x806) with
`0xDD`. -/
def imgHighLinkFile : Image := fun k =>
  if k = 12 then 2 else if k = 19 then 0x40 else if k = 20 then 0x0B
  else if k = 512 then 0xF0 else if k = 513 then 0xFF else if k = 514 then 0xFF
  else if k = 516 then 0x50 else if k = 517 then 0x80
  else if k = 518 then 0x05 else if k = 519 then 0x08
  else if k = 3591 then 0x60 else if k = 3592 then 0x80
  else if k = 3593 then 0xFF else if k = 3594 then 0x0F
  else if 9728 ≤ k ∧ k < 9760 then
    (dirEntry [0x41, 0x20, 0x20, 0x20, 0x20, 0x20, 0x20, 0x20, 0x54, 0x58, 0x54] 0x20 3 1536).getD
      (k - 9728) 0
  else if 9760 ≤ k ∧ k < 9792 then
    (dirEntry [0x42, 0x20, 0x20, 0x20, 0x20, 0x20, 0x20, 0x20, 0x54, 0x58, 0x54] 0x20 4 1536).getD
      (k - 9760) 0
  else if 17408 ≤ k ∧ k < 17920 then 0xBB
  else if 17920 ≤ k ∧ k < 18432 then 0xAA
  else if 1067008 ≤ k ∧ k < 1067520 then 0xCC
  else if 1067520 ≤ k ∧ k < 1068032 then 0xDD
  else 0

/-- The name "b.txt". -/
def nameBTxt : List Byte := [0x62, 0x2E, 0x74, 0x78, 0x74]

/-- Stack content that holds the byte `0xEE` everywhere (the arrays `content` of
`get_file` of `diskget`). -/
def stackOfEE : Int → List Byte := fun _ => List.replicate 512 0xEE

/-- The entry "G       TXT" (file, cluster 5, size 1). -/
def entryG : List Byte :=
  dirEntry [0x47, 0x20, 0x20, 0x20, 0x20, 0x20, 0x20, 0x20, 0x54, 0x58, 0x54] 0x20 5 1

/-- An image (`bytes_per_sector = 512`, `total_sectors = 100`) whose root holds the
subdirectory "SUB" at cluster 2 with the chain 2 → 0x41 → end (FAT entry 2 = `0x041`,
entry 0x41 = `0x0FF`). Sector 33, the first sector of the directory, holds the file
"G.TXT" followed by 15 deleted entries; the second sector of the directory is sector 96,
at byte offset 49152. -/
def imgShort : Image := fun k =>
  if k = 12 then 2 else if k = 19 then 100
  else if k = 512 then 0xF0 else if k = 513 then 0xFF else if k = 514 then 0xFF
  else if k = 515 then 0x41
  else if k = 609 then 0xF0 else if k = 610 then 0x0F
  else if 9728 ≤ k ∧ k < 9760 then entrySub.getD (k - 9728) 0
  else if 16896 ≤ k ∧ k < 16928 then entryG.getD (k - 16896) 0
  else if 16928 ≤ k ∧ k < 17408 then (if (k - 16896) % 32 = 0 then 0xE5 else 0)
  else 0

/-! ## Lemmas on the byte arithmetic -/

theorem or_shl_arith (a x k : Nat) (h : a < 2 ^ k) : a ||| (x <<< k) = a + 2 ^ k * x := by
  rw [Nat.shiftLeft_eq, Nat.or_comm, Nat.mul_comm x, ← Nat.mul_add_lt_is_or h]
  omega

theorem byte_and_F0 : ∀ b : Byte, (b.val &&& 0xF0) >>> 4 = b.val / 16 := by decide!
theorem byte_and_0F : ∀ b : Byte, b.val &&& 0x0F = b.val % 16 := by decide!

theorem specEven_arith (a b : Byte) : a.val ||| ((b.val &&& 0x0F) <<< 8) = a.val + 256 * (b.val % 16) := by
  rw [or_shl_arith _ _ 8 (by have := a.isLt; omega), byte_and_0F]
  norm_num

theorem specOdd_arith (a b : Byte) : ((a.val &&& 0xF0) >>> 4) ||| (b.val <<< 4) = a.val / 16 + 16 * b.val := by
  rw [byte_and_F0, or_shl_arith _ _ 4 (by have := a.isLt; omega)]
  norm_num

theorem charToInt_and_F0 : ∀ b : Byte, (charToInt b &&& 0xF0) >>> 4 = b.val / 16 := by decide!
theorem charToInt_and_0F : ∀ b : Byte, charToInt b &&& 0x0F = b.val % 16 := by decide!
theorem charToInt_and_FF : ∀ b : Byte, charToInt b &&& 0x0FF = b.val := by decide!
theorem charToInt_shl4 : ∀ b : Byte, wrap32 (charToInt b <<< 4) = if b.val < 128 then 16 * b.val else 16 * b.val + 4294963200 := by decide!

/-- Arithmetic form of the specification's entry. -/
theorem specEntry_arith (fat_table : List Byte) (i : Nat) :
    specEntry fat_table i =
      if i % 2 = 0 then (fat_table.getD (3 * i / 2) 0).val + 256 * ((fat_table.getD (3 * i / 2 + 1) 0).val % 16)
      else (fat_table.getD ((3 * i + 1) / 2 - 1) 0).val / 16 + 16 * (fat_table.getD ((3 * i + 1) / 2) 0).val := by
  unfold specEntry
  split
  · exact specEven_arith _ _
  · exact specOdd_arith _ _

theorem get_fat_eq (fat_table : List Byte) (fat_size i : Nat) (hN : fat_size ≠ 0)
    (hb : (3 * i + 2) / 2 < fat_table.length) (hw : fat_table.length ≤ 65536) :
    get_fat fat_table fat_size i =
      some (if i % 2 = 1 ∧ 2048 ≤ specEntry fat_table i then specEntry fat_table i + 61440
            else specEntry fat_table i) := by
  have hi : toUint16 i = i := by unfold toUint16; omega
  rw [specEntry_arith]
  unfold get_fat
  simp only [hi, if_neg hN, Nat.and_one_is_mod]
  rcases Nat.mod_two_eq_zero_or_one i with h0 | h1
  · have hj : toUint16 (i * 3 / 2) = 3 * i / 2 := by unfold toUint16; omega
    have h1 : 3 * i / 2 + 1 < fat_table.length := by omega
    have h2 : 3 * i / 2 < fat_table.length := by omega
    simp only [h0, hj, List.getElem?_eq_getElem h1, List.getElem?_eq_getElem h2,
      List.getD_eq_getElem _ _ h1, List.getD_eq_getElem _ _ h2, charToInt_and_0F, charToInt_and_FF,
      Nat.shiftLeft_eq]
    have := (fat_table[3 * i / 2]).isLt
    simp [wrap32, toUint16]
    omega
  · have hj : toUint16 ((1 + i * 3) / 2) = (3 * i + 1) / 2 := by unfold toUint16; omega
    have h3 : (3 * i + 1) / 2 - 1 < fat_table.length := by omega
    have h2 : (3 * i + 1) / 2 < fat_table.length := by omega
    simp only [h1, hj, List.getElem?_eq_getElem h3, List.getElem?_eq_getElem h2,
      List.getD_eq_getElem _ _ h3, List.getD_eq_getElem _ _ h2, charToInt_and_F0, charToInt_shl4]
    have := (fat_table[(3 * i + 1) / 2]).isLt
    have := (fat_table[(3 * i + 1) / 2 - 1]).isLt
    simp [wrap32, toUint16]
    split <;> split <;> omega

theorem specEntry_lt (fat_table : List Byte) (i : Nat) : specEntry fat_table i < 4096 := by
  rw [specEntry_arith]
  split
  · have := (fat_table.getD (3 * i / 2) 0).isLt
    omega
  · have := (fat_table.getD ((3 * i + 1) / 2) 0).isLt
    have := (fat_table.getD ((3 * i + 1) / 2 - 1) 0).isLt
    omega

theorem info_get_fat_eq (fat_table : List Byte) (fat_size i : Nat) (hN : fat_size ≠ 0)
    (hb : (3 * i + 2) / 2 < fat_table.length) :
    ∃ v, Diskinfo.get_fat fat_table fat_size i = some v ∧ v < 4294967296 ∧
      int32Val v = (specEntry fat_table i : Int) -
        (if i % 2 = 0 then (if 128 ≤ specEntry fat_table i % 256 then 256 else 0)
         else (if 2048 ≤ specEntry fat_table i then 4096 else 0)) := by
  rw [specEntry_arith]
  unfold Diskinfo.get_fat
  simp only [if_neg hN, Nat.and_one_is_mod]
  rcases Nat.mod_two_eq_zero_or_one i with h0 | h1
  · have hj : i * 3 / 2 = 3 * i / 2 := by omega
    have h1 : 3 * i / 2 + 1 < fat_table.length := by omega
    have h2 : 3 * i / 2 < fat_table.length := by omega
    have hne : ¬ ((0 : Nat) ≠ 0) := by simp
    simp only [h0, hj, if_neg hne, if_true, List.getElem?_eq_getElem h1, List.getElem?_eq_getElem h2,
      List.getD_eq_getElem _ _ h1, List.getD_eq_getElem _ _ h2, charToInt_and_0F,
      Nat.shiftLeft_eq, Nat.reducePow]
    have := (fat_table[3 * i / 2]).isLt
    refine ⟨_, rfl, ?_, ?_⟩
    · unfold wrap32; omega
    · simp only [wrap32, int32Val, charToInt]
      split <;> split <;> split <;> omega
  · have hj : (1 + i * 3) / 2 = (3 * i + 1) / 2 := by omega
    have h3 : (3 * i + 1) / 2 - 1 < fat_table.length := by omega
    have h2 : (3 * i + 1) / 2 < fat_table.length := by omega
    have hne : (1 : Nat) ≠ 0 := by simp
    have hne2 : ¬ ((1 : Nat) = 0) := by simp
    simp only [h1, hj, if_pos hne, if_neg hne2, List.getElem?_eq_getElem h3, List.getElem?_eq_getElem h2,
      List.getD_eq_getElem _ _ h3, List.getD_eq_getElem _ _ h2, charToInt_and_F0, charToInt_shl4]
    have := (fat_table[(3 * i + 1) / 2]).isLt
    have := (fat_table[(3 * i + 1) / 2 - 1]).isLt
    refine ⟨_, rfl, ?_, ?_⟩
    · unfold wrap32; omega
    · simp only [wrap32, int32Val]
      split <;> split <;> split <;> omega

/-- The counting loop returns the accumulator plus the number of indices of `[i, i + n)`
selected by `p`, as soon as the reader succeeds there and reads zero exactly on `p`. -/
theorem countLoop_eq (rd : Nat → Option Nat) (p : Nat → Bool) :
    ∀ (n i acc : Nat),
      (∀ k, i ≤ k → k < i + n → ∃ v, rd k = some v ∧ (v = 0 ↔ p k = true)) →
      countLoop rd n i acc = some (acc + ((List.range' i n).filter p).length) := by
  intro n
  induction n with
  | zero => intro i acc _; simp [countLoop]
  | succ n ih =>
    intro i acc h
    obtain ⟨v, hv, hz⟩ := h i (Nat.le_refl i) (by omega)
    have hrest : ∀ k, i + 1 ≤ k → k < i + 1 + n →
        ∃ v, rd k = some v ∧ (v = 0 ↔ p k = true) := fun k h1 h2 => h k (by omega) (by omega)
    rw [countLoop, hv]
    simp only
    rw [ih (i + 1) _ hrest, List.range'_succ, List.filter_cons]
    by_cases hp : p i = true
    · have : v = 0 := hz.mpr hp
      simp [hp, this]; omega
    · have : v ≠ 0 := fun h0 => hp (hz.mp h0)
      simp [hp, this]

/-- Every index below `fat_size` reads inside a mirror of `fat_mem_size fat_size` bytes. -/
theorem index_in_mirror (fat_size i : Nat) (hi : i < fat_size) :
    (3 * i + 2) / 2 < fat_mem_size fat_size := by
  unfold fat_mem_size
  rw [Nat.and_one_is_mod]
  split <;> omega

theorem length_readBytes (img : Image) (off n : Nat) : (readBytes img off n).length = n := by
  simp [readBytes]

theorem length_load_fat (img : Image) (fat_size : Nat) :
    (load_fat img fat_size).length = fat_mem_size fat_size := by
  simp [load_fat, length_readBytes]

/-! ## Reading back what was written -/

theorem getD_readBytes (img : Image) (off n i : Nat) (h : i < n) :
    (readBytes img off n).getD i 0 = img (off + i) := by
  simp [readBytes, List.getD_eq_getElem?_getD, h]

/-- A read that does not meet the written bytes sees the image as it was. -/
theorem readBytes_writeBytes_disjoint (img : Image) (off : Nat) (bs : List Byte) (a n : Nat)
    (h : a + n ≤ off ∨ off + bs.length ≤ a) :
    readBytes (writeBytes img off bs) a n = readBytes img a n := by
  unfold readBytes
  apply List.map_congr_left
  intro k hk
  have hk2 : k < n := List.mem_range.mp hk
  unfold writeBytes
  rw [if_neg (by omega)]

/-- A read inside the written bytes delivers them. -/
theorem readBytes_writeBytes_inside (img : Image) (off : Nat) (bs : List Byte) (a n : Nat)
    (h1 : off ≤ a) (h2 : a + n ≤ off + bs.length) :
    readBytes (writeBytes img off bs) a n = (bs.drop (a - off)).take n := by
  apply List.ext_getElem
  · rw [length_readBytes, List.length_take, List.length_drop]
    omega
  · intro i hi1 hi2
    have hi : i < n := by rw [length_readBytes] at hi1; exact hi1
    simp only [readBytes, List.getElem_map, List.getElem_range, List.getElem_take,
      List.getElem_drop]
    unfold writeBytes
    rw [if_pos (by omega)]
    have hlt : a + i - off < bs.length := by omega
    rw [List.getD_eq_getElem _ _ hlt]
    congr 1
    omega

theorem readBytes_add (img : Image) (a n m : Nat) :
    readBytes img a (n + m) = readBytes img a n ++ readBytes img (a + n) m := by
  unfold readBytes
  rw [List.range_add, List.map_append, List.map_map]
  congr 1
  apply List.map_congr_left
  intro k _
  simp only [Function.comp, Nat.add_assoc]


/-- A read that lies inside the image file delivers the bytes of the file. -/
theorem freadAt_in_file (img : Image) (size off n : Nat) (old : List Byte) (h : off + n ≤ size) :
    freadAt img size off n old = readBytes img off n := by
  unfold freadAt readBytes
  apply List.map_congr_left
  intro k hk
  have hk2 : k < n := List.mem_range.mp hk
  rw [if_pos (by omega)]

/-- A write behind the FAT region leaves the FAT of the image as it was. -/
theorem load_fat_writeBytes (img : Image) (off : Nat) (bs : List Byte) (fat_size : Nat)
    (h : 0x200 + fat_mem_size fat_size ≤ off) :
    load_fat (writeBytes img off bs) fat_size = load_fat img fat_size :=
  readBytes_writeBytes_disjoint img off bs 0x200 (fat_mem_size fat_size) (Or.inl h)

/-- A region of the image that holds one byte value reads as that value repeated. -/
theorem readBytes_eq_replicate (img : Image) (a n : Nat) (x : Byte)
    (h : ∀ k, a ≤ k → k < a + n → img k = x) : readBytes img a n = List.replicate n x := by
  apply List.ext_getElem
  · rw [length_readBytes, List.length_replicate]
  · intro i h1 h2
    rw [length_readBytes] at h1
    simp only [readBytes, List.getElem_map, List.getElem_range, List.getElem_replicate]
    exact h _ (by omega) (by omega)

/-! ## The FAT mirror read through the image -/

theorem getD_load_fat (img : Image) (fat_size j : Nat) (h : j < fat_mem_size fat_size) :
    (load_fat img fat_size).getD j 0 = img (0x200 + j) :=
  getD_readBytes img 0x200 (fat_mem_size fat_size) j h

/-- The 12-bit entry of the loaded FAT in terms of the bytes of the image. -/
theorem specEntry_load_fat (img : Image) (fat_size i : Nat)
    (h : (3 * i + 2) / 2 < fat_mem_size fat_size) :
    specEntry (load_fat img fat_size) i =
      if i % 2 = 0 then
        (img (0x200 + 3 * i / 2)).val ||| (((img (0x200 + (3 * i / 2 + 1))).val &&& 0x0F) <<< 8)
      else
        (((img (0x200 + ((3 * i + 1) / 2 - 1))).val &&& 0xF0) >>> 4) |||
          ((img (0x200 + (3 * i + 1) / 2)).val <<< 4) := by
  unfold specEntry
  rw [getD_load_fat img fat_size (3 * i / 2) (by omega),
    getD_load_fat img fat_size (3 * i / 2 + 1) (by omega),
    getD_load_fat img fat_size ((3 * i + 1) / 2 - 1) (by omega),
    getD_load_fat img fat_size ((3 * i + 1) / 2) (by omega)]

/-- A read of the loaded FAT `get_fat` makes outside the mirror. -/
theorem getElem?_load_fat_none (img : Image) (fat_size j : Nat) (h : fat_mem_size fat_size ≤ j) :
    (load_fat img fat_size)[j]? = none := by
  rw [List.getElem?_eq_none_iff, length_load_fat]
  exact h

/-! ## `diskget` step by step -/

/-- `main` of `diskget.c` once the root entry is found. -/
theorem get_main_of_found (fuel : Nat) (img : Image) (size : Nat) (file_name : List Byte)
    (heap : Nat → List Byte) (stack : Int → List Byte) (N : Nat) (e : List Byte) (c sz : Nat)
    (occ : Int)
    (hT : ¬ total_sectors img < 31) (hN : total_sectors img + 2 - 33 = N)
    (hB : bytes_per_sector img = 512)
    (hfound : Diskget.get_file_entry_in_root img heap (19 * 512) (file_name.map toupper) = .found e)
    (hc : 33 + entry_cluster e - 2 = c) (hs : entry_size e = sz)
    (hocc : int32Val (sz / 512 + (if sz % 512 ≠ 0 then 1 else 0)) = occ) :
    Diskget.main fuel img size file_name false heap stack =
      match Diskget.get_file img size stack (load_fat img N) N fuel c occ sz with
      | .ok out => ⟨.done, out⟩
      | .fault => ⟨.fault, []⟩
      | .outOfFuel => ⟨.outOfFuel, []⟩ := by
  have h512 : ¬ (512 : Nat) = 0 := by decide
  unfold Diskget.main
  simp only [Bool.false_eq_true, if_false, if_neg hT, hN, hB, hfound, hc, hs, if_neg h512, hocc]

/-- The last activation of `get_file`. -/
theorem get_file_last (img : Image) (size : Nat) (stack : Int → List Byte) (fat_table : List Byte)
    (fat_size fuel f cur total : Nat) (hf : fuel = f + 1) :
    Diskget.get_file img size stack fat_table fat_size fuel cur 1 total =
      .ok (freadAt img size (cur * 512) (total % 512) (stack 1)) := by
  subst hf
  rw [Diskget.get_file]
  simp

/-- An activation of `get_file` that is not the last one and reads a link. -/
theorem get_file_link (img : Image) (size : Nat) (stack : Int → List Byte) (fat_table : List Byte)
    (fat_size fuel f cur : Nat) (n m : Int) (total i v : Nat) (hf : fuel = f + 1)
    (hm : n - 1 = m) (hm0 : m ≠ 0) (hi : cur + 2 - 33 = i)
    (hv : get_fat fat_table fat_size i = some v) :
    Diskget.get_file img size stack fat_table fat_size fuel cur n total =
      match Diskget.get_file img size stack fat_table fat_size f (v + 33 - 2) m total with
      | .ok rest => .ok (freadAt img size (cur * 512) 512 (stack n) ++ rest)
      | r => r := by
  subst hf
  rw [Diskget.get_file]
  simp only [hm, if_neg hm0, hi, hv]

/-- An activation of `get_file` that is not the last one and reads the FAT outside the
mirror. -/
theorem get_file_no_link (img : Image) (size : Nat) (stack : Int → List Byte)
    (fat_table : List Byte) (fat_size fuel f cur : Nat) (n m : Int) (total i : Nat)
    (hf : fuel = f + 1) (hm : n - 1 = m) (hm0 : m ≠ 0) (hi : cur + 2 - 33 = i)
    (hv : get_fat fat_table fat_size i = none) :
    Diskget.get_file img size stack fat_table fat_size fuel cur n total = .fault := by
  subst hf
  rw [Diskget.get_file]
  simp only [hm, if_neg hm0, hi, hv]

/-- For an odd index whose byte offset lies behind the mirror `get_fat` reads outside the
mirror. -/
theorem get_fat_odd_outside (fat_table : List Byte) (fat_size i : Nat) (hN : ¬ fat_size = 0)
    (hodd : toUint16 i &&& 0x01 ≠ 0)
    (hj : fat_table.length ≤ toUint16 ((1 + toUint16 i * 3) / 2) - 1) :
    get_fat fat_table fat_size i = none := by
  unfold get_fat
  simp only [if_neg hN, if_pos hodd]
  rw [List.getElem?_eq_none_iff.mpr hj]

/-- Function `getFreeBlocks` of `diskinfo.c` counts the free entries of the specification. -/
theorem info_getFreeBlocks_eq (fat_table : List Byte) (fat_size : Nat) (hN : fat_size ≠ 0)
    (hlen : fat_table.length = fat_mem_size fat_size) :
    Diskinfo.getFreeBlocks fat_table fat_size = some (specFreeCount fat_table fat_size : Int) := by
  unfold Diskinfo.getFreeBlocks specFreeCount
  rw [if_neg hN, countLoop_eq _ (fun i => decide (specEntry fat_table i = 0))]
  · simp
  · intro k h2 hk
    have hb : (3 * k + 2) / 2 < fat_table.length := by
      rw [hlen]; exact index_in_mirror _ _ (by omega)
    obtain ⟨v, hv, hlt, hval⟩ := info_get_fat_eq fat_table fat_size k hN hb
    refine ⟨v, hv, ?_⟩
    have hs := specEntry_lt fat_table k
    simp only [decide_eq_true_eq]
    unfold int32Val at hval
    constructor
    · intro h0; subst h0
      simp only [Nat.zero_mod] at hval
      split at hval <;> split at hval <;> omega
    · intro h0
      rw [h0] at hval
      simp at hval
      split at hval <;> omega

/-- Function `getFreeBlocks` of `diskput.c` counts the free entries of the specification
when the byte offsets of the mirror fit the `uint16_t` index of `get_fat`. -/
theorem put_getFreeBlocks_eq (fat_table : List Byte) (fat_size : Nat) (hN : fat_size ≠ 0)
    (hlen : fat_table.length = fat_mem_size fat_size) (hw : fat_table.length ≤ 65536) :
    getFreeBlocks fat_table fat_size = some (specFreeCount fat_table fat_size : Int) := by
  unfold getFreeBlocks specFreeCount
  rw [if_neg hN, countLoop_eq _ (fun i => decide (specEntry fat_table i = 0))]
  · simp
  · intro k h2 hk
    have hb : (3 * k + 2) / 2 < fat_table.length := by
      rw [hlen]; exact index_in_mirror _ _ (by omega)
    rw [get_fat_eq fat_table fat_size k hN hb hw]
    refine ⟨_, rfl, ?_⟩
    simp only [decide_eq_true_eq]
    split <;> omega

theorem int32Val_of_lt (x : Nat) (h : x < 2147483648) : int32Val x = (x : Int) := by
  unfold int32Val
  rw [Nat.mod_eq_of_lt (by omega), if_pos h]

/-! ## Claims -/

/-- C1 (the claim fails on the code): on the 4-entry FAT `F0 FF FF 00 F0 FF`, whose entry 3
is the 12-bit end-of-chain value `0xFFF`, `get_fat(3)` of `diskput.c` / `diskget.c`
returns `0xFFFF`: the high byte `0xFF` is read as a signed `char` and sign-extended
before the shift, so the result is not the 12-bit entry and is not below `0x1000`. -/
theorem get_fat_odd_entry_not_12_bit :
    get_fat fatEoc3 4 3 = some 0xFFFF ∧ specEntry fatEoc3 3 = 0xFFF ∧
      ¬ (∀ v, get_fat fatEoc3 4 3 = some v → v < 4096) := by
  decide

/-- C2 (the claim fails on the code): on the FAT `F0 FF FF FF 0F 00` (entry 2 = `0xFFF`,
entry 3 = 0), `update_fat(2, 0x123)` adds the new high nibble to the old byte instead of
replacing it: afterwards `get_fat(2)` is `0x023`, not `0x123`, and the neighbouring
entry 3 has changed from `0x000` to `0x001`. -/
theorem update_fat_adds_to_old_nibble :
    update_fat fatEoc2 2 0x123 = some [0xF0, 0xFF, 0xFF, 0x23, 0x10, 0x00] ∧
      get_fat fatEoc2 4 3 = some 0 ∧
      (update_fat fatEoc2 2 0x123).bind (fun t => get_fat t 4 2) = some 0x023 ∧
      (update_fat fatEoc2 2 0x123).bind (fun t => get_fat t 4 3) = some 0x001 := by
  decide

/-- C3: for every image with more than 31 sectors (a loaded FAT of
`N = total_sectors - 31` entries), `getFreeBlocks` of `diskinfo.c` returns the number of
indices in `[2, N)` whose 12-bit entry is `0x000`; the free size computed by `diskinfo`
is that count times `bytes_per_sector` (when the product fits the `int` holding it);
and `getFreeBlocks` of `diskput.c` returns the same count whenever the mirror's byte
offsets fit the `uint16_t` index used by its `get_fat` (at most 65536 bytes, which
holds for every FAT12 volume). -/
theorem getFreeBlocks_counts_free_entries (img : Image) (hT : 31 < total_sectors img)
    (hfit : specFreeCount (load_fat img (total_sectors img + 2 - 33)) (total_sectors img + 2 - 33)
      * bytes_per_sector img < 2147483648) :
    Diskinfo.getFreeBlocks (load_fat img (total_sectors img + 2 - 33)) (total_sectors img + 2 - 33)
        = some (specFreeCount (load_fat img (total_sectors img + 2 - 33))
            (total_sectors img + 2 - 33) : Int) ∧
      Diskinfo.free_disk_size img
        = some ((specFreeCount (load_fat img (total_sectors img + 2 - 33))
            (total_sectors img + 2 - 33) * bytes_per_sector img : Nat) : Int) ∧
      (fat_mem_size (total_sectors img + 2 - 33) ≤ 65536 →
        getFreeBlocks (load_fat img (total_sectors img + 2 - 33)) (total_sectors img + 2 - 33)
          = some (specFreeCount (load_fat img (total_sectors img + 2 - 33))
              (total_sectors img + 2 - 33) : Int)) := by
  have hN : total_sectors img + 2 - 33 ≠ 0 := by omega
  have hinfo := info_getFreeBlocks_eq _ _ hN (length_load_fat img _)
  refine ⟨hinfo, ?_, ?_⟩
  · unfold Diskinfo.free_disk_size
    rw [if_neg (by omega)]
    simp only [hinfo]
    rw [if_neg (by omega)]
    congr 1
    rw [← Nat.cast_mul, Int.toNat_natCast]
    unfold int32Val
    rw [Nat.mod_eq_of_lt (by omega), if_pos hfit]
  · intro hw
    exact put_getFreeBlocks_eq _ _ hN (length_load_fat img _) (by rw [length_load_fat]; exact hw)

/-- Witness for C3 on the image `imgTiny` (4 FAT entries, one of them free). -/
theorem getFreeBlocks_counts_free_entries_witness :
    31 < total_sectors imgTiny ∧
      Diskinfo.getFreeBlocks (load_fat imgTiny 4) 4 = some 1 ∧
      Diskinfo.free_disk_size imgTiny = some 512 ∧
      getFreeBlocks (load_fat imgTiny 4) 4 = some 1 := by
  have h := getFreeBlocks_counts_free_entries imgTiny (by decide) (by decide)
  have e : specFreeCount (load_fat imgTiny (total_sectors imgTiny + 2 - 33))
      (total_sectors imgTiny + 2 - 33) = 1 := by decide
  have t : total_sectors imgTiny + 2 - 33 = 4 := by decide
  have b : bytes_per_sector imgTiny = 512 := by decide
  rw [e, t, b] at h
  exact ⟨by decide, h.1, h.2.1, h.2.2 (by decide)⟩

/-- C4 (the claim fails on the code): `get_free_sector` tests `get_fat(start_sector+33-2)`,
that is FAT index `start_sector + 31`, not the cluster `start_sector - 31` of the sector.
On a 69-entry FAT whose cluster 2 is in use and whose cluster 3 is the first free one
it returns sector 33 (cluster 2), not sector 34; and on a FAT without free entry it
reads past the end of the mirror instead of failing with NoSpace. -/
theorem get_free_sector_tests_wrong_index :
    get_fat fatUsed2 69 2 = some 0xFFF ∧ get_fat fatUsed2 69 3 = some 0 ∧
      get_free_sector fatUsed2 69 100 = .ok 33 ∧
      get_free_sector fatNoFree 69 100 = .fault := by
  decide!

/-! ## The runs of `diskput` on `imgSmall` -/

theorem getFreeBlocks_imgSmall : getFreeBlocks (load_fat imgSmall 69) 69 = some 67 := by
  decide!

/-- On an image with 100 sectors and 67 free clusters, `main` of `diskput.c` reaches the
slot search for a host file that fits. -/
theorem put_main_reaches_search (fuel : Nat) (img : Image) (destination : Option (List Byte))
    (file_name file : List Byte)
    (d t : Nat) (heap : Nat → List Byte) (stack : Int → List Byte)
    (hT : total_sectors img = 100)
    (hfree : getFreeBlocks (load_fat img 69) 69 = some 67)
    (hfit : ¬ int32Val file.length > 67 * 512) :
    Diskput.main fuel img destination file_name (some file) d t heap stack =
      Diskput.main_after_space_check fuel img (load_fat img 69) 69
        (destination.getD [0x52, 0x4F, 0x4F, 0x54])
        (file_name.map toupper) file d t heap stack := by
  have h1 : ¬ ((67 : Int) = -1) := by decide
  unfold Diskput.main
  simp only [hT, Nat.reduceAdd, Nat.reduceSub, Nat.reduceLT, if_false, hfree, if_neg h1, if_neg hfit]

set_option maxRecDepth 100000 in
/-- The 700-byte file: both chunks go to data sector 33. -/
theorem put_cdat_700 :
    Diskput.main 100 imgSmall none nameCDat (some (fileOfA 700)) 0 0 heapZero stackMarked =
      ⟨.done,
        writeBytes (writeBytes (writeBytes imgSmall 9728 (entryCDat 700))
          (33 * 512) (List.replicate 512 0x11)) (33 * 512) (List.replicate 188 0x22),
        [0xF0, 0xFF, 0xFF, 0xFF, 0x13] ++ List.replicate 99 0⟩ := by
  rw [put_main_reaches_search 100 imgSmall none nameCDat (fileOfA 700) 0 0 heapZero stackMarked
    (by decide) getFreeBlocks_imgSmall (by decide)]
  rfl

set_option maxRecDepth 100000 in
/-- The 1200-byte file: the three chunks go to data sector 33. -/
theorem put_cdat_1200 :
    Diskput.main 100 imgSmall none nameCDat (some (fileOfA 1200)) 0 0 heapZero stackMarked =
      ⟨.done,
        writeBytes (writeBytes (writeBytes (writeBytes imgSmall 9728 (entryCDat 1200))
          (33 * 512) (List.replicate 512 0x22)) (33 * 512) (List.replicate 512 0x11))
          (33 * 512) (List.replicate 176 0x22),
        [0xF0, 0xFF, 0xFF, 0xFF, 0x17] ++ List.replicate 99 0⟩ := by
  rw [put_main_reaches_search 100 imgSmall none nameCDat (fileOfA 1200) 0 0 heapZero stackMarked
    (by decide) getFreeBlocks_imgSmall (by decide)]
  rfl

set_option maxRecDepth 100000 in
/-- The 2-byte file. -/
theorem put_cdat_2 :
    Diskput.main 100 imgSmall none nameCDat (some (fileOfA 2)) 0 0 heapZero stackMarked =
      ⟨.done,
        writeBytes (writeBytes imgSmall 9728 (entryCDat 2)) (33 * 512) (List.replicate 2 0x22),
        [0xF0, 0xFF, 0xFF, 0xFF, 0x0F] ++ List.replicate 99 0⟩ := by
  rw [put_main_reaches_search 100 imgSmall none nameCDat (fileOfA 2) 0 0 heapZero stackMarked
    (by decide) getFreeBlocks_imgSmall (by decide)]
  rfl

theorem length_entryCDat (size : Nat) : (entryCDat size).length = 32 := rfl

/-- Data sector 33 after the insert of the 700-byte file. -/
theorem sector_33_after_put_700 :
    readBytes (writeBytes (writeBytes (writeBytes imgSmall 9728 (entryCDat 700))
        (33 * 512) (List.replicate 512 0x11)) (33 * 512) (List.replicate 188 0x22)) (33 * 512) 512
      = List.replicate 188 0x22 ++ List.replicate 324 0x11 := by
  have l1 : (List.replicate 188 (0x22 : Byte)).length = 188 := List.length_replicate _ _
  have l2 : (List.replicate 512 (0x11 : Byte)).length = 512 := List.length_replicate _ _
  refine (readBytes_add _ (33 * 512) 188 324).trans ?_
  rw [readBytes_writeBytes_inside _ _ _ _ _ (Nat.le_refl _) (by omega),
    readBytes_writeBytes_disjoint _ _ _ _ _ (Or.inr (by omega)),
    readBytes_writeBytes_inside _ _ _ _ _ (by omega) (by omega)]
  simp only [List.drop_replicate, List.take_replicate]
  rfl

theorem specFreeCount_imgSmall : specFreeCount (load_fat imgSmall 69) 69 = 67 := by decide!

/-- What `diskget` emits after the insert of the 2-byte file: the start of data sector
33. -/
theorem get_after_put_2 :
    Diskget.main 100
        (writeBytes (writeBytes imgSmall 9728 (entryCDat 2)) (33 * 512) (List.replicate 2 0x22))
        51200 nameCDat false heapZero stackOfEE =
      ⟨.done, freadAt
        (writeBytes (writeBytes imgSmall 9728 (entryCDat 2)) (33 * 512) (List.replicate 2 0x22))
        51200 (33 * 512) 2 (stackOfEE 1)⟩ := rfl

/-- What `diskget` emits after the insert of the 700-byte file: data sector 33 and the
start of sector 31, the sector that the free FAT entry 2 of the image leads to. -/
theorem get_after_put_700 :
    Diskget.main 100
        (writeBytes (writeBytes (writeBytes imgSmall 9728 (entryCDat 700))
          (33 * 512) (List.replicate 512 0x11)) (33 * 512) (List.replicate 188 0x22))
        51200 nameCDat false heapZero stackOfEE =
      ⟨.done, freadAt
        (writeBytes (writeBytes (writeBytes imgSmall 9728 (entryCDat 700))
          (33 * 512) (List.replicate 512 0x11)) (33 * 512) (List.replicate 188 0x22))
        51200 (33 * 512) 512 (stackOfEE 2) ++ freadAt
        (writeBytes (writeBytes (writeBytes imgSmall 9728 (entryCDat 700))
          (33 * 512) (List.replicate 512 0x11)) (33 * 512) (List.replicate 188 0x22))
        51200 (31 * 512) 188 (stackOfEE 1)⟩ := rfl

theorem sector_31_imgSmall : readBytes imgSmall (31 * 512) 188 = List.replicate 188 0 := by
  decide!

/-- C5 (the claim fails on the code): inserting the 700-byte file "c.dat" into the root of
the freshly formatted image `imgSmall` succeeds, but both chunks go to data sector 33
(cluster 2): afterwards that sector holds the 188 bytes written by the second activation
over the 512 bytes written by the first, sector 34 (cluster 3) is untouched, and the FAT
entry of cluster 2 in the mirror is `0x3FF`, not the end-of-chain value `0xFFF`. -/
theorem put_700_bytes_reuses_one_sector :
    (Diskput.main 100 imgSmall none nameCDat (some (fileOfA 700)) 0 0 heapZero stackMarked).outcome
        = .done ∧
      readBytes (Diskput.main 100 imgSmall none nameCDat (some (fileOfA 700)) 0 0 heapZero
          stackMarked).disk (33 * 512) 512
        = List.replicate 188 0x22 ++ List.replicate 324 0x11 ∧
      readBytes (Diskput.main 100 imgSmall none nameCDat (some (fileOfA 700)) 0 0 heapZero
          stackMarked).disk (34 * 512) 512
        = readBytes imgSmall (34 * 512) 512 ∧
      get_fat (Diskput.main 100 imgSmall none nameCDat (some (fileOfA 700)) 0 0 heapZero
          stackMarked).fat_table 69 2 = some 0x3FF := by
  have l1 : (List.replicate 188 (0x22 : Byte)).length = 188 := List.length_replicate _ _
  have l2 : (List.replicate 512 (0x11 : Byte)).length = 512 := List.length_replicate _ _
  have l3 := length_entryCDat 700
  rw [put_cdat_700]
  refine ⟨rfl, sector_33_after_put_700, ?_, by decide!⟩
  dsimp only
  rw [readBytes_writeBytes_disjoint _ _ _ _ _ (Or.inr (by omega)),
    readBytes_writeBytes_disjoint _ _ _ _ _ (Or.inr (by omega)),
    readBytes_writeBytes_disjoint _ _ _ _ _ (Or.inr (by omega))]

/-- C6 (the claim fails on the code): inserting a 1200-byte file (3 sectors) into `imgSmall`
succeeds; the free count is 67 before, 65 in the mirror afterwards (not 67 - 3 = 64), and
still 67 in the FAT of the resulting image. -/
theorem put_1200_bytes_free_count :
    (Diskput.main 100 imgSmall none nameCDat (some (fileOfA 1200)) 0 0 heapZero stackMarked).outcome
        = .done ∧
      specFreeCount (load_fat imgSmall 69) 69 = 67 ∧
      specFreeCount (Diskput.main 100 imgSmall none nameCDat (some (fileOfA 1200)) 0 0 heapZero
          stackMarked).fat_table 69 = 65 ∧
      specFreeCount (load_fat (Diskput.main 100 imgSmall none nameCDat (some (fileOfA 1200)) 0 0
          heapZero stackMarked).disk 69) 69 = 67 := by
  have hm : fat_mem_size 69 = 104 := by decide
  rw [put_cdat_1200]
  refine ⟨rfl, specFreeCount_imgSmall, by decide!, ?_⟩
  dsimp only
  rw [load_fat_writeBytes _ _ _ _ (by omega), load_fat_writeBytes _ _ _ _ (by omega),
    load_fat_writeBytes _ _ _ _ (by omega), load_fat_writeBytes _ _ _ _ (by omega)]
  exact specFreeCount_imgSmall

/-- C7 (the claim fails on the code): after the successful insert of a 2-byte file into
`imgSmall` the mirror has changed (bytes 3 and 4 are `FF 0F`: cluster 2 is end-of-chain),
but FAT #1 of the image, at byte offset 512, still has its old content: `update_fat`
only stores into `fat_table` and nothing writes the mirror back. -/
theorem put_does_not_write_fat_to_image :
    (Diskput.main 100 imgSmall none nameCDat (some (fileOfA 2)) 0 0 heapZero stackMarked).outcome
        = .done ∧
      (Diskput.main 100 imgSmall none nameCDat (some (fileOfA 2)) 0 0 heapZero stackMarked).fat_table
        = [0xF0, 0xFF, 0xFF, 0xFF, 0x0F] ++ List.replicate 99 0 ∧
      load_fat (Diskput.main 100 imgSmall none nameCDat (some (fileOfA 2)) 0 0 heapZero
          stackMarked).disk 69 = load_fat imgSmall 69 ∧
      load_fat (Diskput.main 100 imgSmall none nameCDat (some (fileOfA 2)) 0 0 heapZero
          stackMarked).disk 69
        ≠ (Diskput.main 100 imgSmall none nameCDat (some (fileOfA 2)) 0 0 heapZero
            stackMarked).fat_table := by
  have hm : fat_mem_size 69 = 104 := by decide
  have hfat : load_fat (writeBytes (writeBytes imgSmall 9728 (entryCDat 2)) (33 * 512)
      (List.replicate 2 0x22)) 69 = load_fat imgSmall 69 := by
    rw [load_fat_writeBytes _ _ _ _ (by omega), load_fat_writeBytes _ _ _ _ (by omega)]
  rw [put_cdat_2]
  refine ⟨rfl, rfl, hfat, ?_⟩
  dsimp only
  rw [hfat]
  decide!

/-- C8 (the claim fails on the code): `put` followed by `get` does not return the file.
For the 2-byte file `41 41` named "c.dat" put into `imgSmall`, `get` emits `22 22`, the
prior content of the stack array `content` (the host file is read at its end, so `fread`
transfers nothing); for the 700-byte file, `get` emits 700 bytes whose last 188 are the
zero bytes of sector 31, because the chain is not in the FAT of the image. -/
theorem put_then_get_differs :
    (Diskput.main 100 imgSmall none nameCDat (some (fileOfA 2)) 0 0 heapZero stackMarked).outcome
        = .done ∧
      (Diskput.main 100 imgSmall none nameCDat (some (fileOfA 700)) 0 0 heapZero
          stackMarked).outcome = .done ∧
      Diskget.main 100
        (Diskput.main 100 imgSmall none nameCDat (some (fileOfA 2)) 0 0 heapZero stackMarked).disk 51200
        nameCDat false heapZero stackOfEE = ⟨.done, [0x22, 0x22]⟩ ∧
      Diskget.main 100
        (Diskput.main 100 imgSmall none nameCDat (some (fileOfA 700)) 0 0 heapZero stackMarked).disk 51200
        nameCDat false heapZero stackOfEE
        = ⟨.done, List.replicate 188 0x22 ++ List.replicate 324 0x11 ++ List.replicate 188 0⟩ := by
  have l1 : (List.replicate 188 (0x22 : Byte)).length = 188 := List.length_replicate _ _
  have l2 : (List.replicate 512 (0x11 : Byte)).length = 512 := List.length_replicate _ _
  have l3 := length_entryCDat 700
  have l4 : (List.replicate 2 (0x22 : Byte)).length = 2 := List.length_replicate _ _
  rw [put_cdat_2, put_cdat_700]
  refine ⟨rfl, rfl, ?_, ?_⟩
  · dsimp only
    rw [get_after_put_2, freadAt_in_file _ _ _ _ _ (by decide),
      readBytes_writeBytes_inside _ _ _ _ _ (Nat.le_refl _) (by omega)]
    rfl
  · dsimp only
    rw [get_after_put_700, freadAt_in_file _ _ _ _ _ (by decide),
      freadAt_in_file _ _ _ _ _ (by decide), sector_33_after_put_700,
      readBytes_writeBytes_disjoint _ _ _ _ _ (Or.inl (by omega)),
      readBytes_writeBytes_disjoint _ _ _ _ _ (Or.inl (by omega)),
      readBytes_writeBytes_disjoint _ _ _ _ _ (Or.inr (by omega)), sector_31_imgSmall]

/-! ## The images `imgOneFile` -/

/-- The bytes of `imgOneFile` behind the first root slot. -/
theorem imgOneFile_data (size cluster fat2 k : Nat) (h : 9760 ≤ k) :
    imgOneFile size cluster fat2 k =
      if 16896 ≤ k ∧ k < 17408 then 0xAA
      else if 17408 ≤ k ∧ k < 17920 then 0xBB
      else 0 := by
  have e1 : ¬ k = 12 := by omega
  have e2 : ¬ k = 19 := by omega
  have e3 : ¬ k = 512 := by omega
  have e4 : ¬ k = 513 := by omega
  have e5 : ¬ k = 514 := by omega
  have e6 : ¬ k = 515 := by omega
  have e7 : ¬ k = 516 := by omega
  have e8 : ¬ k = 517 := by omega
  have e9 : ¬ k = 9728 := by omega
  have e10 : ¬ (9729 ≤ k ∧ k < 9736) := by omega
  have e11 : ¬ k = 9736 := by omega
  have e12 : ¬ k = 9737 := by omega
  have e13 : ¬ k = 9738 := by omega
  have e14 : ¬ k = 9739 := by omega
  have e15 : ¬ (9754 ≤ k ∧ k < 9756) := by omega
  have e16 : ¬ (9756 ≤ k ∧ k < 9760) := by omega
  simp only [imgOneFile, if_neg e1, if_neg e2, if_neg e3, if_neg e4, if_neg e5, if_neg e6,
    if_neg e7, if_neg e8, if_neg e9, if_neg e10, if_neg e11, if_neg e12, if_neg e13, if_neg e14,
    if_neg e15, if_neg e16]

theorem imgOneFile_sector_33 (size cluster fat2 : Nat) :
    readBytes (imgOneFile size cluster fat2) (33 * 512) 512 = List.replicate 512 0xAA :=
  readBytes_eq_replicate _ _ _ _ (fun k h1 h2 => by
    rw [imgOneFile_data _ _ _ k (by omega), if_pos (by omega)])

theorem imgOneFile_sector_34_start (size cluster fat2 : Nat) :
    readBytes (imgOneFile size cluster fat2) (34 * 512) 88 = List.replicate 88 0xBB :=
  readBytes_eq_replicate _ _ _ _ (fun k h1 h2 => by
    rw [imgOneFile_data _ _ _ k (by omega), if_neg (by omega), if_pos (by omega)])

/-- C9 (the claim fails on the code): for the root file "A.TXT" stored in the single
cluster 2 with recorded size 512, `get` emits no byte at all; for the file with chain
2 → 3 and recorded size 1024 it emits only the 512 bytes of the first sector; for the
empty file (size 0, starting cluster 0) it does not end normally. (For chain 2 → 3 and
recorded size 600 it emits sector 33 followed by the first 88 bytes of sector 34.) -/
theorem get_truncates_whole_sector_sizes :
    Diskget.main 100 (imgOneFile 512 2 0xFFF) 51200 nameATxt false heapZero stackOfEE
        = ⟨.done, []⟩ ∧
      Diskget.main 100 (imgOneFile 1024 2 3) 51200 nameATxt false heapZero stackOfEE
        = ⟨.done, List.replicate 512 0xAA⟩ ∧
      (Diskget.main 100 (imgOneFile 0 0 0) 51200 nameATxt false heapZero stackOfEE).outcome
        = .fault ∧
      Diskget.main 100 (imgOneFile 600 2 3) 51200 nameATxt false heapZero stackOfEE
        = ⟨.done, List.replicate 512 0xAA ++ List.replicate 88 0xBB⟩ := by
  refine ⟨?_, ?_, by decide!, ?_⟩
  · rw [get_main_of_found 100 (imgOneFile 512 2 0xFFF) 51200 nameATxt heapZero stackOfEE 69
        (readBytes (imgOneFile 512 2 0xFFF) 9728 32) 33 512 1 (by decide) (by decide) (by decide)
        (by decide!) (by decide!) (by decide!) (by decide),
      get_file_last _ _ _ _ _ 100 99 _ 512 rfl]
    rfl
  · have h0 : freadAt (imgOneFile 1024 2 3) 51200 ((3 + 33 - 2) * 512) (1024 % 512)
        (stackOfEE 1) = [] := rfl
    rw [get_main_of_found 100 (imgOneFile 1024 2 3) 51200 nameATxt heapZero stackOfEE 69
        (readBytes (imgOneFile 1024 2 3) 9728 32) 33 1024 2 (by decide) (by decide) (by decide)
        (by decide!) (by decide!) (by decide!) (by decide),
      get_file_link _ _ _ _ _ 100 99 33 2 1 1024 2 3 rfl (by decide) (by decide) (by decide)
        (by decide!),
      get_file_last _ _ _ _ _ 99 98 _ 1024 rfl]
    simp only []
    rw [h0, List.append_nil, freadAt_in_file _ _ _ _ _ (by decide), imgOneFile_sector_33]
  · rw [get_main_of_found 100 (imgOneFile 600 2 3) 51200 nameATxt heapZero stackOfEE 69
        (readBytes (imgOneFile 600 2 3) 9728 32) 33 600 2 (by decide) (by decide) (by decide)
        (by decide!) (by decide!) (by decide!) (by decide),
      get_file_link _ _ _ _ _ 100 99 33 2 1 600 2 3 rfl (by decide) (by decide) (by decide)
        (by decide!),
      get_file_last _ _ _ _ _ 99 98 _ 600 rfl]
    simp only []
    rw [freadAt_in_file _ _ _ _ _ (by decide), freadAt_in_file _ _ _ _ _ (by decide),
      imgOneFile_sector_33]
    exact congrArg (fun l => Diskget.Result.mk .done (List.replicate 512 0xAA ++ l))
      (imgOneFile_sector_34_start 600 2 3)

/-- C12 (the claim fails on the code): on the image `imgFullRoot`, whose 224 root slots all
hold the live entry "X.Y", the lookup of "A.TXT" runs through the whole root region and
leaves the loop: the body of `get_file_entry_in_root` ends without a `return` and without
the " File not found." exit, so `diskget` does not end with NotFound. -/
theorem get_file_entry_in_root_full_root_no_not_found :
    Diskget.get_file_entry_in_root imgFullRoot heapZero (19 * bytes_per_sector imgFullRoot)
        (nameATxt.map toupper) = .fault ∧
      (Diskget.main 100 imgFullRoot 51200 nameATxt false heapZero stackOfEE).outcome = .fault ∧
      (Diskget.main 100 imgFullRoot 51200 nameATxt false heapZero stackOfEE).outcome
        ≠ .notFound := by
  decide!

/-- C14 (the claim fails on the code): on the image `imgSub`, whose root holds the
subdirectory with name field "SUB     ", the search with destination "SUB" records no
slot: `strcmp(destination, cur_dir_name)` compares "SUB" with the unterminated entry bytes
"SUB" + 8 spaces + `0x10`, which never match. `diskput` ends with "The directory not
found." although sector 33, the directory's sector, has its first never-used slot at byte
offset 16960. -/
theorem get_free_sub_dir_entries_misses_named_directory :
    entry_filename (readBytes imgSub 9728 32) = nameSub ++ List.replicate 5 0x20 ∧
      entry_attributes (readBytes imgSub 9728 32) = 0x10 ∧
      (imgSub 16960).val = 0x00 ∧
      get_free_sub_dir_entries imgSub (load_fat imgSub 69) 69 heapZero nameSub
        (nameCDat.map toupper) 1000 0 0x2600 0 [0x52, 0x4F, 0x4F, 0x54, 0] none = .slot none ∧
      (Diskput.main 1000 imgSub (some nameSub) nameCDat (some (fileOfA 2)) 0 0 heapZero
        stackMarked).outcome = .dirNotFound := by
  decide!

/-- C15 (the claim fails on the code): for the name field "A B     " with extension "TXT"
`trimFileName` returns "AB.TXT" (the interior space is dropped; the specification's
formatting gives "A B.TXT"); for "README  " with extension "   " no terminating NUL is
written, so with a block whose prior content is 13 bytes `0x41` the returned block is
"READMEAAAAAAA" without terminator, not the string "README". For "HELLO   ", "TXT" the
result is "HELLO.TXT". -/
theorem trimFileName_drops_interior_space_and_terminator :
    cstring (trimFileName (List.replicate 13 0)
        [0x41, 0x20, 0x42, 0x20, 0x20, 0x20, 0x20, 0x20] [0x54, 0x58, 0x54])
        = some [0x41, 0x42, 0x2E, 0x54, 0x58, 0x54] ∧
      specTrimFileName [0x41, 0x20, 0x42, 0x20, 0x20, 0x20, 0x20, 0x20] [0x54, 0x58, 0x54]
        = [0x41, 0x20, 0x42, 0x2E, 0x54, 0x58, 0x54] ∧
      trimFileName (List.replicate 13 0x41)
        [0x52, 0x45, 0x41, 0x44, 0x4D, 0x45, 0x20, 0x20] [0x20, 0x20, 0x20]
        = [0x52, 0x45, 0x41, 0x44, 0x4D, 0x45, 0x41, 0x41, 0x41, 0x41, 0x41, 0x41, 0x41] ∧
      cstring (trimFileName (List.replicate 13 0x41)
        [0x52, 0x45, 0x41, 0x44, 0x4D, 0x45, 0x20, 0x20] [0x20, 0x20, 0x20]) = none ∧
      cstring (trimFileName (List.replicate 13 0x41)
        [0x48, 0x45, 0x4C, 0x4C, 0x4F, 0x20, 0x20, 0x20] [0x54, 0x58, 0x54])
        = some [0x48, 0x45, 0x4C, 0x4C, 0x4F, 0x2E, 0x54, 0x58, 0x54] := by
  decide!

/-- C17 (the claim fails on the code): for the name "A.HTML" the fourth character of the
extension, 'L' (`0x4C`), is stored into byte 11 of the entry, the attributes byte: the
entry differs from the one built for "A.HTM", whose attributes byte is 0. -/
theorem fill_info_to_entry_long_extension_overflows :
    (fill_info_to_entry 10 [0x41, 0x2E, 0x48, 0x54, 0x4D, 0x4C] 33).map entry_extension
        = some [0x48, 0x54, 0x4D] ∧
      (fill_info_to_entry 10 [0x41, 0x2E, 0x48, 0x54, 0x4D, 0x4C] 33).map entry_attributes
        = some 0x4C ∧
      (fill_info_to_entry 10 [0x41, 0x2E, 0x48, 0x54, 0x4D] 33).map entry_attributes = some 0 ∧
      fill_info_to_entry 10 [0x41, 0x2E, 0x48, 0x54, 0x4D, 0x4C] 33
        ≠ fill_info_to_entry 10 [0x41, 0x2E, 0x48, 0x54, 0x4D] 33 := by
  decide!

/-- C20 (the claim fails on the code): on the image `imgChain` the subdirectory "SUB" has
the chain 4 → 0x185. `disklist` follows the link to cluster 0x185 and prints the file
"F.X" found there: one `F` row. `diskinfo` reads FAT entry 4 as `0x100 + (char)0x85`
= 0x85 (the low byte is sign-extended), continues at cluster 0x85, an unused sector,
and counts no file. -/
theorem info_and_list_counts_differ :
    get_fat (load_fat imgChain 481) 481 4 = some 0x185 ∧
      Diskinfo.get_fat (load_fat imgChain 481) 481 4 = some 0x85 ∧
      Disklist.main 100 imgChain 262144 sectorsZero
        = .ok [.dir 0 (readBytes imgChain 9728 32), .file 1 (readBytes imgChain 215040 32)] ∧
      Disklist.file_rows
        [.dir 0 (readBytes imgChain 9728 32), .file 1 (readBytes imgChain 215040 32)] = 1 ∧
      Diskinfo.file_count 100 imgChain 262144 sectorsZero = .ok 0 := by
  decide!

/-! ## Lemmas on the root scan, names, entries and dates -/

theorem readBytes_getD_zero (img : Image) (a n : Nat) (hn : 0 < n) :
    (readBytes img a n).getD 0 0 = img a := by
  cases n with
  | zero => omega
  | succ m => simp [readBytes, List.range_succ_eq_map]

theorem root_loop_zero (img : Image) (heap : Nat → List Byte) (file_name : List Byte) (E : Nat)
    (n s : Nat) (f : Option Nat) (hs : s < E) (h0 : (img s).val = 0) :
    get_free_entry_in_root_dir_loop img heap file_name E (n + 1) s f = .slot (some s) := by
  rw [get_free_entry_in_root_dir_loop]
  simp only [if_pos hs, readBytes_getD_zero img s 32 (by omega), h0, if_true]

theorem root_loop_deleted (img : Image) (heap : Nat → List Byte) (file_name : List Byte) (E : Nat)
    (n s : Nat) (f : Option Nat) (hs : s < E) (h0 : (img s).val = 0xE5) :
    get_free_entry_in_root_dir_loop img heap file_name E (n + 1) s f
      = get_free_entry_in_root_dir_loop img heap file_name E n (s + 32) (some s) := by
  rw [get_free_entry_in_root_dir_loop]
  have hne : ¬ ((229 : Nat) = 0) := by decide
  simp only [if_pos hs, readBytes_getD_zero img s 32 (by omega), h0, if_neg hne, if_true]

theorem root_loop_live_false (img : Image) (heap : Nat → List Byte) (file_name : List Byte) (E : Nat)
    (n s : Nat) (f : Option Nat) (hs : s < E) (h0 : (img s).val ≠ 0) (h1 : (img s).val ≠ 0xE5)
    (hc : rootCompare img heap file_name s = some false) :
    get_free_entry_in_root_dir_loop img heap file_name E (n + 1) s f
      = get_free_entry_in_root_dir_loop img heap file_name E n (s + 32) f := by
  unfold rootCompare at hc
  rw [get_free_entry_in_root_dir_loop]
  simp only [if_pos hs, readBytes_getD_zero img s 32 (by omega), if_neg h0, if_neg h1, hc]

theorem root_loop_live_true (img : Image) (heap : Nat → List Byte) (file_name : List Byte) (E : Nat)
    (n s : Nat) (f : Option Nat) (hs : s < E) (h0 : (img s).val ≠ 0) (h1 : (img s).val ≠ 0xE5)
    (hc : rootCompare img heap file_name s = some true) :
    get_free_entry_in_root_dir_loop img heap file_name E (n + 1) s f = .duplicate := by
  unfold rootCompare at hc
  rw [get_free_entry_in_root_dir_loop]
  simp only [if_pos hs, readBytes_getD_zero img s 32 (by omega), if_neg h0, if_neg h1, hc]

theorem root_loop_end (img : Image) (heap : Nat → List Byte) (file_name : List Byte) (E : Nat)
    (n s : Nat) (f : Option Nat) (hs : ¬ s < E) :
    get_free_entry_in_root_dir_loop img heap file_name E n s f = .slot f := by
  cases n with
  | zero => rw [get_free_entry_in_root_dir_loop]
  | succ m => rw [get_free_entry_in_root_dir_loop]; simp only [if_neg hs]

/-- No free slot and no matching name among the next `n` slots: the scan keeps `f`. -/
theorem root_loop_no_free (img : Image) (heap : Nat → List Byte) (file_name : List Byte) (E : Nat) :
    ∀ (n s : Nat) (f : Option Nat),
      (∀ k, k < n → s + 32 * k < E → (img (s + 32 * k)).val ≠ 0 ∧ (img (s + 32 * k)).val ≠ 0xE5 ∧
        rootCompare img heap file_name (s + 32 * k) = some false) →
      get_free_entry_in_root_dir_loop img heap file_name E n s f = .slot f := by
  intro n
  induction n with
  | zero => intro s f _; rw [get_free_entry_in_root_dir_loop]
  | succ n ih =>
    intro s f h
    by_cases hs : s < E
    · obtain ⟨h0, h1, hc⟩ := h 0 (by omega) (by omega)
      simp only [Nat.mul_zero, Nat.add_zero] at h0 h1 hc
      rw [root_loop_live_false img heap file_name E n s f hs h0 h1 hc]
      apply ih
      intro k hk hE
      have := h (k + 1) (by omega) (by rw [show s + 32 * (k + 1) = s + 32 + 32 * k by ring]; exact hE)
      rw [show s + 32 * (k + 1) = s + 32 + 32 * k by ring] at this
      exact this
    · exact root_loop_end img heap file_name E _ s f hs

/-- The first `0x00` slot ends the scan and is the slot produced. -/
theorem root_loop_first_zero (img : Image) (heap : Nat → List Byte) (file_name : List Byte) (E : Nat) :
    ∀ (z n s : Nat) (f : Option Nat), z < n → s + 32 * z < E → (img (s + 32 * z)).val = 0 →
      (∀ k, k < z → (img (s + 32 * k)).val ≠ 0) →
      (∀ k, k < z → (img (s + 32 * k)).val ≠ 0xE5 →
        rootCompare img heap file_name (s + 32 * k) = some false) →
      get_free_entry_in_root_dir_loop img heap file_name E n s f = .slot (some (s + 32 * z)) := by
  intro z
  induction z with
  | zero =>
    intro n s f hn hE h0 _ _
    obtain ⟨m, rfl⟩ : ∃ m, n = m + 1 := ⟨n - 1, by omega⟩
    simp only [Nat.mul_zero, Nat.add_zero] at hE h0 ⊢
    exact root_loop_zero img heap file_name E m s f hE h0
  | succ z ih =>
    intro n s f hn hE h0 hnz hcmp
    obtain ⟨m, rfl⟩ : ∃ m, n = m + 1 := ⟨n - 1, by omega⟩
    have hs : s < E := by omega
    have e1 : s + 32 * (z + 1) = s + 32 + 32 * z := by ring
    have hnz0 := hnz 0 (by omega)
    simp only [Nat.mul_zero, Nat.add_zero] at hnz0
    have hrest : ∀ k, k < z → (img (s + 32 + 32 * k)).val ≠ 0 := fun k hk => by
      have := hnz (k + 1) (by omega)
      rwa [show s + 32 * (k + 1) = s + 32 + 32 * k by ring] at this
    have hcrest : ∀ k, k < z → (img (s + 32 + 32 * k)).val ≠ 0xE5 →
        rootCompare img heap file_name (s + 32 + 32 * k) = some false := fun k hk => by
      have := hcmp (k + 1) (by omega)
      rwa [show s + 32 * (k + 1) = s + 32 + 32 * k by ring] at this
    rw [e1] at hE h0 ⊢
    by_cases hd : (img s).val = 0xE5
    · rw [root_loop_deleted img heap file_name E m s f hs hd]
      exact ih m (s + 32) (some s) (by omega) hE h0 hrest hcrest
    · have hc := hcmp 0 (by omega) (by simpa using hd)
      simp only [Nat.mul_zero, Nat.add_zero] at hc
      rw [root_loop_live_false img heap file_name E m s f hs hnz0 hd hc]
      exact ih m (s + 32) f (by omega) hE h0 hrest hcrest

/-- Without a `0x00` slot the last `0xE5` slot is the slot produced. -/
theorem root_loop_last_deleted (img : Image) (heap : Nat → List Byte) (file_name : List Byte)
    (E : Nat) :
    ∀ (e n s : Nat) (f : Option Nat), e < n → s + 32 * e < E → (img (s + 32 * e)).val = 0xE5 →
      (∀ k, k < n → s + 32 * k < E → (img (s + 32 * k)).val ≠ 0) →
      (∀ k, e < k → k < n → s + 32 * k < E → (img (s + 32 * k)).val ≠ 0xE5) →
      (∀ k, k < n → s + 32 * k < E → (img (s + 32 * k)).val ≠ 0 → (img (s + 32 * k)).val ≠ 0xE5 →
        rootCompare img heap file_name (s + 32 * k) = some false) →
      get_free_entry_in_root_dir_loop img heap file_name E n s f = .slot (some (s + 32 * e)) := by
  intro e
  induction e with
  | zero =>
    intro n s f hn hE hd hnz hlast hcmp
    obtain ⟨m, rfl⟩ : ∃ m, n = m + 1 := ⟨n - 1, by omega⟩
    simp only [Nat.mul_zero, Nat.add_zero] at hE hd ⊢
    rw [root_loop_deleted img heap file_name E m s f hE hd]
    apply root_loop_no_free
    intro k hk hkE
    have e1 : s + 32 * (k + 1) = s + 32 + 32 * k := by ring
    have a1 := hnz (k + 1) (by omega) (by rw [e1]; exact hkE)
    have a2 := hlast (k + 1) (by omega) (by omega) (by rw [e1]; exact hkE)
    have a3 := hcmp (k + 1) (by omega) (by rw [e1]; exact hkE) a1 a2
    rw [e1] at a1 a2 a3
    exact ⟨a1, a2, a3⟩
  | succ e ih =>
    intro n s f hn hE hd hnz hlast hcmp
    obtain ⟨m, rfl⟩ : ∃ m, n = m + 1 := ⟨n - 1, by omega⟩
    have hs : s < E := by omega
    have e1 : s + 32 * (e + 1) = s + 32 + 32 * e := by ring
    have hnz0 := hnz 0 (by omega) (by omega)
    simp only [Nat.mul_zero, Nat.add_zero] at hnz0
    have hnz' : ∀ k, k < m → s + 32 + 32 * k < E → (img (s + 32 + 32 * k)).val ≠ 0 :=
      fun k hk hkE => by
        have e2 : s + 32 * (k + 1) = s + 32 + 32 * k := by ring
        have := hnz (k + 1) (by omega) (by rw [e2]; exact hkE)
        rwa [e2] at this
    have hlast' : ∀ k, e < k → k < m → s + 32 + 32 * k < E → (img (s + 32 + 32 * k)).val ≠ 0xE5 :=
      fun k hek hk hkE => by
        have e2 : s + 32 * (k + 1) = s + 32 + 32 * k := by ring
        have := hlast (k + 1) (by omega) (by omega) (by rw [e2]; exact hkE)
        rwa [e2] at this
    have hcmp' : ∀ k, k < m → s + 32 + 32 * k < E → (img (s + 32 + 32 * k)).val ≠ 0 →
        (img (s + 32 + 32 * k)).val ≠ 0xE5 →
        rootCompare img heap file_name (s + 32 + 32 * k) = some false :=
      fun k hk hkE => by
        have e2 : s + 32 * (k + 1) = s + 32 + 32 * k := by ring
        have := hcmp (k + 1) (by omega) (by rw [e2]; exact hkE)
        rwa [e2] at this
    rw [e1] at hE hd ⊢
    by_cases hd0 : (img s).val = 0xE5
    · rw [root_loop_deleted img heap file_name E m s f hs hd0]
      exact ih m (s + 32) (some s) (by omega) hE hd hnz' hlast' hcmp'
    · have hc := hcmp 0 (by omega) (by omega) (by simpa using hnz0) (by simpa using hd0)
      simp only [Nat.mul_zero, Nat.add_zero] at hc
      rw [root_loop_live_false img heap file_name E m s f hs hnz0 hd0 hc]
      exact ih m (s + 32) f (by omega) hE hd hnz' hlast' hcmp'



theorem filter_eq_stripTrailingSpaces (l : List Byte)
    (h : (0x20 : Byte) ∉ stripTrailingSpaces l) :
    l.filter (fun c => c ≠ 0x20) = stripTrailingSpaces l := by
  unfold stripTrailingSpaces at h ⊢
  have hsplit := List.takeWhile_append_dropWhile (fun c : Byte => decide (c = 0x20)) l.reverse
  have h1 : (l.reverse.takeWhile (fun c : Byte => decide (c = 0x20))).filter
      (fun c => decide (c ≠ 0x20)) = [] := by
    rw [List.filter_eq_nil_iff]
    intro a ha
    have := List.mem_takeWhile_imp ha
    simpa using this
  have h2 : (l.reverse.dropWhile (fun c : Byte => decide (c = 0x20))).filter
      (fun c => decide (c ≠ 0x20)) = l.reverse.dropWhile (fun c : Byte => decide (c = 0x20)) := by
    rw [List.filter_eq_self]
    intro a ha
    have : a ≠ 0x20 := fun e => h (List.mem_reverse.mpr (e ▸ ha))
    simpa using this
  have : l.filter (fun c => decide (c ≠ 0x20))
      = ((l.reverse).filter (fun c => decide (c ≠ 0x20))).reverse := by
    rw [List.filter_reverse, List.reverse_reverse]
  rw [this]
  conv_lhs => rw [← hsplit]
  rw [List.filter_append, h1, h2, List.nil_append]

theorem length_stripTrailingSpaces_le (l : List Byte) : (stripTrailingSpaces l).length ≤ l.length := by
  unfold stripTrailingSpaces
  rw [List.length_reverse]
  have := (List.dropWhile_sublist (fun c : Byte => decide (c = 0x20)) (l := l.reverse)).length_le
  simpa using this

theorem strcmp_eq_ne_none : ∀ (block name : List Byte), name.length < block.length →
    strcmp_eq block name ≠ none := by
  intro block
  induction block with
  | nil => intro name h; simp at h
  | cons b bs ih =>
    intro name h
    cases name with
    | nil => simp [strcmp_eq]
    | cons c cs =>
      rw [strcmp_eq]
      split
      · split
        · simp
        · exact ih cs (by simpa using h)
      · simp

theorem strcmp_eq_self : ∀ (name tail : List Byte), strcmp_eq (name ++ 0 :: tail) name = some true := by
  intro name
  induction name with
  | nil => intro tail; simp [strcmp_eq]
  | cons c cs ih =>
    intro tail
    rw [List.cons_append, strcmp_eq]
    simp only [if_true]
    split
    · rfl
    · exact ih tail

theorem length_trimFileName_ge (heap filename ext : List Byte) :
    heap.length ≤ (trimFileName heap filename ext).length := by
  unfold trimFileName
  simp only [List.length_append, List.length_drop]
  omega

theorem trimFileName_of_ext (heap filename ext : List Byte) (h : ext.headD 0 ≠ 0x20) :
    trimFileName heap filename ext
      = (filename.filter (fun c => c ≠ 0x20) ++ [0x2E] ++ ext.filter (fun c => c ≠ 0x20))
        ++ 0 :: heap.drop ((filename.filter (fun c => c ≠ 0x20) ++ [0x2E]
            ++ ext.filter (fun c => c ≠ 0x20)).length + 1) := by
  unfold trimFileName
  simp only [if_pos h, List.append_assoc, List.length_append, List.length_cons, List.length_nil,
    List.singleton_append, List.cons_append, List.nil_append]
  congr 4

/-- A matching live entry met before any `0x00` slot ends the scan with `duplicate`. -/
theorem root_loop_duplicate (img : Image) (heap : Nat → List Byte) (file_name : List Byte) (E : Nat) :
    ∀ (z n s : Nat) (f : Option Nat), z < n → s + 32 * z < E →
      (img (s + 32 * z)).val ≠ 0 → (img (s + 32 * z)).val ≠ 0xE5 →
      rootCompare img heap file_name (s + 32 * z) = some true →
      (∀ k, k < z → (img (s + 32 * k)).val ≠ 0) →
      (∀ k, k < z → rootCompare img heap file_name (s + 32 * k) ≠ none) →
      get_free_entry_in_root_dir_loop img heap file_name E n s f = .duplicate := by
  intro z
  induction z with
  | zero =>
    intro n s f hn hE h0 h1 hc _ _
    obtain ⟨m, rfl⟩ : ∃ m, n = m + 1 := ⟨n - 1, by omega⟩
    simp only [Nat.mul_zero, Nat.add_zero] at hE h0 h1 hc
    exact root_loop_live_true img heap file_name E m s f hE h0 h1 hc
  | succ z ih =>
    intro n s f hn hE h0 h1 hc hnz hnn
    obtain ⟨m, rfl⟩ : ∃ m, n = m + 1 := ⟨n - 1, by omega⟩
    have hs : s < E := by omega
    have e1 : s + 32 * (z + 1) = s + 32 + 32 * z := by ring
    have hnz0 := hnz 0 (by omega)
    have hnn0 := hnn 0 (by omega)
    simp only [Nat.mul_zero, Nat.add_zero] at hnz0 hnn0
    have hnz' : ∀ k, k < z → (img (s + 32 + 32 * k)).val ≠ 0 := fun k hk => by
      have := hnz (k + 1) (by omega)
      rwa [show s + 32 * (k + 1) = s + 32 + 32 * k by ring] at this
    have hnn' : ∀ k, k < z → rootCompare img heap file_name (s + 32 + 32 * k) ≠ none :=
      fun k hk => by
        have := hnn (k + 1) (by omega)
        rwa [show s + 32 * (k + 1) = s + 32 + 32 * k by ring] at this
    rw [e1] at hE h0 h1 hc
    by_cases hd : (img s).val = 0xE5
    · rw [root_loop_deleted img heap file_name E m s f hs hd]
      exact ih m (s + 32) (some s) (by omega) hE h0 h1 hc hnz' hnn'
    · cases hcmp : rootCompare img heap file_name s with
      | none => exact absurd hcmp hnn0
      | some b =>
        cases b with
        | true => exact root_loop_live_true img heap file_name E m s f hs hnz0 hd hcmp
        | false =>
          rw [root_loop_live_false img heap file_name E m s f hs hnz0 hd hcmp]
          exact ih m (s + 32) f (by omega) hE h0 h1 hc hnz' hnn'

theorem length_entry_filename (img : Image) (a : Nat) :
    (entry_filename (readBytes img a 32)).length = 8 := by
  simp [entry_filename, length_readBytes]

theorem length_entry_extension (img : Image) (a : Nat) :
    (entry_extension (readBytes img a 32)).length = 3 := by
  simp [entry_extension, length_readBytes]

/-- The scan's comparison cannot run off a 13-byte block when the name has at most 12
characters. -/
theorem rootCompare_ne_none (img : Image) (heap : Nat → List Byte) (file_name : List Byte)
    (a : Nat) (hheap : (heap a).length = 13) (hlen : file_name.length ≤ 12) :
    rootCompare img heap file_name a ≠ none := by
  unfold rootCompare
  apply strcmp_eq_ne_none
  have := length_trimFileName_ge (heap a) (entry_filename (readBytes img a 32))
    (entry_extension (readBytes img a 32))
  omega

theorem entry0_eq (L : Nat) :
    storeAt (storeAt (List.replicate 32 (0 : Byte)) 28 (le32 L)) 0 (List.replicate 11 0x20)
      = [0x20, 0x20, 0x20, 0x20, 0x20, 0x20, 0x20, 0x20, 0x20, 0x20, 0x20,
         0, 0, 0, 0, 0, 0, 0, 0, 0, 0, 0, 0, 0, 0, 0, 0, 0,
         toByte L, toByte (L / 256), toByte (L / 65536), toByte (L / 16777216)] := by
  rfl

theorem fill_info_to_entry_name_ext (L s : Nat) (P E : List Byte)
    (hP1 : 1 ≤ P.length) (hP8 : P.length ≤ 8) (hE1 : 1 ≤ E.length) (hE3 : E.length ≤ 3)
    (hPdot : ∀ c ∈ P, c.val ≠ 0x2E) (hE0 : ∀ c ∈ E, c.val ≠ 0) :
    fill_info_to_entry L (P ++ 0x2E :: E) s
      = some (P ++ List.replicate (8 - P.length) 0x20 ++ E ++ List.replicate (3 - E.length) 0x20
          ++ List.replicate 15 0 ++ le16 (toUint16 (s + 65536 + 2 - 33)) ++ le32 L) := by
  unfold fill_info_to_entry
  simp only [entry0_eq]
  rcases P with _ | ⟨p1, _ | ⟨p2, _ | ⟨p3, _ | ⟨p4, _ | ⟨p5, _ | ⟨p6, _ | ⟨p7, _ | ⟨p8, _ | ⟨p9, P⟩⟩⟩⟩⟩⟩⟩⟩⟩ <;>
  rcases E with _ | ⟨e1, _ | ⟨e2, _ | ⟨e3, _ | ⟨e4, E⟩⟩⟩⟩ <;>
  simp only [List.length_cons, List.length_nil] at hP1 hP8 hE1 hE3 <;>
  first
  | omega
  | (simp only [List.forall_mem_cons, List.mem_cons, forall_eq_or_imp, List.not_mem_nil,
        false_implies, implies_true, and_true] at hPdot hE0
     simp_arith [fill_name_loop, fill_ext_loop, hPdot, hE0, storeAt, le16, le32])

theorem and_shiftRight_mask (x m k : Nat) : (x &&& m) >>> k = (x >>> k) &&& (m >>> k) := by
  apply Nat.eq_of_testBit_eq
  intro i
  simp [Nat.testBit_shiftRight, Nat.testBit_and]

theorem atoi_decimal_year_from_1980 :
    ∀ d, d < 128 → atoi (decimal (1980 + d)) = ((1980 + d : Nat) : Int) := by
  decide!

theorem atoi_decimal_year : ∀ y, y < 2108 → 1980 ≤ y → atoi (decimal y) = (y : Int) := by
  intro y h1 h2
  have h := atoi_decimal_year_from_1980 (y - 1980) (by omega)
  rwa [show 1980 + (y - 1980) = y by omega] at h

theorem month_int_monthAbbrev : ∀ m, m < 13 → 1 ≤ m → Diskput.month_int (monthAbbrev m) = (m : Int) := by
  decide!

theorem atoi_ctimeDay : ∀ d, d < 32 → 1 ≤ d → atoi (ctimeDay d) = (d : Int) := by
  decide!

theorem atoi_decimal02 : ∀ n, n < 60 → atoi (decimal02 n) = (n : Int) := by
  decide!

theorem specPackDate_arith (y m d : Nat) (hm : m < 16) (hd : d < 32) :
    specPackDate y m d = (y - 1980) * 512 + m * 32 + d := by
  unfold specPackDate
  rw [Nat.shiftLeft_eq, Nat.shiftLeft_eq]
  have e1 : (y - 1980) * 2 ^ 9 ||| m * 2 ^ 5 = (y - 1980) * 512 + m * 32 := by
    have := Nat.mul_add_lt_is_or (i := 9) (b := m * 32) (by omega) (y - 1980)
    rw [show (y - 1980) * 2 ^ 9 = 2 ^ 9 * (y - 1980) by ring, show m * 2 ^ 5 = m * 32 by norm_num,
      ← this]
    norm_num
    ring
  rw [e1]
  have := Nat.mul_add_lt_is_or (i := 5) (b := d) (by omega) ((y - 1980) * 16 + m)
  rw [show (y - 1980) * 512 + m * 32 = 2 ^ 5 * ((y - 1980) * 16 + m) by ring, ← this]

theorem specPackTime_arith (h n : Nat) (hn : n < 64) :
    specPackTime h n = h * 2048 + n * 32 := by
  unfold specPackTime
  rw [Nat.shiftLeft_eq, Nat.shiftLeft_eq]
  have := Nat.mul_add_lt_is_or (i := 11) (b := n * 32) (by omega) h
  rw [show h * 2 ^ 11 = 2 ^ 11 * h by ring, show n * 2 ^ 5 = n * 32 by norm_num, ← this]
  norm_num
  ring

theorem process_date_fields_arith (v : Nat) :
    Disklist.process_date_fields v = (v / 512 % 128 + 1980, v / 32 % 16, v % 32) := by
  unfold Disklist.process_date_fields
  rw [and_shiftRight_mask, and_shiftRight_mask]
  have e1 : (0b1111111000000000 : Nat) >>> 9 = 2 ^ 7 - 1 := by decide
  have e2 : (0b0000000111100000 : Nat) >>> 5 = 2 ^ 4 - 1 := by decide
  have e3 : (0b0000000000011111 : Nat) = 2 ^ 5 - 1 := by decide
  rw [e1, e2, e3, Nat.and_pow_two_sub_one_eq_mod, Nat.and_pow_two_sub_one_eq_mod,
    Nat.and_pow_two_sub_one_eq_mod, Nat.shiftRight_eq_div_pow, Nat.shiftRight_eq_div_pow]

theorem process_time_fields_arith (v : Nat) :
    Disklist.process_time_fields v = (v / 2048 % 32, v / 32 % 64) := by
  unfold Disklist.process_time_fields
  rw [and_shiftRight_mask, and_shiftRight_mask]
  have e1 : (0b1111100000000000 : Nat) >>> 11 = 2 ^ 5 - 1 := by decide
  have e2 : (0b0000011111100000 : Nat) >>> 5 = 2 ^ 6 - 1 := by decide
  rw [e1, e2, Nat.and_pow_two_sub_one_eq_mod, Nat.and_pow_two_sub_one_eq_mod,
    Nat.shiftRight_eq_div_pow, Nat.shiftRight_eq_div_pow]

theorem process_date_eq (y m d : Nat) (hy1 : 1980 ≤ y) (hy2 : y ≤ 2107) (hm1 : 1 ≤ m) (hm2 : m ≤ 12)
    (hd1 : 1 ≤ d) (hd2 : d ≤ 31) :
    Diskput.process_date (decimal y) (monthAbbrev m) (ctimeDay d) = (y - 1980) * 512 + m * 32 + d := by
  unfold Diskput.process_date
  simp only [atoi_decimal_year y (by omega) hy1, month_int_monthAbbrev m (by omega) hm1,
    atoi_ctimeDay d (by omega) hd1]
  omega

theorem process_time_eq (h n : Nat) (hh : h ≤ 23) (hn : n ≤ 59) :
    Diskput.process_time (decimal02 h) (decimal02 n) = h * 2048 + n * 32 := by
  unfold Diskput.process_time
  simp only [atoi_decimal02 h (by omega), atoi_decimal02 n (by omega)]
  omega


/-- Name, extension and attributes of an entry laid out as name, extension, 15 zero bytes,
cluster, size. -/
theorem name_fields_of_layout (X Y : List Byte) (hX : X.length = 8) (hY : Y.length = 3)
    (c L : Nat) :
    entry_filename (X ++ Y ++ List.replicate 15 0 ++ le16 c ++ le32 L) = X ∧
      entry_extension (X ++ Y ++ List.replicate 15 0 ++ le16 c ++ le32 L) = Y ∧
      entry_attributes (X ++ Y ++ List.replicate 15 0 ++ le16 c ++ le32 L) = 0 := by
  rcases X with _ | ⟨x1, _ | ⟨x2, _ | ⟨x3, _ | ⟨x4, _ | ⟨x5, _ | ⟨x6, _ | ⟨x7, _ | ⟨x8, _ | ⟨x9, X⟩⟩⟩⟩⟩⟩⟩⟩⟩ <;>
  simp only [List.length_cons, List.length_nil] at hX <;>
  first
  | omega
  | (rcases Y with _ | ⟨y1, _ | ⟨y2, _ | ⟨y3, _ | ⟨y4, Y⟩⟩⟩⟩ <;>
     simp only [List.length_cons, List.length_nil] at hY <;>
     first
     | omega
     | exact ⟨by simp [entry_filename], by simp [entry_extension], by simp [entry_attributes]⟩)

/-- Cluster and size of an entry laid out as name, extension, 15 zero bytes, cluster,
size. -/
theorem number_fields_of_layout (X Y : List Byte) (hX : X.length = 8) (hY : Y.length = 3)
    (c L : Nat) (hc : c < 65536) (hL : L < 4294967296) :
    entry_cluster (X ++ Y ++ List.replicate 15 0 ++ le16 c ++ le32 L) = c ∧
      entry_size (X ++ Y ++ List.replicate 15 0 ++ le16 c ++ le32 L) = L := by
  rcases X with _ | ⟨x1, _ | ⟨x2, _ | ⟨x3, _ | ⟨x4, _ | ⟨x5, _ | ⟨x6, _ | ⟨x7, _ | ⟨x8, _ | ⟨x9, X⟩⟩⟩⟩⟩⟩⟩⟩⟩ <;>
  simp only [List.length_cons, List.length_nil] at hX <;>
  first
  | omega
  | (rcases Y with _ | ⟨y1, _ | ⟨y2, _ | ⟨y3, _ | ⟨y4, Y⟩⟩⟩⟩ <;>
     simp only [List.length_cons, List.length_nil] at hY <;>
     first
     | omega
     | (refine ⟨?_, ?_⟩
        · simp [entry_cluster, le16, le32, toByte]
          omega
        · simp [entry_size, le16, le32, toByte]
          omega))

/-! ## Claims C11, C13, C16, C18, C19 -/

/-- C11 (the claim fails as stated): the image `imgNoFreeDup` holds the live root entry
"C       DAT", whose trimmed name "C.DAT" is the upper-cased name of the file to insert, but
it has no free cluster: `diskput` ends with the NoSpace diagnostic, not with
DuplicateName, because `main` makes the free-space test before the directory scan. -/
theorem put_duplicate_reported_after_space_test :
    specTrimFileName (entry_filename (readBytes imgNoFreeDup 9728 32))
        (entry_extension (readBytes imgNoFreeDup 9728 32)) = nameCDat.map toupper ∧
      (Diskput.main 100 imgNoFreeDup none nameCDat (some (fileOfA 2)) 0 0 heapZero
        stackMarked).outcome = .noSpace ∧
      (Diskput.main 100 imgNoFreeDup none nameCDat (some (fileOfA 2)) 0 0 heapZero
        stackMarked).outcome ≠ .duplicateName := by
  decide!

/-- C11 (as amended): for every image with a loaded FAT on which the host file passes the
free-space test (`L ≤ free_count * 512`), if the root directory contains in slot `z`,
before its first `0x00` slot, a live entry with a non-empty extension and without
interior spaces whose trimmed 8.3 name equals the upper-cased name of the file to
insert, then `diskput` into ROOT ends with DuplicateName and the image is unchanged.
(`heap` gives 13-byte blocks; entries without extension are not covered.) -/
theorem put_root_duplicate_name (fuel : Nat) (img : Image) (destination : Option (List Byte))
    (file_name file : List Byte) (formatted_date formatted_time : Nat)
    (heap : Nat → List Byte) (stack : Int → List Byte) (z : Nat)
    (hdest : destination.getD [0x52, 0x4F, 0x4F, 0x54] = [0x52, 0x4F, 0x4F, 0x54])
    (hT : 31 < total_sectors img)
    (hw : fat_mem_size (total_sectors img + 2 - 33) ≤ 65536)
    (hL : file.length < 2147483648)
    (hspace : file.length
      ≤ specFreeCount (load_fat img (total_sectors img + 2 - 33)) (total_sectors img + 2 - 33) * 512)
    (hheap : ∀ a, (heap a).length = 13)
    (hz : 32 * z < 14 * bytes_per_sector img)
    (hbefore : ∀ k, k < z → (img (19 * bytes_per_sector img + 32 * k)).val ≠ 0x00)
    (hlive0 : (img (19 * bytes_per_sector img + 32 * z)).val ≠ 0x00)
    (hlive1 : (img (19 * bytes_per_sector img + 32 * z)).val ≠ 0xE5)
    (hext : (entry_extension (readBytes img (19 * bytes_per_sector img + 32 * z) 32)).headD 0 ≠ 0x20)
    (hsp1 : (0x20 : Byte) ∉ stripTrailingSpaces
      (entry_filename (readBytes img (19 * bytes_per_sector img + 32 * z) 32)))
    (hsp2 : (0x20 : Byte) ∉ stripTrailingSpaces
      (entry_extension (readBytes img (19 * bytes_per_sector img + 32 * z) 32)))
    (hname : specTrimFileName
        (entry_filename (readBytes img (19 * bytes_per_sector img + 32 * z) 32))
        (entry_extension (readBytes img (19 * bytes_per_sector img + 32 * z) 32))
      = file_name.map toupper) :
    (Diskput.main fuel img destination file_name (some file) formatted_date formatted_time
        heap stack).outcome = .duplicateName ∧
    (Diskput.main fuel img destination file_name (some file) formatted_date formatted_time
        heap stack).disk = img := by
  -- the name has at most 12 characters
  have hlen : (file_name.map toupper).length ≤ 12 := by
    rw [← hname]
    unfold specTrimFileName
    rw [if_pos hext]
    have h1 := length_stripTrailingSpaces_le
      (entry_filename (readBytes img (19 * bytes_per_sector img + 32 * z) 32))
    have h2 := length_stripTrailingSpaces_le
      (entry_extension (readBytes img (19 * bytes_per_sector img + 32 * z) 32))
    rw [length_entry_filename] at h1
    rw [length_entry_extension] at h2
    simp only [List.length_append, List.length_cons, List.length_nil]
    omega
  -- the comparison at slot `z` succeeds
  have hcmp : rootCompare img heap (file_name.map toupper)
      (19 * bytes_per_sector img + 32 * z) = some true := by
    unfold rootCompare
    rw [trimFileName_of_ext _ _ _ hext, filter_eq_stripTrailingSpaces _ hsp1,
      filter_eq_stripTrailingSpaces _ hsp2]
    have hn := hname
    unfold specTrimFileName at hn
    rw [if_pos hext] at hn
    rw [hn]
    exact strcmp_eq_self _ _
  have hscan : get_free_entry_in_root_dir img heap (file_name.map toupper) none = .duplicate := by
    unfold get_free_entry_in_root_dir
    exact root_loop_duplicate img heap _ _ z _ _ none (by omega) (by omega) hlive0 hlive1 hcmp
      hbefore (fun k _ => rootCompare_ne_none img heap _ _ (hheap _) hlen)
  have hN : total_sectors img + 2 - 33 ≠ 0 := by omega
  have hfree := put_getFreeBlocks_eq _ _ hN (length_load_fat img _)
    (by rw [length_load_fat]; exact hw)
  have hnot : ¬ total_sectors img < 31 := by omega
  have hm1 : ¬ ((specFreeCount (load_fat img (total_sectors img + 2 - 33))
      (total_sectors img + 2 - 33) : Int) = -1) := by omega
  have hle : ¬ ((file.length : Int) > (specFreeCount (load_fat img (total_sectors img + 2 - 33))
      (total_sectors img + 2 - 33) : Int) * 512) := by omega
  unfold Diskput.main
  simp only [if_neg hnot, hfree, if_neg hm1, int32Val_of_lt _ hL, if_neg hle]
  unfold Diskput.main_after_space_check
  simp only [hdest, if_true, hscan]
  exact ⟨trivial, trivial⟩



/-- Witness for C11 (as amended): the image `imgDup` (67 free clusters, root entry "C.DAT")
and the 2-byte host file "c.dat". -/
theorem put_root_duplicate_name_witness :
    (imgDup (19 * bytes_per_sector imgDup + 32 * 0)).val ≠ 0x00 ∧
      specTrimFileName (entry_filename (readBytes imgDup (19 * bytes_per_sector imgDup + 32 * 0) 32))
        (entry_extension (readBytes imgDup (19 * bytes_per_sector imgDup + 32 * 0) 32))
        = nameCDat.map toupper ∧
      (Diskput.main 100 imgDup none nameCDat (some (fileOfA 2)) 0 0 heapZero stackMarked).outcome
        = .duplicateName ∧
      (Diskput.main 100 imgDup none nameCDat (some (fileOfA 2)) 0 0 heapZero stackMarked).disk
        = imgDup :=
  have h := put_root_duplicate_name 100 imgDup none nameCDat (fileOfA 2) 0 0 heapZero stackMarked 0
    (by decide) (by decide) (by decide) (by decide) (by decide!) (fun _ => by simp [heapZero])
    (by decide) (fun k hk => absurd hk (Nat.not_lt_zero k)) (by decide) (by decide) (by decide)
    (by decide) (by decide) (by decide)
  ⟨by decide, by decide, h.1, h.2⟩

/-- C13 (the claim fails as stated): in the root of `imgDeletedThenFree` slot 0 is a deleted
entry (`0xE5`, byte offset 9728) and slot 1 the first never-used slot (`0x00`, byte
offset 9760): `get_free_entry_in_root_dir` yields 9760, not the offset of the `0xE5`
slot that precedes the first `0x00` slot. -/
theorem get_free_entry_in_root_dir_prefers_unused_slot :
    (imgDeletedThenFree 9728).val = 0xE5 ∧ (imgDeletedThenFree 9760).val = 0x00 ∧
      get_free_entry_in_root_dir imgDeletedThenFree heapZero (nameCDat.map toupper) none
        = .slot (some 9760) ∧
      get_free_entry_in_root_dir imgDeletedThenFree heapZero (nameCDat.map toupper) none
        ≠ .slot (some 9728) := by
  decide!

/-- C13 (as amended): when no comparison of the scan matches the name being inserted,
`get_free_entry_in_root_dir` yields the byte offset of the first slot of the root region
whose first byte is `0x00` if the region has one (also when a `0xE5` slot precedes it);
otherwise the byte offset of the last slot whose first byte is `0xE5`; and when the
region has neither, no slot is produced. -/
theorem get_free_entry_in_root_dir_first_unused_else_last_deleted (img : Image)
    (heap : Nat → List Byte) (file_name : List Byte)
    (hno : ∀ k, 32 * k < 14 * bytes_per_sector img →
      (img (19 * bytes_per_sector img + 32 * k)).val ≠ 0x00 →
      (img (19 * bytes_per_sector img + 32 * k)).val ≠ 0xE5 →
      rootCompare img heap file_name (19 * bytes_per_sector img + 32 * k) = some false) :
    (∀ z, 32 * z < 14 * bytes_per_sector img →
        (img (19 * bytes_per_sector img + 32 * z)).val = 0x00 →
        (∀ k, k < z → (img (19 * bytes_per_sector img + 32 * k)).val ≠ 0x00) →
        get_free_entry_in_root_dir img heap file_name none
          = .slot (some (19 * bytes_per_sector img + 32 * z))) ∧
    (∀ e, 32 * e < 14 * bytes_per_sector img →
        (img (19 * bytes_per_sector img + 32 * e)).val = 0xE5 →
        (∀ k, 32 * k < 14 * bytes_per_sector img →
          (img (19 * bytes_per_sector img + 32 * k)).val ≠ 0x00) →
        (∀ k, e < k → 32 * k < 14 * bytes_per_sector img →
          (img (19 * bytes_per_sector img + 32 * k)).val ≠ 0xE5) →
        get_free_entry_in_root_dir img heap file_name none
          = .slot (some (19 * bytes_per_sector img + 32 * e))) ∧
    ((∀ k, 32 * k < 14 * bytes_per_sector img →
          (img (19 * bytes_per_sector img + 32 * k)).val ≠ 0x00 ∧
          (img (19 * bytes_per_sector img + 32 * k)).val ≠ 0xE5) →
        get_free_entry_in_root_dir img heap file_name none = .slot none) := by
  refine ⟨?_, ?_, ?_⟩
  · intro z hz h0 hbefore
    unfold get_free_entry_in_root_dir
    exact root_loop_first_zero img heap file_name _ z _ _ none (by omega) (by omega) h0 hbefore
      (fun k hk h5 => hno k (by omega) (hbefore k hk) h5)
  · intro e he h5 hnz hlast
    unfold get_free_entry_in_root_dir
    exact root_loop_last_deleted img heap file_name _ e _ _ none (by omega) (by omega) h5
      (fun k hk _ => hnz k (by omega)) (fun k hek hk _ => hlast k hek (by omega))
      (fun k hk _ h0 h1 => hno k (by omega) h0 h1)
  · intro h
    unfold get_free_entry_in_root_dir
    exact root_loop_no_free img heap file_name _ _ _ none
      (fun k hk _ => ⟨(h k (by omega)).1, (h k (by omega)).2,
        hno k (by omega) (h k (by omega)).1 (h k (by omega)).2⟩)



/-- Witness for C13 (as amended) on the image `imgDeletedThenFree`, first unused slot 1. -/
theorem get_free_entry_in_root_dir_first_unused_else_last_deleted_witness :
    (imgDeletedThenFree (19 * bytes_per_sector imgDeletedThenFree + 32 * 0)).val = 0xE5 ∧
      (imgDeletedThenFree (19 * bytes_per_sector imgDeletedThenFree + 32 * 1)).val = 0x00 ∧
      get_free_entry_in_root_dir imgDeletedThenFree heapZero (nameCDat.map toupper) none
        = .slot (some (19 * bytes_per_sector imgDeletedThenFree + 32 * 1)) :=
  have hB : bytes_per_sector imgDeletedThenFree = 512 := by decide
  have hall : ∀ k, k < 224 →
      (imgDeletedThenFree (19 * bytes_per_sector imgDeletedThenFree + 32 * k)).val ≠ 0x00 →
      (imgDeletedThenFree (19 * bytes_per_sector imgDeletedThenFree + 32 * k)).val ≠ 0xE5 →
      rootCompare imgDeletedThenFree heapZero (nameCDat.map toupper)
        (19 * bytes_per_sector imgDeletedThenFree + 32 * k) = some false := by decide!
  ⟨by decide, by decide,
    (get_free_entry_in_root_dir_first_unused_else_last_deleted imgDeletedThenFree heapZero
      (nameCDat.map toupper) (fun k hk => hall k (by rw [hB] at hk; omega))).1 1 (by decide)
      (by decide) (fun k hk => by
        have : k = 0 := by omega
        subst this
        decide)⟩

/-- C16: for every host file name `P.E` where `P` has 1 to 8 characters, none of them '.',
and `E` has 1 to 3 characters, `fill_info_to_entry` returns an entry whose name field is
`P` padded with `0x20` to 8 bytes, whose extension field is `E` padded with `0x20` to 3
bytes, whose attributes byte is 0 and whose size is `L` (`L` fitting the 32-bit size
field). The cluster field holds the `uint16_t` conversion of
`first_physical_sector - 33 + 2`: it is `first_physical_sector - 33 + 2` for every sector
number from 31 on whose cluster fits the 16-bit field (every sector that
`get_free_sector` returns starts from 33). -/
theorem fill_info_to_entry_name_and_extension (L first_physical_sector : Nat) (P E : List Byte)
    (hP1 : 1 ≤ P.length) (hP8 : P.length ≤ 8) (hE1 : 1 ≤ E.length) (hE3 : E.length ≤ 3)
    (hPdot : ∀ c ∈ P, c.val ≠ 0x2E) (hE0 : ∀ c ∈ E, c.val ≠ 0)
    (hL : L < 4294967296) :
    ∃ entry, fill_info_to_entry L (P ++ 0x2E :: E) first_physical_sector = some entry ∧
      entry_filename entry = P ++ List.replicate (8 - P.length) 0x20 ∧
      entry_extension entry = E ++ List.replicate (3 - E.length) 0x20 ∧
      entry_attributes entry = 0 ∧
      entry_size entry = L ∧
      entry_cluster entry = (first_physical_sector + 65536 + 2 - 33) % 65536 ∧
      (31 ≤ first_physical_sector → first_physical_sector + 2 - 33 < 65536 →
        entry_cluster entry = first_physical_sector + 2 - 33) := by
  have h := fill_info_to_entry_name_ext L first_physical_sector P E hP1 hP8 hE1 hE3 hPdot hE0
  have hX : (P ++ List.replicate (8 - P.length) (0x20 : Byte)).length = 8 := by
    simp only [List.length_append, List.length_replicate]; omega
  have hY : (E ++ List.replicate (3 - E.length) (0x20 : Byte)).length = 3 := by
    simp only [List.length_append, List.length_replicate]; omega
  have hc : toUint16 (first_physical_sector + 65536 + 2 - 33) < 65536 := by
    unfold toUint16; omega
  have hf := name_fields_of_layout _ _ hX hY (toUint16 (first_physical_sector + 65536 + 2 - 33)) L
  have hg := number_fields_of_layout _ _ hX hY (toUint16 (first_physical_sector + 65536 + 2 - 33)) L
    hc hL
  rw [show P ++ List.replicate (8 - P.length) (0x20 : Byte) ++ E
        ++ List.replicate (3 - E.length) 0x20 ++ List.replicate 15 0
        ++ le16 (toUint16 (first_physical_sector + 65536 + 2 - 33)) ++ le32 L
      = (P ++ List.replicate (8 - P.length) (0x20 : Byte))
        ++ (E ++ List.replicate (3 - E.length) 0x20) ++ List.replicate 15 0
        ++ le16 (toUint16 (first_physical_sector + 65536 + 2 - 33)) ++ le32 L
      by simp only [List.append_assoc]] at h
  refine ⟨_, h, hf.1, hf.2.1, hf.2.2, hg.2, hg.1, ?_⟩
  intro hlo hhi
  rw [hg.1]
  unfold toUint16
  omega

/-- Witness for C16: the name "C.DAT", a 700-byte file, first sector 33 (cluster 2). -/
theorem fill_info_to_entry_name_and_extension_witness :
    ∃ entry, fill_info_to_entry 700 ([0x43] ++ 0x2E :: [0x44, 0x41, 0x54]) 33 = some entry ∧
      entry_filename entry = [0x43] ++ List.replicate (8 - [(0x43 : Byte)].length) 0x20 ∧
      entry_extension entry
        = [0x44, 0x41, 0x54] ++ List.replicate (3 - [(0x44 : Byte), 0x41, 0x54].length) 0x20 ∧
      entry_attributes entry = 0 ∧
      entry_size entry = 700 ∧
      entry_cluster entry = (33 + 65536 + 2 - 33) % 65536 ∧
      (31 ≤ 33 → 33 + 2 - 33 < 65536 → entry_cluster entry = 33 + 2 - 33) :=
  fill_info_to_entry_name_and_extension 700 33 [0x43] [0x44, 0x41, 0x54] (by decide) (by decide)
    (by decide) (by decide) (by decide!) (by decide!) (by omega)

/-- C18 (the claim fails as stated): the name "ABCDEFGH.TXT" has no '.' within its first 8
characters, yet `fill_info_to_entry` stores "TXT" in the extension field, not three
`0x20` bytes: the loop tests `file_name[i] != '.'` before `i == 8`, so a '.' in ninth
position still starts the extension. -/
theorem fill_info_to_entry_dot_in_ninth_position :
    (∀ c ∈ nameLongTxt.take 8, c.val ≠ 0x2E) ∧
      (fill_info_to_entry 10 nameLongTxt 33).map entry_filename
        = some [0x41, 0x42, 0x43, 0x44, 0x45, 0x46, 0x47, 0x48] ∧
      (fill_info_to_entry 10 nameLongTxt 33).map entry_extension = some [0x54, 0x58, 0x54] ∧
      (fill_info_to_entry 10 nameLongTxt 33).map entry_extension ≠ some [0x20, 0x20, 0x20] := by
  decide!

/-- C18 (as amended): for every host file name of at least 8 characters with no '.' among
its first 9 characters, `fill_info_to_entry` returns an entry whose name field holds the
first 8 characters of the name and whose extension field is three `0x20` bytes; every
byte of the name field is a character of the name. (Names shorter than 8 characters
without '.' are not covered.) -/
theorem fill_info_to_entry_name_without_dot (L first_physical_sector : Nat)
    (file_name : List Byte) (h8 : 8 ≤ file_name.length)
    (hdot : ∀ c ∈ file_name.take 9, c.val ≠ 0x2E) :
    ∃ entry, fill_info_to_entry L file_name first_physical_sector = some entry ∧
      entry_filename entry = file_name.take 8 ∧
      entry_extension entry = [0x20, 0x20, 0x20] ∧
      (∀ c ∈ entry_filename entry, c ∈ file_name) := by
  rcases file_name with _ | ⟨a1, _ | ⟨a2, _ | ⟨a3, _ | ⟨a4, _ | ⟨a5, _ | ⟨a6, _ | ⟨a7, _ | ⟨a8, rest⟩⟩⟩⟩⟩⟩⟩⟩ <;>
  simp only [List.length_cons, List.length_nil] at h8 <;>
  first
  | omega
  | (have htake : (a1 :: a2 :: a3 :: a4 :: a5 :: a6 :: a7 :: a8 :: rest).take 9
         = [a1, a2, a3, a4, a5, a6, a7, a8] ++ rest.take 1 := rfl
     have h9 : (rest[0]?.getD 0).val ≠ 0x2E := by
       cases rest with
       | nil => simp
       | cons c r => simpa using hdot c (by rw [htake]; simp)
     have hd : ∀ c ∈ [a1, a2, a3, a4, a5, a6, a7, a8], c.val ≠ 0x2E := fun c hc =>
       hdot c (by rw [htake]; exact List.mem_append_left _ hc)
     simp only [List.forall_mem_cons, List.mem_cons, forall_eq_or_imp, List.not_mem_nil,
       false_implies, implies_true, and_true] at hd
     have hfill : fill_info_to_entry L (a1 :: a2 :: a3 :: a4 :: a5 :: a6 :: a7 :: a8 :: rest)
         first_physical_sector
         = some ([a1, a2, a3, a4, a5, a6, a7, a8] ++ [0x20, 0x20, 0x20] ++ List.replicate 15 0
             ++ le16 (toUint16 (first_physical_sector + 65536 + 2 - 33)) ++ le32 L) := by
       unfold fill_info_to_entry
       simp only [entry0_eq]
       simp_arith [fill_name_loop, hd, h9, storeAt, le16, le32]
     have hf := name_fields_of_layout [a1, a2, a3, a4, a5, a6, a7, a8] [0x20, 0x20, 0x20] rfl rfl
       (toUint16 (first_physical_sector + 65536 + 2 - 33)) L
     refine ⟨_, hfill, ?_, hf.2.1, ?_⟩
     · rw [hf.1]; rfl
     · rw [hf.1]
       intro c hc
       exact List.mem_of_mem_take
         (show c ∈ (a1 :: a2 :: a3 :: a4 :: a5 :: a6 :: a7 :: a8 :: rest).take 8 from hc))

/-- Witness for C18 (as amended): the 9-character name "ABCDEFGHI". -/
theorem fill_info_to_entry_name_without_dot_witness :
    ∃ entry, fill_info_to_entry 10 [0x41, 0x42, 0x43, 0x44, 0x45, 0x46, 0x47, 0x48, 0x49] 33
        = some entry ∧
      entry_filename entry = [0x41, 0x42, 0x43, 0x44, 0x45, 0x46, 0x47, 0x48, 0x49].take 8 ∧
      entry_extension entry = [0x20, 0x20, 0x20] ∧
      (∀ c ∈ entry_filename entry, c ∈ [0x41, 0x42, 0x43, 0x44, 0x45, 0x46, 0x47, 0x48, 0x49]) :=
  fill_info_to_entry_name_without_dot 10 33 [0x41, 0x42, 0x43, 0x44, 0x45, 0x46, 0x47, 0x48, 0x49]
    (by decide) (by decide!)

/-- C19: for every year `y` in [1980, 2107], month `m` in [1, 12] given by its three-letter
abbreviation, day `d` in [1, 31], hour `h` in [0, 23] and minute `n` in [0, 59], with
the strings as `ctime` prints them: `process_date` of `diskput.c` yields
`((y - 1980) << 9) | (m << 5) | d` and `process_time` yields `(h << 11) | (n << 5)`, both
below `2 ^ 16`; the decoding of `disklist.c` recovers `(y, m, d)` and `(h, n)` from these
values; and encoding the decoded fields gives the packed values back. -/
theorem date_time_packing_round_trip (y m d h n : Nat) (hy1 : 1980 ≤ y) (hy2 : y ≤ 2107)
    (hm1 : 1 ≤ m) (hm2 : m ≤ 12) (hd1 : 1 ≤ d) (hd2 : d ≤ 31) (hh : h ≤ 23) (hn : n ≤ 59) :
    Diskput.process_date (decimal y) (monthAbbrev m) (ctimeDay d) = specPackDate y m d ∧
      specPackDate y m d < 65536 ∧
      Diskput.process_time (decimal02 h) (decimal02 n) = specPackTime h n ∧
      specPackTime h n < 65536 ∧
      Disklist.process_date_fields (specPackDate y m d) = (y, m, d) ∧
      Disklist.process_time_fields (specPackTime h n) = (h, n) ∧
      Diskput.process_date (decimal (Disklist.process_date_fields (specPackDate y m d)).1)
          (monthAbbrev (Disklist.process_date_fields (specPackDate y m d)).2.1)
          (ctimeDay (Disklist.process_date_fields (specPackDate y m d)).2.2)
        = specPackDate y m d ∧
      Diskput.process_time (decimal02 (Disklist.process_time_fields (specPackTime h n)).1)
          (decimal02 (Disklist.process_time_fields (specPackTime h n)).2)
        = specPackTime h n := by
  have hD := specPackDate_arith y m d (by omega) (by omega)
  have hT := specPackTime_arith h n (by omega)
  have hpd := process_date_eq y m d hy1 hy2 hm1 hm2 hd1 hd2
  have hpt := process_time_eq h n hh hn
  have hfd : Disklist.process_date_fields (specPackDate y m d) = (y, m, d) := by
    rw [process_date_fields_arith, hD]
    refine Prod.ext ?_ (Prod.ext ?_ ?_) <;> simp only <;> omega
  have hft : Disklist.process_time_fields (specPackTime h n) = (h, n) := by
    rw [process_time_fields_arith, hT]
    refine Prod.ext ?_ ?_ <;> simp only <;> omega
  refine ⟨by rw [hpd, hD], by rw [hD]; omega, by rw [hpt, hT], by rw [hT]; omega, hfd, hft, ?_, ?_⟩
  · rw [hfd]; simp only; rw [hpd, hD]
  · rw [hft]; simp only; rw [hpt, hT]

/-- Witness for C19: 1 March 2024, 12:30 (packed date `0x5861`, packed time `0x63C0`). -/
theorem date_time_packing_round_trip_witness :
    Diskput.process_date (decimal 2024) (monthAbbrev 3) (ctimeDay 1) = specPackDate 2024 3 1 ∧
      specPackDate 2024 3 1 < 65536 ∧
      Diskput.process_time (decimal02 12) (decimal02 30) = specPackTime 12 30 ∧
      specPackTime 12 30 < 65536 ∧
      Disklist.process_date_fields (specPackDate 2024 3 1) = (2024, 3, 1) ∧
      Disklist.process_time_fields (specPackTime 12 30) = (12, 30) ∧
      Diskput.process_date (decimal (Disklist.process_date_fields (specPackDate 2024 3 1)).1)
          (monthAbbrev (Disklist.process_date_fields (specPackDate 2024 3 1)).2.1)
          (ctimeDay (Disklist.process_date_fields (specPackDate 2024 3 1)).2.2)
        = specPackDate 2024 3 1 ∧
      Diskput.process_time (decimal02 (Disklist.process_time_fields (specPackTime 12 30)).1)
          (decimal02 (Disklist.process_time_fields (specPackTime 12 30)).2)
        = specPackTime 12 30 :=
  date_time_packing_round_trip 2024 3 1 12 30 (by decide) (by decide) (by decide) (by decide)
    (by decide) (by decide) (by decide) (by decide)

/-! ## Lemmas on the masked write and the directory scans -/

theorem byte_and_F0_value : ∀ b : Byte, b.val &&& 0xF0 = 16 * (b.val / 16) := by decide!

theorem or_low_nibble (x n : Nat) (hn : n < 16) : 16 * x ||| n = n + 16 * x := by
  have h := or_shl_arith n x 4 (by omega)
  rw [Nat.shiftLeft_eq] at h
  rw [Nat.lor_comm, show 16 * x = x * 2 ^ 4 by omega, h]
  omega

theorem nibble_add_odd : ∀ (n : Fin 16) (b : Byte), b.val < 16 →
    toByte (wrap32 ((n.val <<< 4) + charToInt b)) = toByte ((b.val &&& 0x0F) ||| (n.val <<< 4)) := by
  intro n b hb
  have hn := n.isLt
  apply Fin.ext
  show wrap32 ((n.val <<< 4) + charToInt b) % 256 = ((b.val &&& 0x0F) ||| (n.val <<< 4)) % 256
  rw [byte_and_0F, or_shl_arith _ _ 4 (by omega), Nat.shiftLeft_eq]
  unfold wrap32 charToInt
  rw [if_pos (by omega)]
  omega

theorem nibble_add_even : ∀ (n : Fin 16) (b : Byte), b.val % 16 = 0 →
    toByte (wrap32 (n.val + charToInt b)) = toByte ((b.val &&& 0xF0) ||| n.val) := by
  intro n b hb
  have hn := n.isLt
  have hlt := b.isLt
  apply Fin.ext
  show wrap32 (n.val + charToInt b) % 256 = ((b.val &&& 0xF0) ||| n.val) % 256
  rw [byte_and_F0_value, or_low_nibble _ _ hn]
  unfold wrap32 charToInt
  split <;> omega

theorem update_fat_of_free (fat_table : List Byte) (i v : Nat)
    (hb : (3 * i + 2) / 2 < fat_table.length) (hw : fat_table.length ≤ 65536)
    (hv : v < 65536) (hfree : specEntry fat_table i = 0) :
    update_fat fat_table i v = some (specWrite fat_table i v) := by
  have hi : toUint16 i = i := by unfold toUint16; omega
  have hv2 : toUint16 v = v := by unfold toUint16; omega
  rw [specEntry_arith] at hfree
  unfold update_fat specWrite
  simp only [hi, hv2, Nat.and_one_is_mod]
  rcases Nat.mod_two_eq_zero_or_one i with h0 | h1
  · have hj : toUint16 (i * 3 / 2) = 3 * i / 2 := by unfold toUint16; omega
    have h1 : 3 * i / 2 + 1 < fat_table.length := by omega
    have h2 : 3 * i / 2 < fat_table.length := by omega
    have hne : ¬ ((0 : Nat) ≠ 0) := by simp
    have hne2 : ¬ ((0 : Nat) = 1) := by simp
    rw [if_pos h0] at hfree
    simp only [h0, hj, if_neg hne, if_neg hne2, if_pos h2]
    have hget : (fat_table.set (3 * i / 2) (toByte (v &&& 0xFFF &&& 0xFF)))[3 * i / 2 + 1]? =
        some (fat_table.getD (3 * i / 2 + 1) 0) := by
      rw [List.getElem?_set_ne (by omega), List.getD_eq_getElem _ _ h1, List.getElem?_eq_getElem h1]
    rw [hget]
    simp only
    have hlt : (v &&& 0xFFF) >>> 8 &&& 0xF < 16 := Nat.lt_succ_of_le Nat.and_le_right
    have := nibble_add_even ⟨_, hlt⟩ (fat_table.getD (3 * i / 2 + 1) 0) (by omega)
    simp only at this
    rw [this]
  · have hj : toUint16 ((1 + i * 3) / 2) = (3 * i + 1) / 2 := by unfold toUint16; omega
    have h3 : (3 * i + 1) / 2 - 1 < fat_table.length := by omega
    have h2 : (3 * i + 1) / 2 < fat_table.length := by omega
    have hne : (1 : Nat) ≠ 0 := by simp
    have hne2 : ¬ ((1 : Nat) = 0) := by simp
    rw [if_neg (by omega)] at hfree
    simp only [h1, hj, if_pos hne, if_true, if_pos h2]
    have hget : (fat_table.set ((3 * i + 1) / 2) (toByte ((v &&& 0xFFF) >>> 4 &&& 0xFF)))[(3 * i + 1) / 2 - 1]? =
        some (fat_table.getD ((3 * i + 1) / 2 - 1) 0) := by
      rw [List.getElem?_set_ne (by omega), List.getD_eq_getElem _ _ h3, List.getElem?_eq_getElem h3]
    rw [hget]
    simp only
    have hlt : (v &&& 0xFFF) &&& 0xF < 16 := Nat.lt_succ_of_le Nat.and_le_right
    have := nibble_add_odd ⟨_, hlt⟩ (fat_table.getD ((3 * i + 1) / 2 - 1) 0) (by omega)
    simp only at this
    rw [this]

/-- The masked write leaves every byte outside the two bytes of the entry as it was. -/
theorem specWrite_other_bytes (fat_table : List Byte) (i v k : Nat)
    (hk1 : k ≠ 3 * i / 2) (hk2 : k ≠ 3 * i / 2 + 1) :
    (specWrite fat_table i v)[k]? = fat_table[k]? := by
  unfold specWrite
  simp only
  split
  · rw [List.getElem?_set_ne (by omega), List.getElem?_set_ne (by omega)]
  · rw [List.getElem?_set_ne (by omega), List.getElem?_set_ne (by omega)]

theorem length_specWrite (fat_table : List Byte) (i v : Nat) :
    (specWrite fat_table i v).length = fat_table.length := by
  unfold specWrite
  simp only
  split <;> simp

theorem getD_set_eq (l : List Byte) (i : Nat) (a d : Byte) (h : i < l.length) :
    (l.set i a).getD i d = a := by
  simp [List.getD_eq_getElem?_getD, List.getElem?_set, h]

theorem getD_set_ne (l : List Byte) (i k : Nat) (a d : Byte) (h : i ≠ k) :
    (l.set i a).getD k d = l.getD k d := by
  simp [List.getD_eq_getElem?_getD, List.getElem?_set, h]

theorem nibble_high_read : ∀ (n : Fin 16) (b : Byte),
    (toByte ((b.val &&& 0x0F) ||| (n.val <<< 4))).val / 16 = n.val := by
  intro n b
  have hn := n.isLt
  show ((b.val &&& 0x0F) ||| (n.val <<< 4)) % 256 / 16 = n.val
  rw [byte_and_0F, or_shl_arith _ _ 4 (by omega)]
  omega

theorem nibble_low_read : ∀ (n : Fin 16) (b : Byte),
    (toByte ((b.val &&& 0xF0) ||| n.val)).val % 16 = n.val := by
  intro n b
  have hn := n.isLt
  have hlt := b.isLt
  show ((b.val &&& 0xF0) ||| n.val) % 256 % 16 = n.val
  rw [byte_and_F0_value, or_low_nibble _ _ hn]
  omega

/-- Reading back the entry that the masked write has set. -/
theorem specEntry_specWrite (fat_table : List Byte) (i v : Nat)
    (hb : (3 * i + 2) / 2 < fat_table.length) :
    specEntry (specWrite fat_table i v) i = v % 4096 := by
  have h1 : ∀ x : Nat, x &&& 0xFFF = x % 4096 := fun x => Nat.and_pow_two_sub_one_eq_mod x 12
  have h2 : ∀ x : Nat, x &&& 0xFF = x % 256 := fun x => Nat.and_pow_two_sub_one_eq_mod x 8
  have h3 : ∀ x : Nat, x &&& 0x0F = x % 16 := fun x => Nat.and_pow_two_sub_one_eq_mod x 4
  have htb : ∀ x : Nat, (toByte x).val = x % 256 := fun _ => rfl
  rw [specEntry_arith]
  unfold specWrite
  rcases Nat.mod_two_eq_zero_or_one i with h0 | h1'
  · have hne2 : ¬ ((0 : Nat) = 1) := by simp
    have hb1 : 3 * i / 2 + 1 < fat_table.length := by omega
    have hb0 : 3 * i / 2 < fat_table.length := by omega
    have hlt : (v &&& 0xFFF) >>> 8 &&& 0xF < 16 := Nat.lt_succ_of_le Nat.and_le_right
    have hn := nibble_low_read ⟨_, hlt⟩ (fat_table.getD (3 * i / 2 + 1) 0)
    simp only at hn
    simp only [h0, if_neg hne2, if_true]
    rw [getD_set_ne _ _ _ _ _ (by omega), getD_set_eq _ _ _ _ hb0,
      getD_set_eq _ _ _ _ (by simpa using hb1), hn, htb, h3, h2, h1, Nat.shiftRight_eq_div_pow]
    omega
  · have hne : (1 : Nat) ≠ 0 := by simp
    have hb1 : (3 * i + 1) / 2 < fat_table.length := by omega
    have hb0 : (3 * i + 1) / 2 - 1 < fat_table.length := by omega
    have hlt : (v &&& 0xFFF) &&& 0xF < 16 := Nat.lt_succ_of_le Nat.and_le_right
    have hn := nibble_high_read ⟨_, hlt⟩ (fat_table.getD ((3 * i + 1) / 2 - 1) 0)
    simp only at hn
    simp only [h1', if_true]
    rw [if_neg (by omega), getD_set_eq _ _ _ _ (by simpa using hb0), getD_set_ne _ _ _ _ _ (by omega),
      getD_set_eq _ _ _ _ hb1, hn, htb, h3, h2, h1, Nat.shiftRight_eq_div_pow]
    omega

theorem update_fat_toUint16 (fat_table : List Byte) (i v : Nat) :
    update_fat fat_table i v = update_fat fat_table i (toUint16 v) := by
  have h : toUint16 (toUint16 v) = toUint16 v := by unfold toUint16; omega
  unfold update_fat
  simp only [h]

/-- The step of `put_in_data_area` for a chunk that is not the last one. -/
theorem put_in_data_area_link (B fat_size : Nat) (file : List Byte) (stack : Int → List Byte)
    (fuel : Nat) (st : PutState) (cur_physical_sector : Nat) (sectors_needed : Int)
    (total_size next_sector : Nat)
    (hnf : sectors_needed - 1 ≠ 0)
    (hnext : get_free_sector st.fat_table fat_size fuel = .ok next_sector) :
    put_in_data_area B fat_size file stack (fuel + 1) st cur_physical_sector sectors_needed
        total_size =
      match update_fat st.fat_table (cur_physical_sector + 2 - 33) ((next_sector + 2 - 33) * B) with
      | none => .fault
      | some t =>
        put_in_data_area B fat_size file stack fuel
          { disk := writeBytes st.disk (cur_physical_sector * 512)
              ((fread_file file st.file_pos (stack sectors_needed) 512).take 512),
            fat_table := t,
            file_pos := st.file_pos + ((file.drop st.file_pos).take 512).length }
          next_sector (sectors_needed - 1) total_size := by
  rw [put_in_data_area]
  simp only [if_neg hnf, hnext]

theorem slotsOf_succ (buf : List Byte) (j n : Nat) :
    slotsOf buf j (n + 1) = (buf.drop j).take 32 :: slotsOf buf (j + 32) n := by
  unfold slotsOf
  rw [List.range_succ_eq_map, List.map_cons, List.map_map]
  have hf : (fun k => (buf.drop (j + 32 * k)).take 32) ∘ Nat.succ =
      fun k => (buf.drop (j + 32 + 32 * k)).take 32 := by
    funext k
    simp only [Function.comp, Nat.succ_eq_add_one]
    congr 2
    omega
  rw [hf]
  rfl

theorem Res.map_id_append (r : Res (List Disklist.Row)) : Res.map (fun rest => [] ++ rest) r = r := by
  cases r <;> rfl

theorem list_step_end (img : Image) (size : Nat) (sector_heap : Nat → List Byte) (fat_table : List Byte)
    (fat_size fuel c address j : Nat) (buf : List Byte) (t : Nat)
    (hj : j + 32 ≤ bytes_per_sector img)
    (h0 : (((buf.drop j).take 32).getD 0 0).val = 0x00) :
    Disklist.list_dir_entries img size sector_heap fat_table fat_size (fuel + 1) c address j buf t = .ok [] := by
  have h1 : j < bytes_per_sector img := by omega
  have h2 : ¬ bytes_per_sector img < j + 32 := by omega
  rw [Disklist.list_dir_entries]
  simp only [if_pos h1, if_neg h2, if_pos h0]

theorem list_step_skip (img : Image) (size : Nat) (sector_heap : Nat → List Byte) (fat_table : List Byte)
    (fat_size fuel c address j : Nat) (buf : List Byte) (t : Nat)
    (hj : j + 32 ≤ bytes_per_sector img)
    (h0 : (((buf.drop j).take 32).getD 0 0).val ≠ 0x00)
    (he : specEmits ((buf.drop j).take 32) = false) :
    Disklist.list_dir_entries img size sector_heap fat_table fat_size (fuel + 1) c address j buf t =
      Disklist.list_dir_entries img size sector_heap fat_table fat_size fuel c address (j + 32) buf t := by
  have h1 : j < bytes_per_sector img := by omega
  have h2 : ¬ bytes_per_sector img < j + 32 := by omega
  rw [Disklist.list_dir_entries]
  simp only [if_pos h1, if_neg h2, if_neg h0]
  simp only [specEmits, decide_eq_false_iff_not] at he
  split
  · rfl
  · split
    · rfl
    · split
      · rfl
      · split
        · rfl
        · exfalso
          apply he
          refine ⟨h0, by assumption, by assumption, by assumption, by omega⟩

theorem list_step_file (img : Image) (size : Nat) (sector_heap : Nat → List Byte) (fat_table : List Byte)
    (fat_size fuel c address j : Nat) (buf : List Byte) (t : Nat)
    (hj : j + 32 ≤ bytes_per_sector img)
    (he : specEmits ((buf.drop j).take 32) = true)
    (hd : entry_attributes ((buf.drop j).take 32) &&& 0x10 = 0) :
    Disklist.list_dir_entries img size sector_heap fat_table fat_size (fuel + 1) c address j buf t =
      Res.map (fun rest => Disklist.Row.file t ((buf.drop j).take 32) :: rest)
        (Disklist.list_dir_entries img size sector_heap fat_table fat_size fuel c address (j + 32) buf t) := by
  have h1 : j < bytes_per_sector img := by omega
  have h2 : ¬ bytes_per_sector img < j + 32 := by omega
  simp only [specEmits, decide_eq_true_eq] at he
  obtain ⟨e0, e1, e2, e3, e4⟩ := he
  have e4' : ¬ entry_cluster ((buf.drop j).take 32) < 2 := by omega
  have hd' : ¬ (entry_attributes ((buf.drop j).take 32) &&& 0x10 ≠ 0) := by simp [hd]
  rw [Disklist.list_dir_entries]
  simp only [if_pos h1, if_neg h2, if_neg e0, if_neg e1, if_neg e2, if_neg e3, if_neg e4', if_neg hd']
  cases Disklist.list_dir_entries img size sector_heap fat_table fat_size fuel c address (j + 32) buf t <;> rfl

theorem list_step_dir (img : Image) (size : Nat) (sector_heap : Nat → List Byte) (fat_table : List Byte)
    (fat_size fuel c address j : Nat) (buf : List Byte) (t : Nat)
    (sub : List Disklist.Row)
    (hj : j + 32 ≤ bytes_per_sector img)
    (he : specEmits ((buf.drop j).take 32) = true)
    (hd : entry_attributes ((buf.drop j).take 32) &&& 0x10 ≠ 0)
    (hsub : Disklist.list_dir_entries img size sector_heap fat_table fat_size fuel
      (entry_cluster ((buf.drop j).take 32))
      ((entry_cluster ((buf.drop j).take 32) + 33 - 2) * 512) 0
      (freadAt img size ((entry_cluster ((buf.drop j).take 32) + 33 - 2) * 512)
        (bytes_per_sector img) (sector_heap (entry_cluster ((buf.drop j).take 32))))
      (t + 1) = .ok sub) :
    Disklist.list_dir_entries img size sector_heap fat_table fat_size (fuel + 1) c address j buf t =
      Res.map (fun rest => Disklist.Row.dir t ((buf.drop j).take 32) :: (sub ++ rest))
        (Disklist.list_dir_entries img size sector_heap fat_table fat_size fuel c address (j + 32) buf t) := by
  have h1 : j < bytes_per_sector img := by omega
  have h2 : ¬ bytes_per_sector img < j + 32 := by omega
  simp only [specEmits, decide_eq_true_eq] at he
  obtain ⟨e0, e1, e2, e3, e4⟩ := he
  have e4' : ¬ entry_cluster ((buf.drop j).take 32) < 2 := by omega
  rw [Disklist.list_dir_entries]
  simp only [if_pos h1, if_neg h2, if_neg e0, if_neg e1, if_neg e2, if_neg e3, if_neg e4', if_pos hd,
    hsub]
  cases Disklist.list_dir_entries img size sector_heap fat_table fat_size fuel c address (j + 32) buf t <;> rfl

/-- A run of slots without a `0x00` first byte and without an emitted subdirectory. -/
theorem list_segment (img : Image) (size : Nat) (sector_heap : Nat → List Byte) (fat_table : List Byte)
    (fat_size c address : Nat) (buf : List Byte) (t : Nat) :
    ∀ (n fuel j : Nat), j + 32 * n ≤ bytes_per_sector img →
      (∀ e ∈ slotsOf buf j n, (e.getD 0 0).val ≠ 0x00 ∧
        (specEmits e = true → entry_attributes e &&& 0x10 = 0)) →
      Disklist.list_dir_entries img size sector_heap fat_table fat_size (fuel + n) c address j buf t =
        Res.map (fun rest => ((slotsOf buf j n).filter specEmits).map (Disklist.Row.file t)
            ++ rest)
          (Disklist.list_dir_entries img size sector_heap fat_table fat_size fuel c address (j + 32 * n) buf t) := by
  intro n
  induction n with
  | zero =>
    intro fuel j _ _
    simp only [slotsOf, List.range_zero, List.map_nil, List.filter_nil, Nat.mul_zero, Nat.add_zero]
    exact (Res.map_id_append _).symm
  | succ n ih =>
    intro fuel j hj hs
    rw [slotsOf_succ] at hs ⊢
    have hhead := hs _ (List.mem_cons_self _ _)
    have htail : ∀ e ∈ slotsOf buf (j + 32) n, (e.getD 0 0).val ≠ 0x00 ∧
        (specEmits e = true → entry_attributes e &&& 0x10 = 0) :=
      fun e he => hs e (List.mem_cons_of_mem _ he)
    have hih := ih fuel (j + 32) (by omega) htail
    have hj2 : j + 32 + 32 * n = j + 32 * (n + 1) := by omega
    rw [hj2] at hih
    have hfuel : fuel + (n + 1) = (fuel + n) + 1 := by omega
    rw [hfuel]
    by_cases he : specEmits ((buf.drop j).take 32) = true
    · rw [list_step_file _ _ _ _ _ _ _ _ _ _ _ (by omega) he (hhead.2 he), hih, List.filter_cons_of_pos he]
      cases Disklist.list_dir_entries img size sector_heap fat_table fat_size fuel c address (j + 32 * (n + 1)) buf t <;> rfl
    · have he' : specEmits ((buf.drop j).take 32) = false := by simpa using he
      rw [list_step_skip _ _ _ _ _ _ _ _ _ _ _ (by omega) hhead.1 he', hih, List.filter_cons_of_neg he]

theorem count_step_end (img : Image) (size : Nat) (sector_heap : Nat → List Byte) (fat_table : List Byte)
    (fat_size fuel c address j : Nat) (buf : List Byte)
    (hj : j + 32 ≤ bytes_per_sector img)
    (h0 : (((buf.drop j).take 32).getD 0 0).val = 0x00) :
    Diskinfo.count_files_in_dir img size sector_heap fat_table fat_size (fuel + 1) c address j buf = .ok 0 := by
  have h1 : j < bytes_per_sector img := by omega
  have h2 : ¬ bytes_per_sector img < j + 32 := by omega
  rw [Diskinfo.count_files_in_dir]
  simp only [if_pos h1, if_neg h2, if_pos h0]

theorem count_step_skip (img : Image) (size : Nat) (sector_heap : Nat → List Byte) (fat_table : List Byte)
    (fat_size fuel c address j : Nat) (buf : List Byte)
    (hj : j + 32 ≤ bytes_per_sector img)
    (h0 : (((buf.drop j).take 32).getD 0 0).val ≠ 0x00)
    (he : specEmits ((buf.drop j).take 32) = false) :
    Diskinfo.count_files_in_dir img size sector_heap fat_table fat_size (fuel + 1) c address j buf =
      Diskinfo.count_files_in_dir img size sector_heap fat_table fat_size fuel c address (j + 32) buf := by
  have h1 : j < bytes_per_sector img := by omega
  have h2 : ¬ bytes_per_sector img < j + 32 := by omega
  rw [Diskinfo.count_files_in_dir]
  simp only [if_pos h1, if_neg h2, if_neg h0]
  simp only [specEmits, decide_eq_false_iff_not] at he
  split
  · rfl
  · split
    · rfl
    · split
      · rfl
      · split
        · rfl
        · exfalso
          apply he
          refine ⟨h0, by assumption, by assumption, by assumption, by omega⟩

theorem count_step_file (img : Image) (size : Nat) (sector_heap : Nat → List Byte) (fat_table : List Byte)
    (fat_size fuel c address j : Nat) (buf : List Byte)
    (hj : j + 32 ≤ bytes_per_sector img)
    (he : specEmits ((buf.drop j).take 32) = true)
    (hd : entry_attributes ((buf.drop j).take 32) &&& 0x10 = 0) :
    Diskinfo.count_files_in_dir img size sector_heap fat_table fat_size (fuel + 1) c address j buf =
      Res.map (fun rest => 1 + rest)
        (Diskinfo.count_files_in_dir img size sector_heap fat_table fat_size fuel c address (j + 32) buf) := by
  have h1 : j < bytes_per_sector img := by omega
  have h2 : ¬ bytes_per_sector img < j + 32 := by omega
  simp only [specEmits, decide_eq_true_eq] at he
  obtain ⟨e0, e1, e2, e3, e4⟩ := he
  have e4' : ¬ entry_cluster ((buf.drop j).take 32) < 2 := by omega
  have hd' : ¬ (entry_attributes ((buf.drop j).take 32) &&& 0x10 ≠ 0) := by simp [hd]
  rw [Diskinfo.count_files_in_dir]
  simp only [if_pos h1, if_neg h2, if_neg e0, if_neg e1, if_neg e2, if_neg e3, if_neg e4', if_neg hd']
  cases Diskinfo.count_files_in_dir img size sector_heap fat_table fat_size fuel c address (j + 32) buf <;> rfl

theorem count_step_dir (img : Image) (size : Nat) (sector_heap : Nat → List Byte) (fat_table : List Byte)
    (fat_size fuel c address j : Nat) (buf : List Byte)
    (sub : Nat)
    (hj : j + 32 ≤ bytes_per_sector img)
    (he : specEmits ((buf.drop j).take 32) = true)
    (hd : entry_attributes ((buf.drop j).take 32) &&& 0x10 ≠ 0)
    (hsub : Diskinfo.count_files_in_dir img size sector_heap fat_table fat_size fuel
      (entry_cluster ((buf.drop j).take 32))
      ((entry_cluster ((buf.drop j).take 32) + 33 - 2) * 512) 0
      (freadAt img size ((entry_cluster ((buf.drop j).take 32) + 33 - 2) * 512)
        (bytes_per_sector img) (sector_heap (entry_cluster ((buf.drop j).take 32)))) = .ok sub) :
    Diskinfo.count_files_in_dir img size sector_heap fat_table fat_size (fuel + 1) c address j buf =
      Res.map (fun rest => sub + rest)
        (Diskinfo.count_files_in_dir img size sector_heap fat_table fat_size fuel c address (j + 32) buf) := by
  have h1 : j < bytes_per_sector img := by omega
  have h2 : ¬ bytes_per_sector img < j + 32 := by omega
  simp only [specEmits, decide_eq_true_eq] at he
  obtain ⟨e0, e1, e2, e3, e4⟩ := he
  have e4' : ¬ entry_cluster ((buf.drop j).take 32) < 2 := by omega
  rw [Diskinfo.count_files_in_dir]
  simp only [if_pos h1, if_neg h2, if_neg e0, if_neg e1, if_neg e2, if_neg e3, if_neg e4', if_pos hd,
    hsub]
  cases Diskinfo.count_files_in_dir img size sector_heap fat_table fat_size fuel c address (j + 32) buf <;> rfl

theorem count_segment (img : Image) (size : Nat) (sector_heap : Nat → List Byte) (fat_table : List Byte)
    (fat_size c address : Nat) (buf : List Byte) :
    ∀ (n fuel j : Nat), j + 32 * n ≤ bytes_per_sector img →
      (∀ e ∈ slotsOf buf j n, (e.getD 0 0).val ≠ 0x00 ∧
        (specEmits e = true → entry_attributes e &&& 0x10 = 0)) →
      Diskinfo.count_files_in_dir img size sector_heap fat_table fat_size (fuel + n) c address j buf =
        Res.map (fun rest => ((slotsOf buf j n).filter specEmits).length + rest)
          (Diskinfo.count_files_in_dir img size sector_heap fat_table fat_size fuel c address (j + 32 * n) buf) := by
  intro n
  induction n with
  | zero =>
    intro fuel j _ _
    simp only [slotsOf, List.range_zero, List.map_nil, List.filter_nil, Nat.mul_zero, Nat.add_zero,
      List.length_nil, Nat.zero_add]
    cases Diskinfo.count_files_in_dir img size sector_heap fat_table fat_size fuel c address j buf <;> rfl
  | succ n ih =>
    intro fuel j hj hs
    rw [slotsOf_succ] at hs ⊢
    have hhead := hs _ (List.mem_cons_self _ _)
    have htail : ∀ e ∈ slotsOf buf (j + 32) n, (e.getD 0 0).val ≠ 0x00 ∧
        (specEmits e = true → entry_attributes e &&& 0x10 = 0) :=
      fun e he => hs e (List.mem_cons_of_mem _ he)
    have hih := ih fuel (j + 32) (by omega) htail
    have hj2 : j + 32 + 32 * n = j + 32 * (n + 1) := by omega
    rw [hj2] at hih
    have hfuel : fuel + (n + 1) = (fuel + n) + 1 := by omega
    rw [hfuel]
    by_cases he : specEmits ((buf.drop j).take 32) = true
    · rw [count_step_file _ _ _ _ _ _ _ _ _ _ (by omega) he (hhead.2 he), hih, List.filter_cons_of_pos he]
      cases Diskinfo.count_files_in_dir img size sector_heap fat_table fat_size fuel c address (j + 32 * (n + 1)) buf
      · simp only [Res.map, List.length_cons]
        congr 1
        omega
      · rfl
      · rfl
    · have he' : specEmits ((buf.drop j).take 32) = false := by simpa using he
      rw [count_step_skip _ _ _ _ _ _ _ _ _ _ (by omega) hhead.1 he', hih, List.filter_cons_of_neg he]


theorem drop_take_readBytes (img : Image) (off n j m : Nat) (h : j + m ≤ n) :
    ((readBytes img off n).drop j).take m = readBytes img (off + j) m := by
  apply List.ext_getElem
  · simp [readBytes]; omega
  · intro i h1 h2
    simp [readBytes, Nat.add_assoc]

/-- The slots of the buffer that holds a sector of the image are the slots of the image. -/
theorem slotsOf_readBytes (img : Image) (address B j n : Nat) (h : j + 32 * n ≤ B) :
    slotsOf (readBytes img address B) j n = slotsFrom img address j n := by
  unfold slotsOf slotsFrom
  apply List.map_congr_left
  intro k hk
  have hk2 : k < n := List.mem_range.mp hk
  exact drop_take_readBytes img address B (j + 32 * k) 32 (by omega)

/-- The scans go through the sector buffer as it is after an `fread` that is not tested. On
the image `imgShort` cut to 34 sectors (17408 bytes) the second sector of the directory
"SUB", at byte offset 49152, lies behind the end of the file: the buffer keeps the
content of sector 33 and the file "G.TXT" is listed and counted a second time. With the
file at its full length of 100 sectors it is listed and counted once. -/
theorem scans_go_through_unchanged_buffer_behind_end_of_file :
    Disklist.main 100 imgShort 17408 sectorsZero
        = .ok [.dir 0 entrySub, .file 1 entryG, .file 1 entryG] ∧
      Diskinfo.file_count 100 imgShort 17408 sectorsZero = .ok 2 ∧
      Disklist.main 100 imgShort 51200 sectorsZero = .ok [.dir 0 entrySub, .file 1 entryG] ∧
      Diskinfo.file_count 100 imgShort 51200 sectorsZero = .ok 1 := by
  decide!

/-- Entered with a sector count that is not positive, `get_file` never returns. -/
theorem get_file_nonpos (img : Image) (size : Nat) (stack : Int → List Byte)
    (fat_table : List Byte) (fat_size total_size : Nat) :
    ∀ (fuel cur_sector : Nat) (remain_sectors : Int), remain_sectors ≤ 0 →
      ∀ out, Diskget.get_file img size stack fat_table fat_size fuel cur_sector remain_sectors
        total_size ≠ .ok out := by
  intro fuel
  induction fuel with
  | zero => intro _ _ _ out h; simp [Diskget.get_file] at h
  | succ fuel ih =>
    intro cur r hr out h
    have hne : ¬ (r - 1 = 0) := by omega
    rw [Diskget.get_file] at h
    simp only [if_neg hne] at h
    split at h
    · exact Res.noConfusion h
    · rename_i v _
      have hrec := ih (v + 33 - 2) (r - 1) (by omega)
      split at h
      · rename_i rest hrest
        exact hrec rest hrest
      · rename_i r' hr'
        exact hr' out h

/-- Entered with a sector count that is not positive, `put_in_data_area` never returns. -/
theorem put_in_data_area_nonpos (B fat_size : Nat) (file : List Byte) (stack : Int → List Byte)
    (total_size : Nat) :
    ∀ (fuel : Nat) (st : PutState) (cur : Nat) (sectors_needed : Int), sectors_needed ≤ 0 →
      ∀ st', put_in_data_area B fat_size file stack fuel st cur sectors_needed total_size
        ≠ .ok st' := by
  intro fuel
  induction fuel with
  | zero => intro _ _ _ _ st' h; simp [put_in_data_area] at h
  | succ fuel ih =>
    intro st cur r hr st' h
    have hne : ¬ (r - 1 = 0) := by omega
    rw [put_in_data_area] at h
    simp only [if_neg hne] at h
    split at h
    · exact Res.noConfusion h
    · exact Res.noConfusion h
    · split at h
      · exact Res.noConfusion h
      · exact ih _ _ (r - 1) (by omega) st' h

/-! ## Claims C21 to C30 -/

/-- C21 (the claim fails on the code): on the image `imgLabel 0`, whose first root slot
(offset `19 * 512`) is the only entry with attribute `0x08` and has the name field
"VOL1    ", the label that `diskinfo` reports is not that name field. The loop advances
`start_byte_of_entry` by 32 before each read, so the first slot is never examined; its
last iteration reads the 32 bytes at the end offset of the root region, the start of data
sector 33, and the label is the first 8 bytes of that sector (`0xAA` here). With the same
entry in the second slot (`imgLabel 1`) the label is "VOL1    ". -/
theorem info_label_skips_first_root_slot :
    entry_attributes (readBytes (imgLabel 0) (19 * bytes_per_sector (imgLabel 0)) 32) = 0x08 ∧
      entry_filename (readBytes (imgLabel 0) (19 * bytes_per_sector (imgLabel 0)) 32)
        = [0x56, 0x4F, 0x4C, 0x31, 0x20, 0x20, 0x20, 0x20] ∧
      Diskinfo.label (imgLabel 0) (List.replicate 32 0) = List.replicate 8 0xAA ∧
      Diskinfo.label (imgLabel 0) (List.replicate 32 0) = readBytes (imgLabel 0) (33 * 512) 8 ∧
      Diskinfo.label (imgLabel 1) (List.replicate 32 0)
        = [0x56, 0x4F, 0x4C, 0x31, 0x20, 0x20, 0x20, 0x20] := by
  decide!

/-! ## The image `imgHighLinkFile` -/

/-- The bytes of `imgHighLinkFile` behind the second root slot. -/
theorem imgHighLinkFile_data (k : Nat) (h : 9792 ≤ k) :
    imgHighLinkFile k =
      if 17408 ≤ k ∧ k < 17920 then 0xBB
      else if 17920 ≤ k ∧ k < 18432 then 0xAA
      else if 1067008 ≤ k ∧ k < 1067520 then 0xCC
      else if 1067520 ≤ k ∧ k < 1068032 then 0xDD
      else 0 := by
  have e1 : ¬ k = 12 := by omega
  have e2 : ¬ k = 19 := by omega
  have e3 : ¬ k = 20 := by omega
  have e4 : ¬ k = 512 := by omega
  have e5 : ¬ k = 513 := by omega
  have e6 : ¬ k = 514 := by omega
  have e7 : ¬ k = 516 := by omega
  have e8 : ¬ k = 517 := by omega
  have e9 : ¬ k = 518 := by omega
  have e10 : ¬ k = 519 := by omega
  have e11 : ¬ k = 3591 := by omega
  have e12 : ¬ k = 3592 := by omega
  have e13 : ¬ k = 3593 := by omega
  have e14 : ¬ k = 3594 := by omega
  have e15 : ¬ (9728 ≤ k ∧ k < 9760) := by omega
  have e16 : ¬ (9760 ≤ k ∧ k < 9792) := by omega
  simp only [imgHighLinkFile, if_neg e1, if_neg e2, if_neg e3, if_neg e4, if_neg e5, if_neg e6,
    if_neg e7, if_neg e8, if_neg e9, if_neg e10, if_neg e11, if_neg e12, if_neg e13, if_neg e14,
    if_neg e15, if_neg e16]

theorem imgHighLinkFile_sector_34 :
    readBytes imgHighLinkFile (34 * 512) 512 = List.replicate 512 0xBB :=
  readBytes_eq_replicate _ _ _ _ (fun k h1 h2 => by
    rw [imgHighLinkFile_data k (by omega), if_pos (by omega)])

theorem imgHighLinkFile_sector_35 :
    readBytes imgHighLinkFile (35 * 512) 512 = List.replicate 512 0xAA :=
  readBytes_eq_replicate _ _ _ _ (fun k h1 h2 => by
    rw [imgHighLinkFile_data k (by omega), if_neg (by omega), if_pos (by omega)])

theorem imgHighLinkFile_sector_2084 :
    readBytes imgHighLinkFile (2084 * 512) 512 = List.replicate 512 0xCC :=
  readBytes_eq_replicate _ _ _ _ (fun k h1 h2 => by
    rw [imgHighLinkFile_data k (by omega), if_neg (by omega), if_neg (by omega),
      if_pos (by omega)])

theorem fat_mem_size_2849 : fat_mem_size 2849 = 4274 := by decide

theorem imgHighLinkFile_entry_3 : specEntry (load_fat imgHighLinkFile 2849) 3 = 0x805 := by
  rw [specEntry_load_fat _ _ _ (by rw [fat_mem_size_2849]; decide)]
  decide

theorem imgHighLinkFile_entry_4 : specEntry (load_fat imgHighLinkFile 2849) 4 = 0x805 := by
  rw [specEntry_load_fat _ _ _ (by rw [fat_mem_size_2849]; decide)]
  decide

theorem imgHighLinkFile_entry_805 : specEntry (load_fat imgHighLinkFile 2849) 0x805 = 0x806 := by
  rw [specEntry_load_fat _ _ _ (by rw [fat_mem_size_2849]; decide)]
  decide

theorem imgHighLinkFile_get_fat (i : Nat) (h : (3 * i + 2) / 2 < 4274) :
    get_fat (load_fat imgHighLinkFile 2849) 2849 i =
      some (if i % 2 = 1 ∧ 2048 ≤ specEntry (load_fat imgHighLinkFile 2849) i
        then specEntry (load_fat imgHighLinkFile 2849) i + 61440
        else specEntry (load_fat imgHighLinkFile 2849) i) :=
  get_fat_eq _ _ _ (by decide) (by rw [length_load_fat, fat_mem_size_2849]; exact h)
    (by rw [length_load_fat, fat_mem_size_2849]; decide)

theorem imgHighLinkFile_get_fat_3 :
    get_fat (load_fat imgHighLinkFile 2849) 2849 3 = some 0xF805 := by
  rw [imgHighLinkFile_get_fat 3 (by decide), imgHighLinkFile_entry_3]
  rfl

theorem imgHighLinkFile_get_fat_4 :
    get_fat (load_fat imgHighLinkFile 2849) 2849 4 = some 0x805 := by
  rw [imgHighLinkFile_get_fat 4 (by decide), imgHighLinkFile_entry_4]
  rfl

theorem imgHighLinkFile_get_fat_805 :
    get_fat (load_fat imgHighLinkFile 2849) 2849 0x805 = some 0xF806 := by
  rw [imgHighLinkFile_get_fat 0x805 (by decide), imgHighLinkFile_entry_805]
  rfl

theorem imgHighLinkFile_get_fat_F805 :
    get_fat (load_fat imgHighLinkFile 2849) 2849 0xF805 = none :=
  get_fat_odd_outside _ _ _ (by decide) (by decide)
    (by rw [length_load_fat, fat_mem_size_2849]; decide)

/-- C22 (the claim fails on the code): on the image `imgHighLinkFile` (2880 sectors) the
root file "A.TXT" has the recorded size `3 * 512` and the chain 3 → 0x805 → 0x806, so the
first two sectors of its chain are sector 34 (filled with `0xBB`) and sector 2084 (filled
with `0xCC`). For the link stored in the odd entry 3 `get_fat` returns `0xF805`, not the
12-bit entry `0x805`: after sector 34 `get_file` goes on at sector `0xF805 + 33 - 2`,
behind the end of the file, and then reads FAT entry `0xF805`, outside the mirror;
`diskget` does not end with the 1024 bytes of sectors 34 and 2084. (For the file "B.TXT"
of the same image, whose chain 4 → 0x805 → 0x806 has the same link in the even entry 4,
`diskget` emits the two sectors 35 and 2084 in full and nothing of the third sector.) -/
theorem get_follows_sign_extended_link :
    Diskget.get_file_entry_in_root imgHighLinkFile heapZero 9728 (nameATxt.map toupper)
        = .found (readBytes imgHighLinkFile 9728 32) ∧
      entry_size (readBytes imgHighLinkFile 9728 32) = 3 * 512 ∧
      entry_cluster (readBytes imgHighLinkFile 9728 32) = 3 ∧
      (List.range 3).map (specChain (load_fat imgHighLinkFile 2849) 3) = [3, 0x805, 0x806] ∧
      readBytes imgHighLinkFile ((33 + 3 - 2) * 512) 512 = List.replicate 512 0xBB ∧
      readBytes imgHighLinkFile ((33 + 0x805 - 2) * 512) 512 = List.replicate 512 0xCC ∧
      get_fat (load_fat imgHighLinkFile 2849) 2849 3 = some 0xF805 ∧
      2880 * 512 ≤ (0xF805 + 33 - 2) * 512 ∧
      get_fat (load_fat imgHighLinkFile 2849) 2849 0xF805 = none ∧
      Diskget.main 100 imgHighLinkFile (2880 * 512) nameATxt false heapZero stackOfEE
        = ⟨.fault, []⟩ ∧
      specEntry (load_fat imgHighLinkFile 2849) 4 = 0x805 ∧
      get_fat (load_fat imgHighLinkFile 2849) 2849 4 = some 0x805 ∧
      Diskget.main 100 imgHighLinkFile (2880 * 512) nameBTxt false heapZero stackOfEE
        = ⟨.done, List.replicate 512 0xAA ++ List.replicate 512 0xCC⟩ := by
  have hfoundA : Diskget.get_file_entry_in_root imgHighLinkFile heapZero 9728
      (nameATxt.map toupper) = .found (readBytes imgHighLinkFile 9728 32) := by decide!
  have hfoundB : Diskget.get_file_entry_in_root imgHighLinkFile heapZero 9728
      (nameBTxt.map toupper) = .found (readBytes imgHighLinkFile 9760 32) := by decide!
  refine ⟨hfoundA, by decide!, by decide!, ?_, imgHighLinkFile_sector_34,
    imgHighLinkFile_sector_2084, imgHighLinkFile_get_fat_3, by decide,
    imgHighLinkFile_get_fat_F805, ?_, imgHighLinkFile_entry_4, imgHighLinkFile_get_fat_4, ?_⟩
  · show [specChain (load_fat imgHighLinkFile 2849) 3 0, specChain (load_fat imgHighLinkFile 2849) 3 1,
      specChain (load_fat imgHighLinkFile 2849) 3 2] = [3, 0x805, 0x806]
    simp only [specChain, Function.iterate_succ, Function.iterate_zero, Function.comp, id,
      imgHighLinkFile_entry_3, imgHighLinkFile_entry_805]
  · rw [get_main_of_found 100 imgHighLinkFile (2880 * 512) nameATxt heapZero stackOfEE 2849
        (readBytes imgHighLinkFile 9728 32) 34 1536 3 (by decide) (by decide) (by decide) hfoundA
        (by decide!) (by decide!) (by decide),
      get_file_link _ _ _ _ _ 100 99 34 3 2 1536 3 0xF805 rfl (by decide) (by decide) (by decide)
        imgHighLinkFile_get_fat_3,
      get_file_no_link _ _ _ _ _ 99 98 (0xF805 + 33 - 2) 2 1 1536 0xF805 rfl (by decide)
        (by decide) (by decide) imgHighLinkFile_get_fat_F805]
  · rw [get_main_of_found 100 imgHighLinkFile (2880 * 512) nameBTxt heapZero stackOfEE 2849
        (readBytes imgHighLinkFile 9760 32) 35 1536 3 (by decide) (by decide) (by decide) hfoundB
        (by decide!) (by decide!) (by decide),
      get_file_link _ _ _ _ _ 100 99 35 3 2 1536 4 0x805 rfl (by decide) (by decide) (by decide)
        imgHighLinkFile_get_fat_4,
      get_file_link _ _ _ _ _ 99 98 (0x805 + 33 - 2) 2 1 1536 0x805 0xF806 rfl (by decide)
        (by decide) (by decide) imgHighLinkFile_get_fat_805,
      get_file_last _ _ _ _ _ 98 97 _ 1536 rfl]
    have h0 : freadAt imgHighLinkFile (2880 * 512) ((0xF806 + 33 - 2) * 512) (1536 % 512)
        (stackOfEE 1) = [] := rfl
    simp only []
    rw [h0, List.append_nil, freadAt_in_file _ _ _ _ _ (by decide),
      freadAt_in_file _ _ _ _ _ (by decide), imgHighLinkFile_sector_35,
      imgHighLinkFile_sector_2084]

/-- C23 (the claim fails on the code): on the freshly formatted image `imgSmall` the first
chunk of a 700-byte file goes to sector 33 (cluster 2) and `get_free_sector` returns sector
33 again; the call `update_fat(33 - 33 + 2, (33 - 33 + 2) * 512)` leaves the value `0x400`
in FAT entry 2, not `2 - 2 + 33 = 33`. Entered at sector 40 instead, `put_in_data_area`
leaves `0x400` in the entry of cluster 9 (and `0xFFF` in the entry of cluster 2). -/
theorem put_link_on_fresh_image_is_not_sector_number :
    get_free_sector stFresh.fat_table 69 40 = .ok 33 ∧
      (∃ t, update_fat stFresh.fat_table (33 + 2 - 33) ((33 + 2 - 33) * 512) = some t ∧
        specEntry t (33 + 2 - 33) = 0x400 ∧
        put_in_data_area 512 69 (fileOfA 700) stackMarked (40 + 1) stFresh 33 2 700 =
          put_in_data_area 512 69 (fileOfA 700) stackMarked 40
            { disk := writeBytes stFresh.disk (33 * 512)
                ((fread_file (fileOfA 700) stFresh.file_pos (stackMarked 2) 512).take 512),
              fat_table := t,
              file_pos := stFresh.file_pos + (((fileOfA 700).drop stFresh.file_pos).take 512).length }
            33 (2 - 1) 700) ∧
      (match put_in_data_area 512 69 (fileOfA 700) stackMarked 41 stFresh 40 2 700 with
        | .ok st => some (specEntry st.fat_table 9, specEntry st.fat_table 2)
        | _ => none) = some (0x400, 0xFFF) ∧
      (0x400 : Nat) ≠ 2 - 2 + 33 := by
  refine ⟨by decide!, ⟨specWrite stFresh.fat_table (33 + 2 - 33) ((33 + 2 - 33) * 512), by decide!,
    by decide!, ?_⟩, by decide!, by decide⟩
  rw [put_in_data_area_link 512 69 (fileOfA 700) stackMarked 40 stFresh 33 2 700 33 (by decide)
    (by decide!)]
  have hu : update_fat stFresh.fat_table (33 + 2 - 33) ((33 + 2 - 33) * 512) =
      some (specWrite stFresh.fat_table (33 + 2 - 33) ((33 + 2 - 33) * 512)) := by decide!
  rw [hu]

/-- C23 (amended): for every chunk of `put_in_data_area` that is not the last one
(`sectors_needed - 1 ≠ 0`), written to a data sector `cur_physical_sector ≥ 33` whose
cluster's FAT entry is free and inside the mirror (mirror offsets within the `uint16_t`
index range): with `next_sector` the sector that `get_free_sector` returns, `update_fat` is
called for the entry `cur_physical_sector - 33 + 2` with the value
`(next_sector - 33 + 2) * bytes_per_sector`, afterwards that entry holds
`((next_sector - 33 + 2) * bytes_per_sector) mod 4096`, and the transfer goes on at
`next_sector` with that mirror. -/
theorem put_link_is_next_address_masked (B fat_size : Nat) (file : List Byte)
    (stack : Int → List Byte) (fuel : Nat) (st : PutState) (cur_physical_sector : Nat)
    (sectors_needed : Int) (total_size next_sector : Nat)
    (hnf : sectors_needed - 1 ≠ 0)
    (hnext : get_free_sector st.fat_table fat_size fuel = .ok next_sector)
    (hcur : 33 ≤ cur_physical_sector)
    (hb : (3 * (cur_physical_sector + 2 - 33) + 2) / 2 < st.fat_table.length)
    (hw : st.fat_table.length ≤ 65536)
    (hfree : specEntry st.fat_table (cur_physical_sector + 2 - 33) = 0) :
    ∃ t, update_fat st.fat_table (cur_physical_sector + 2 - 33) ((next_sector + 2 - 33) * B) = some t ∧
      specEntry t (cur_physical_sector + 2 - 33) = ((next_sector + 2 - 33) * B) % 4096 ∧
      put_in_data_area B fat_size file stack (fuel + 1) st cur_physical_sector sectors_needed
          total_size =
        put_in_data_area B fat_size file stack fuel
          { disk := writeBytes st.disk (cur_physical_sector * 512)
              ((fread_file file st.file_pos (stack sectors_needed) 512).take 512),
            fat_table := t,
            file_pos := st.file_pos + ((file.drop st.file_pos).take 512).length }
          next_sector (sectors_needed - 1) total_size := by
  have _ := hcur
  have hu : update_fat st.fat_table (cur_physical_sector + 2 - 33) ((next_sector + 2 - 33) * B) =
      some (specWrite st.fat_table (cur_physical_sector + 2 - 33)
        (toUint16 ((next_sector + 2 - 33) * B))) := by
    rw [update_fat_toUint16]
    exact update_fat_of_free _ _ _ hb hw (by unfold toUint16; omega) hfree
  refine ⟨_, hu, ?_, ?_⟩
  · rw [specEntry_specWrite _ _ _ hb]
    unfold toUint16
    omega
  · rw [put_in_data_area_link B fat_size file stack fuel st cur_physical_sector sectors_needed
      total_size next_sector hnf hnext, hu]

/-- Witness for C23 (amended): the first chunk of a 700-byte file on `imgSmall`, written to
sector 33 with `next_sector = 33`; entry 2 then holds `(2 * 512) mod 4096`. -/
theorem put_link_is_next_address_masked_witness :
    get_free_sector stFresh.fat_table 69 40 = .ok 33 ∧
      specEntry stFresh.fat_table (33 + 2 - 33) = 0 ∧
      ∃ t, update_fat stFresh.fat_table (33 + 2 - 33) ((33 + 2 - 33) * 512) = some t ∧
        specEntry t (33 + 2 - 33) = ((33 + 2 - 33) * 512) % 4096 ∧
        put_in_data_area 512 69 (fileOfA 700) stackMarked (40 + 1) stFresh 33 2 700 =
          put_in_data_area 512 69 (fileOfA 700) stackMarked 40
            { disk := writeBytes stFresh.disk (33 * 512)
                ((fread_file (fileOfA 700) stFresh.file_pos (stackMarked 2) 512).take 512),
              fat_table := t,
              file_pos := stFresh.file_pos + (((fileOfA 700).drop stFresh.file_pos).take 512).length }
            33 (2 - 1) 700 :=
  ⟨by decide!, by decide!,
    put_link_is_next_address_masked 512 69 (fileOfA 700) stackMarked 40 stFresh 33 2 700 33
      (by decide) (by decide!) (by decide) (by decide!) (by decide!) (by decide!)⟩

/-- C24: for `list_dir_entries` and `count_files_in_dir` at any position `j` of a directory
sector that lies inside the image file (`buf` holds the sector read at `address`).
(1) Across `n` slots of the sector, none of which has first byte `0x00` or is an emitted
subdirectory, the scan emits exactly the slots that pass the filter (first byte none of
`0x00`, `0xE5`, `0x2E`, attribute not `0x0F`, cluster at least 2), as `F` rows resp. as
one count each, and goes on with the slot behind them. (2) When the next slot has first
byte `0x00`, the scan of this directory ends there: nothing after it is emitted. (3) When
the next slot passes the filter and is a subdirectory, it is emitted (`D` row), its
directory is scanned, and when that scan has ended the scan of this directory goes on
with the slot behind the subdirectory's entry. -/
theorem scans_emit_filtered_slots_until_unused_slot (img : Image) (size : Nat)
    (sector_heap : Nat → List Byte) (fat_table : List Byte)
    (fat_size c address t n fuel j : Nat) (old buf : List Byte)
    (hin : address + bytes_per_sector img ≤ size)
    (hbuf : buf = freadAt img size address (bytes_per_sector img) old)
    (hj : j + 32 * n ≤ bytes_per_sector img)
    (hs : ∀ e ∈ slotsFrom img address j n, (e.getD 0 0).val ≠ 0x00 ∧
      (specEmits e = true → entry_attributes e &&& 0x10 = 0)) :
    (Disklist.list_dir_entries img size sector_heap fat_table fat_size (fuel + n) c address j buf t =
        Res.map (fun rest => ((slotsFrom img address j n).filter specEmits).map (Disklist.Row.file t)
            ++ rest)
          (Disklist.list_dir_entries img size sector_heap fat_table fat_size fuel c address
            (j + 32 * n) buf t) ∧
      Diskinfo.count_files_in_dir img size sector_heap fat_table fat_size (fuel + n) c address j buf =
        Res.map (fun rest => ((slotsFrom img address j n).filter specEmits).length + rest)
          (Diskinfo.count_files_in_dir img size sector_heap fat_table fat_size fuel c address
            (j + 32 * n) buf)) ∧
    (j + 32 * n + 32 ≤ bytes_per_sector img →
      ((readBytes img (address + (j + 32 * n)) 32).getD 0 0).val = 0x00 →
      Disklist.list_dir_entries img size sector_heap fat_table fat_size (fuel + 1 + n) c address j
          buf t =
          .ok (((slotsFrom img address j n).filter specEmits).map (Disklist.Row.file t)) ∧
        Diskinfo.count_files_in_dir img size sector_heap fat_table fat_size (fuel + 1 + n) c address j
          buf =
          .ok ((slotsFrom img address j n).filter specEmits).length) ∧
    (j + 32 * n + 32 ≤ bytes_per_sector img →
      specEmits (readBytes img (address + (j + 32 * n)) 32) = true →
      entry_attributes (readBytes img (address + (j + 32 * n)) 32) &&& 0x10 ≠ 0 →
      (∀ sub, Disklist.list_dir_entries img size sector_heap fat_table fat_size fuel
          (entry_cluster (readBytes img (address + (j + 32 * n)) 32))
          ((entry_cluster (readBytes img (address + (j + 32 * n)) 32) + 33 - 2) * 512) 0
          (freadAt img size ((entry_cluster (readBytes img (address + (j + 32 * n)) 32) + 33 - 2) * 512)
            (bytes_per_sector img)
            (sector_heap (entry_cluster (readBytes img (address + (j + 32 * n)) 32))))
          (t + 1) = .ok sub →
        Disklist.list_dir_entries img size sector_heap fat_table fat_size (fuel + 1 + n) c address j
          buf t =
          Res.map (fun rest => ((slotsFrom img address j n).filter specEmits).map (Disklist.Row.file t)
              ++ Disklist.Row.dir t (readBytes img (address + (j + 32 * n)) 32) :: (sub ++ rest))
            (Disklist.list_dir_entries img size sector_heap fat_table fat_size fuel c address
              (j + 32 * n + 32) buf t)) ∧
      (∀ sub, Diskinfo.count_files_in_dir img size sector_heap fat_table fat_size fuel
          (entry_cluster (readBytes img (address + (j + 32 * n)) 32))
          ((entry_cluster (readBytes img (address + (j + 32 * n)) 32) + 33 - 2) * 512) 0
          (freadAt img size ((entry_cluster (readBytes img (address + (j + 32 * n)) 32) + 33 - 2) * 512)
            (bytes_per_sector img)
            (sector_heap (entry_cluster (readBytes img (address + (j + 32 * n)) 32)))) = .ok sub →
        Diskinfo.count_files_in_dir img size sector_heap fat_table fat_size (fuel + 1 + n) c address j
          buf =
          Res.map (fun rest => ((slotsFrom img address j n).filter specEmits).length + (sub + rest))
            (Diskinfo.count_files_in_dir img size sector_heap fat_table fat_size fuel c address
              (j + 32 * n + 32) buf))) := by
  have hb : buf = readBytes img address (bytes_per_sector img) := by
    rw [hbuf, freadAt_in_file _ _ _ _ _ hin]
  have hslots : slotsOf buf j n = slotsFrom img address j n := by
    rw [hb]; exact slotsOf_readBytes _ _ _ _ _ hj
  have hs2 : ∀ e ∈ slotsOf buf j n, (e.getD 0 0).val ≠ 0x00 ∧
      (specEmits e = true → entry_attributes e &&& 0x10 = 0) := by
    rw [hslots]; exact hs
  have hnext : j + 32 * n + 32 ≤ bytes_per_sector img →
      (buf.drop (j + 32 * n)).take 32 = readBytes img (address + (j + 32 * n)) 32 := by
    intro hn
    rw [hb]; exact drop_take_readBytes _ _ _ _ _ (by omega)
  refine ⟨⟨?_, ?_⟩, ?_, ?_⟩
  · rw [← hslots]
    exact list_segment _ _ _ _ _ _ _ _ _ n fuel j hj hs2
  · rw [← hslots]
    exact count_segment _ _ _ _ _ _ _ _ n fuel j hj hs2
  · intro hn h0
    rw [← hnext hn] at h0
    rw [← hslots, list_segment _ _ _ _ _ _ _ _ _ n (fuel + 1) j hj hs2,
      count_segment _ _ _ _ _ _ _ _ n (fuel + 1) j hj hs2,
      list_step_end _ _ _ _ _ _ _ _ _ _ _ (by omega) h0,
      count_step_end _ _ _ _ _ _ _ _ _ _ (by omega) h0]
    simp [Res.map]
  · intro hn he hd
    rw [← hnext hn] at he hd ⊢
    rw [← hslots]
    constructor
    · intro sub hsub
      rw [list_segment _ _ _ _ _ _ _ _ _ n (fuel + 1) j hj hs2,
        list_step_dir _ _ _ _ _ _ _ _ _ _ _ sub (by omega) he hd hsub]
      cases Disklist.list_dir_entries img size sector_heap fat_table fat_size fuel c address
        (j + 32 * n + 32) buf t <;> rfl
    · intro sub hsub
      rw [count_segment _ _ _ _ _ _ _ _ n (fuel + 1) j hj hs2,
        count_step_dir _ _ _ _ _ _ _ _ _ _ sub (by omega) he hd hsub]
      cases Diskinfo.count_files_in_dir img size sector_heap fat_table fat_size fuel c address
        (j + 32 * n + 32) buf <;> rfl

/-- Witness for C24: the root of `imgTree` (a file of 100 sectors) scanned from its first
slot, with `n = 1` (the file "A.TXT") followed by the subdirectory "SUB", whose scan
yields the row of "B.BIN" and ends at its never-used slot; the whole listing is A.TXT,
SUB, B.BIN, C.TXT (the stale entries behind the never-used slots are not emitted) and
the count is 3, whatever the blocks of `emalloc` held before (here copies of the entry
"OLD.TXT"). -/
theorem scans_emit_filtered_slots_until_unused_slot_witness :
    0x2600 + bytes_per_sector imgTree ≤ 51200 ∧
      slotsFrom imgTree 0x2600 0 1 = [entryA] ∧
      readBytes imgTree (0x2600 + (0 + 32 * 1)) 32 = entrySub ∧
      Disklist.list_dir_entries imgTree 51200 sectorsOld (load_fat imgTree 69) 69 98 2
          ((2 + 33 - 2) * 512) 0
          (freadAt imgTree 51200 ((2 + 33 - 2) * 512) (bytes_per_sector imgTree) (sectorsOld 2)) 1
        = .ok [.file 1 entryB] ∧
      Disklist.list_dir_entries imgTree 51200 sectorsOld (load_fat imgTree 69) 69 (98 + 1 + 1) 0
          0x2600 0 (freadAt imgTree 51200 0x2600 (bytes_per_sector imgTree) (sectorsOld 0)) 0 =
        Res.map (fun rest => ((slotsFrom imgTree 0x2600 0 1).filter specEmits).map (Disklist.Row.file 0)
            ++ Disklist.Row.dir 0 (readBytes imgTree (0x2600 + (0 + 32 * 1)) 32)
              :: ([.file 1 entryB] ++ rest))
          (Disklist.list_dir_entries imgTree 51200 sectorsOld (load_fat imgTree 69) 69 98 0 0x2600
            (0 + 32 * 1 + 32)
            (freadAt imgTree 51200 0x2600 (bytes_per_sector imgTree) (sectorsOld 0)) 0) ∧
      Disklist.main 100 imgTree 51200 sectorsOld
        = .ok [.file 0 entryA, .dir 0 entrySub, .file 1 entryB, .file 0 entryC] ∧
      Diskinfo.file_count 100 imgTree 51200 sectorsOld = .ok 3 :=
  ⟨by decide!, by decide!, by decide!, by decide!,
    ((scans_emit_filtered_slots_until_unused_slot imgTree 51200 sectorsOld (load_fat imgTree 69) 69 0
      0x2600 0 1 98 0 (sectorsOld 0)
      (freadAt imgTree 51200 0x2600 (bytes_per_sector imgTree) (sectorsOld 0))
      (by decide!) rfl (by decide!) (by decide!)).2.2 (by decide!) (by decide!) (by decide!)).1
        [.file 1 entryB] (by decide!),
    by decide!, by decide!⟩

/-- A slot whose starting cluster is below 2 is not emitted. -/
theorem specEmits_of_cluster_lt (e : List Byte) (h : entry_cluster e < 2) : specEmits e = false := by
  simp only [specEmits, decide_eq_false_iff_not]
  intro hc
  omega

/-- The slot of the image at byte offset `off`: in use and with a starting cluster below 2
when the bytes 0, 26 and 27 say so. -/
theorem slot_skipped_of_bytes (img : Image) (off : Nat) (h0 : (img off).val ≠ 0x00)
    (hc : (img (off + 26)).val + 256 * (img (off + 27)).val < 2) :
    ((readBytes img off 32).getD 0 0).val ≠ 0x00 ∧ specEmits (readBytes img off 32) = false := by
  constructor
  · rw [getD_readBytes img off 32 0 (by omega)]
    exact h0
  · apply specEmits_of_cluster_lt
    unfold entry_cluster
    rw [getD_readBytes img off 32 26 (by omega), getD_readBytes img off 32 27 (by omega)]
    exact hc

/-- The root scan of `disklist` goes on with the next sector when the buffer is used up. -/
theorem list_step_next_root (img : Image) (size : Nat) (sector_heap : Nat → List Byte)
    (fat_table : List Byte) (fat_size fuel address j : Nat) (buf : List Byte) (t : Nat)
    (hj : bytes_per_sector img ≤ j) :
    Disklist.list_dir_entries img size sector_heap fat_table fat_size (fuel + 1) 0 address j buf t =
      Disklist.list_dir_entries img size sector_heap fat_table fat_size fuel 0
        (address + bytes_per_sector img) 0
        (freadAt img size (address + bytes_per_sector img) (bytes_per_sector img) buf) t := by
  have h1 : ¬ j < bytes_per_sector img := by omega
  rw [Disklist.list_dir_entries]
  simp only [if_neg h1, if_true]

/-- The slots of a sector buffer that holds 16 slots in use with a starting cluster below
2. -/
theorem sector_slots_skipped (img : Image) (address : Nat)
    (hs : ∀ k, k < 16 → (img (address + 32 * k)).val ≠ 0x00 ∧
      (img (address + 32 * k + 26)).val + 256 * (img (address + 32 * k + 27)).val < 2) :
    ∀ e ∈ slotsOf (readBytes img address 512) 0 16,
      (e.getD 0 0).val ≠ 0x00 ∧ specEmits e = false := by
  intro e he
  rw [slotsOf_readBytes img address 512 0 16 (by omega)] at he
  simp only [slotsFrom, List.mem_map, List.mem_range, Nat.zero_add] at he
  obtain ⟨k, hk, rfl⟩ := he
  exact slot_skipped_of_bytes img (address + 32 * k) (hs k hk).1 (hs k hk).2

/-- The root scan of `disklist` across `m` sectors of 16 slots that are all in use and have
a starting cluster below 2: nothing is listed and the scan stands at the start of the
sector behind them. -/
theorem list_root_sectors (img : Image) (size : Nat) (sector_heap : Nat → List Byte)
    (fat_table : List Byte) (fat_size t : Nat) (hB : bytes_per_sector img = 512) :
    ∀ (m fuel address : Nat), address + 512 * (m + 1) ≤ size →
      (∀ k, k < 16 * m → (img (address + 32 * k)).val ≠ 0x00 ∧
        (img (address + 32 * k + 26)).val + 256 * (img (address + 32 * k + 27)).val < 2) →
      Disklist.list_dir_entries img size sector_heap fat_table fat_size (fuel + 17 * m) 0 address 0
          (readBytes img address 512) t =
        Disklist.list_dir_entries img size sector_heap fat_table fat_size fuel 0
          (address + 512 * m) 0 (readBytes img (address + 512 * m) 512) t := by
  intro m
  induction m with
  | zero => intro fuel address _ _; rfl
  | succ m ih =>
    intro fuel address hsz hs
    have hslots := sector_slots_skipped img address (fun k hk => hs k (by omega))
    have hseg := list_segment img size sector_heap fat_table fat_size 0 address
      (readBytes img address 512) t 16 (fuel + 17 * m + 1) 0 (by omega)
      (fun e he => ⟨(hslots e he).1, fun h => by rw [(hslots e he).2] at h; cases h⟩)
    have hnil : (slotsOf (readBytes img address 512) 0 16).filter specEmits = [] := by
      rw [List.filter_eq_nil_iff]
      intro e he
      rw [(hslots e he).2]
      decide
    rw [hnil] at hseg
    have hfuel : fuel + 17 * (m + 1) = fuel + 17 * m + 1 + 16 := by omega
    rw [hfuel, hseg]
    simp only [List.map_nil]
    rw [Res.map_id_append, list_step_next_root _ _ _ _ _ _ _ _ _ _ (by omega), hB,
      freadAt_in_file img size (address + 512) 512 _ (by omega),
      ih fuel (address + 512) (by omega)
        (fun k hk => by
          have h := hs (k + 16) (by omega)
          rwa [show address + 32 * (k + 16) = address + 512 + 32 * k by omega] at h)]
    rw [show address + 512 + 512 * m = address + 512 * (m + 1) by omega]

/-- The root scan of `diskinfo` goes on with the next sector when the buffer is used up. -/
theorem count_step_next_root (img : Image) (size : Nat) (sector_heap : Nat → List Byte)
    (fat_table : List Byte) (fat_size fuel address j : Nat) (buf : List Byte)
    (hj : bytes_per_sector img ≤ j) :
    Diskinfo.count_files_in_dir img size sector_heap fat_table fat_size (fuel + 1) 0 address j buf =
      Diskinfo.count_files_in_dir img size sector_heap fat_table fat_size fuel 0
        (address + bytes_per_sector img) 0
        (freadAt img size (address + bytes_per_sector img) (bytes_per_sector img) buf) := by
  have h1 : ¬ j < bytes_per_sector img := by omega
  rw [Diskinfo.count_files_in_dir]
  simp only [if_neg h1, if_true]

/-- The root scan of `diskinfo` across `m` sectors of 16 slots that are all in use and have
a starting cluster below 2: nothing is counted and the scan stands at the start of the
sector behind them. -/
theorem count_root_sectors (img : Image) (size : Nat) (sector_heap : Nat → List Byte)
    (fat_table : List Byte) (fat_size : Nat) (hB : bytes_per_sector img = 512) :
    ∀ (m fuel address : Nat), address + 512 * (m + 1) ≤ size →
      (∀ k, k < 16 * m → (img (address + 32 * k)).val ≠ 0x00 ∧
        (img (address + 32 * k + 26)).val + 256 * (img (address + 32 * k + 27)).val < 2) →
      Diskinfo.count_files_in_dir img size sector_heap fat_table fat_size (fuel + 17 * m) 0 address 0
          (readBytes img address 512) =
        Diskinfo.count_files_in_dir img size sector_heap fat_table fat_size fuel 0
          (address + 512 * m) 0 (readBytes img (address + 512 * m) 512) := by
  intro m
  induction m with
  | zero => intro fuel address _ _; rfl
  | succ m ih =>
    intro fuel address hsz hs
    have hslots := sector_slots_skipped img address (fun k hk => hs k (by omega))
    have hseg := count_segment img size sector_heap fat_table fat_size 0 address
      (readBytes img address 512) 16 (fuel + 17 * m + 1) 0 (by omega)
      (fun e he => ⟨(hslots e he).1, fun h => by rw [(hslots e he).2] at h; cases h⟩)
    have hnil : (slotsOf (readBytes img address 512) 0 16).filter specEmits = [] := by
      rw [List.filter_eq_nil_iff]
      intro e he
      rw [(hslots e he).2]
      decide
    rw [hnil] at hseg
    have hfuel : fuel + 17 * (m + 1) = fuel + 17 * m + 1 + 16 := by omega
    have hid : ∀ r : Res Nat, Res.map (fun rest => ([] : List (List Byte)).length + rest) r = r := by
      intro r
      cases r <;> simp [Res.map]
    rw [hfuel, hseg, hid, count_step_next_root _ _ _ _ _ _ _ _ _ (by omega), hB,
      freadAt_in_file img size (address + 512) 512 _ (by omega),
      ih fuel (address + 512) (by omega)
        (fun k hk => by
          have h := hs (k + 16) (by omega)
          rwa [show address + 32 * (k + 16) = address + 512 + 32 * k by omega] at h)]
    rw [show address + 512 + 512 * m = address + 512 * (m + 1) by omega]

/-- The images `imgRootOverflow` and `imgFullRoot` agree before data sector 33. -/
theorem imgRootOverflow_eq_imgFullRoot (k : Nat) (hk : k < 33 * 512) :
    imgRootOverflow k = imgFullRoot k := by
  have h1 : ¬ k = 16896 := by omega
  have h2 : ¬ (16897 ≤ k ∧ k < 16904) := by omega
  have h3 : ¬ k = 16904 := by omega
  have h4 : ¬ (16905 ≤ k ∧ k < 16907) := by omega
  have h5 : ¬ k = 16907 := by omega
  have h6 : ¬ k = 16922 := by omega
  simp only [imgRootOverflow, imgFullRoot, if_neg h1, if_neg h2, if_neg h3, if_neg h4, if_neg h5,
    if_neg h6]

/-- The bytes of the root region of `imgFullRoot`. -/
theorem imgFullRoot_root (x : Nat) (h1 : 9728 ≤ x) (h2 : x < 16896) :
    imgFullRoot x =
      if (x - 9728) % 32 = 0 then 0x58
      else if (x - 9728) % 32 = 8 then 0x59
      else if (x - 9728) % 32 < 11 then 0x20
      else 0 := by
  have e1 : ¬ x = 12 := by omega
  have e2 : ¬ x = 19 := by omega
  have e3 : ¬ x = 512 := by omega
  have e4 : ¬ x = 513 := by omega
  have e5 : ¬ x = 514 := by omega
  simp only [imgFullRoot, if_neg e1, if_neg e2, if_neg e3, if_neg e4, if_neg e5,
    if_pos (And.intro h1 h2)]

/-- Every root slot of `imgFullRoot` starts with `0x58` and has the starting cluster 0. -/
theorem imgFullRoot_root_slots (k : Nat) (hk : k < 16 * 14) :
    (imgFullRoot (0x2600 + 32 * k)).val ≠ 0x00 ∧
      (imgFullRoot (0x2600 + 32 * k + 26)).val + 256 * (imgFullRoot (0x2600 + 32 * k + 27)).val
        < 2 := by
  have a : imgFullRoot (0x2600 + 32 * k) = 0x58 := by
    rw [imgFullRoot_root _ (by omega) (by omega), if_pos (by omega)]
  have b : imgFullRoot (0x2600 + 32 * k + 26) = 0 := by
    rw [imgFullRoot_root _ (by omega) (by omega), if_neg (by omega), if_neg (by omega),
      if_neg (by omega)]
  have c : imgFullRoot (0x2600 + 32 * k + 27) = 0 := by
    rw [imgFullRoot_root _ (by omega) (by omega), if_neg (by omega), if_neg (by omega),
      if_neg (by omega)]
  rw [a, b, c]
  decide

theorem imgRootOverflow_root_slots (k : Nat) (hk : k < 16 * 14) :
    (imgRootOverflow (0x2600 + 32 * k)).val ≠ 0x00 ∧
      (imgRootOverflow (0x2600 + 32 * k + 26)).val +
        256 * (imgRootOverflow (0x2600 + 32 * k + 27)).val < 2 := by
  rw [imgRootOverflow_eq_imgFullRoot _ (by omega), imgRootOverflow_eq_imgFullRoot _ (by omega),
    imgRootOverflow_eq_imgFullRoot _ (by omega)]
  exact imgFullRoot_root_slots k hk

theorem list_root_overflow :
    Disklist.main 400 imgRootOverflow 51200 sectorsZero
        = .ok [.file 0 (readBytes imgRootOverflow (33 * 512) 32)] ∧
      Disklist.main 400 imgFullRoot 51200 sectorsZero = .ok [] := by
  constructor
  · have hB : bytes_per_sector imgRootOverflow = 512 := by decide!
    have hT : ¬ total_sectors imgRootOverflow < 31 := by decide!
    rw [Disklist.main]
    simp only [if_neg hT, hB]
    rw [freadAt_in_file _ _ _ _ _ (by decide),
      list_root_sectors imgRootOverflow 51200 sectorsZero _ _ 0 hB 14 162 0x2600 (by decide)
        imgRootOverflow_root_slots]
    decide!
  · have hB : bytes_per_sector imgFullRoot = 512 := by decide!
    have hT : ¬ total_sectors imgFullRoot < 31 := by decide!
    rw [Disklist.main]
    simp only [if_neg hT, hB]
    rw [freadAt_in_file _ _ _ _ _ (by decide),
      list_root_sectors imgFullRoot 51200 sectorsZero _ _ 0 hB 14 162 0x2600 (by decide)
        imgFullRoot_root_slots]
    decide!

theorem count_root_overflow :
    Diskinfo.file_count 400 imgRootOverflow 51200 sectorsZero = .ok 1 ∧
      Diskinfo.file_count 400 imgFullRoot 51200 sectorsZero = .ok 0 := by
  constructor
  · have hB : bytes_per_sector imgRootOverflow = 512 := by decide!
    have hT : ¬ total_sectors imgRootOverflow < 31 := by decide!
    have hF : ¬ total_sectors imgRootOverflow + 2 - 33 = 0 := by decide!
    rw [Diskinfo.file_count]
    simp only [if_neg hT, if_neg hF, hB]
    rw [freadAt_in_file _ _ _ _ _ (by decide),
      count_root_sectors imgRootOverflow 51200 sectorsZero _ _ hB 14 162 0x2600 (by decide)
        imgRootOverflow_root_slots]
    decide!
  · have hB : bytes_per_sector imgFullRoot = 512 := by decide!
    have hT : ¬ total_sectors imgFullRoot < 31 := by decide!
    have hF : ¬ total_sectors imgFullRoot + 2 - 33 = 0 := by decide!
    rw [Diskinfo.file_count]
    simp only [if_neg hT, if_neg hF, hB]
    rw [freadAt_in_file _ _ _ _ _ (by decide),
      count_root_sectors imgFullRoot 51200 sectorsZero _ _ hB 14 162 0x2600 (by decide)
        imgFullRoot_root_slots]
    decide!

/-- Every root slot of `imgFullRoot` holds the entry "X.Y". -/
theorem imgFullRoot_root_entry (k : Nat) (hk : k < 16 * 14) :
    readBytes imgFullRoot (0x2600 + 32 * k) 32 = entryXY := by
  have h : readBytes imgFullRoot (0x2600 + 32 * k) 32 =
      (List.range 32).map (fun i => if i % 32 = 0 then (0x58 : Byte) else if i % 32 = 8 then 0x59
        else if i % 32 < 11 then 0x20 else 0) := by
    unfold readBytes
    apply List.map_congr_left
    intro i hi
    have hi2 : i < 32 := List.mem_range.mp hi
    rw [imgFullRoot_root _ (by omega) (by omega),
      show (0x2600 + 32 * k + i - 9728) % 32 = i % 32 by omega]
  rw [h]
  decide

theorem imgRootOverflow_root_entry (k : Nat) (hk : k < 16 * 14) :
    readBytes imgRootOverflow (0x2600 + 32 * k) 32 = entryXY := by
  rw [← imgFullRoot_root_entry k hk]
  unfold readBytes
  apply List.map_congr_left
  intro i hi
  have hi2 : i < 32 := List.mem_range.mp hi
  exact imgRootOverflow_eq_imgFullRoot _ (by omega)

/-- The subtree search of `diskput` at a slot that holds a file with another name: the
search goes on with the next slot. -/
theorem put_step_other_file (img : Image) (fat_table : List Byte) (fat_size : Nat)
    (heap : Nat → List Byte) (destination file_name : List Byte)
    (fuel c address j : Nat) (cur : List Byte) (free : Option Nat) (E : List Byte)
    (hj : j + 32 ≤ bytes_per_sector img)
    (he : readBytes img (address + j) 32 = E)
    (h0 : ¬ (E.getD 0 0).val = 0x00) (h1 : ¬ (E.getD 0 0).val = 0xE5)
    (h2 : ¬ entry_attributes E = 0x0F) (h3 : ¬ (E.getD 0 0).val = 0x2E)
    (h4 : ¬ entry_attributes E &&& 0x10 ≠ 0)
    (hcmp : strcmp_eq (trimFileName (heap (address + j)) (entry_filename E) (entry_extension E))
      file_name = some false) :
    get_free_sub_dir_entries img fat_table fat_size heap destination file_name (fuel + 1) c
        address j cur free =
      get_free_sub_dir_entries img fat_table fat_size heap destination file_name fuel c
        address (j + 32) cur free := by
  have hlt : j < bytes_per_sector img := by omega
  have hnf : ¬ bytes_per_sector img < j + 32 := by omega
  rw [get_free_sub_dir_entries]
  simp only [if_pos hlt, if_neg hnf, he, if_neg h0, if_neg h1, if_neg h2, if_neg h3, if_neg h4, hcmp]

/-- The root scan of the subtree search goes on with the next sector when the sector is
used up. -/
theorem put_step_next_root (img : Image) (fat_table : List Byte) (fat_size : Nat)
    (heap : Nat → List Byte) (destination file_name : List Byte)
    (fuel address j : Nat) (cur : List Byte) (free : Option Nat)
    (hj : bytes_per_sector img ≤ j) :
    get_free_sub_dir_entries img fat_table fat_size heap destination file_name (fuel + 1) 0
        address j cur free =
      get_free_sub_dir_entries img fat_table fat_size heap destination file_name fuel 0
        (address + bytes_per_sector img) 0 cur free := by
  have h1 : ¬ j < bytes_per_sector img := by omega
  rw [get_free_sub_dir_entries]
  simp only [if_neg h1, if_true]

/-- The subtree search across `n` slots of one sector that all hold the file entry `E`
with another name. -/
theorem put_slots_other_file (img : Image) (fat_table : List Byte) (fat_size : Nat)
    (heap : Nat → List Byte) (destination file_name : List Byte) (c address : Nat)
    (cur : List Byte) (free : Option Nat) (E : List Byte)
    (h0 : ¬ (E.getD 0 0).val = 0x00) (h1 : ¬ (E.getD 0 0).val = 0xE5)
    (h2 : ¬ entry_attributes E = 0x0F) (h3 : ¬ (E.getD 0 0).val = 0x2E)
    (h4 : ¬ entry_attributes E &&& 0x10 ≠ 0)
    (hcmp : ∀ a, strcmp_eq (trimFileName (heap a) (entry_filename E) (entry_extension E))
      file_name = some false) :
    ∀ (n fuel j : Nat), j + 32 * n ≤ bytes_per_sector img →
      (∀ k, k < n → readBytes img (address + (j + 32 * k)) 32 = E) →
      get_free_sub_dir_entries img fat_table fat_size heap destination file_name (fuel + n) c
          address j cur free =
        get_free_sub_dir_entries img fat_table fat_size heap destination file_name fuel c
          address (j + 32 * n) cur free := by
  intro n
  induction n with
  | zero => intro fuel j _ _; rfl
  | succ n ih =>
    intro fuel j hj hs
    have hfuel : fuel + (n + 1) = fuel + n + 1 := by omega
    rw [hfuel, put_step_other_file img fat_table fat_size heap destination file_name (fuel + n) c
      address j cur free E (by omega) (by simpa using hs 0 (by omega)) h0 h1 h2 h3 h4 (hcmp _),
      ih fuel (j + 32) (by omega)
        (fun k hk => by
          have h := hs (k + 1) (by omega)
          rwa [show j + 32 * (k + 1) = j + 32 + 32 * k by omega] at h)]
    rw [show j + 32 + 32 * n = j + 32 * (n + 1) by omega]

/-- The root scan of the subtree search across `m` sectors whose slots all hold the file
entry `E` with another name. -/
theorem put_root_sectors (img : Image) (fat_table : List Byte) (fat_size : Nat)
    (heap : Nat → List Byte) (destination file_name : List Byte)
    (cur : List Byte) (free : Option Nat) (E : List Byte) (hB : bytes_per_sector img = 512)
    (h0 : ¬ (E.getD 0 0).val = 0x00) (h1 : ¬ (E.getD 0 0).val = 0xE5)
    (h2 : ¬ entry_attributes E = 0x0F) (h3 : ¬ (E.getD 0 0).val = 0x2E)
    (h4 : ¬ entry_attributes E &&& 0x10 ≠ 0)
    (hcmp : ∀ a, strcmp_eq (trimFileName (heap a) (entry_filename E) (entry_extension E))
      file_name = some false) :
    ∀ (m fuel address : Nat),
      (∀ k, k < 16 * m → readBytes img (address + 32 * k) 32 = E) →
      get_free_sub_dir_entries img fat_table fat_size heap destination file_name (fuel + 17 * m) 0
          address 0 cur free =
        get_free_sub_dir_entries img fat_table fat_size heap destination file_name fuel 0
          (address + 512 * m) 0 cur free := by
  intro m
  induction m with
  | zero => intro fuel address _; rfl
  | succ m ih =>
    intro fuel address hs
    have hfuel : fuel + 17 * (m + 1) = fuel + 17 * m + 1 + 16 := by omega
    rw [hfuel, put_slots_other_file img fat_table fat_size heap destination file_name 0 address
      cur free E h0 h1 h2 h3 h4 hcmp 16 (fuel + 17 * m + 1) 0 (by omega)
      (fun k hk => by
        have h := hs k (by omega)
        rwa [show address + 32 * k = address + (0 + 32 * k) by omega] at h),
      put_step_next_root _ _ _ _ _ _ _ _ _ _ _ (by omega), hB,
      ih fuel (address + 512)
        (fun k hk => by
          have h := hs (k + 16) (by omega)
          rwa [show address + 32 * (k + 16) = address + 512 + 32 * k by omega] at h)]
    rw [show address + 512 + 512 * m = address + 512 * (m + 1) by omega]

/-- The FAT of `imgRootOverflow` is the FAT of `imgFullRoot`. -/
theorem load_fat_imgRootOverflow : load_fat imgRootOverflow 69 = load_fat imgFullRoot 69 := by
  unfold load_fat readBytes
  apply List.map_congr_left
  intro k hk
  have hk2 : k < fat_mem_size 69 := List.mem_range.mp hk
  have hm : fat_mem_size 69 = 104 := by decide
  exact imgRootOverflow_eq_imgFullRoot _ (by omega)

/-- The FAT of `imgFullRoot` is the FAT of `imgSmall`. -/
theorem load_fat_imgFullRoot : load_fat imgFullRoot 69 = load_fat imgSmall 69 := by
  unfold load_fat readBytes
  apply List.map_congr_left
  intro k hk
  have hk2 : k < fat_mem_size 69 := List.mem_range.mp hk
  have hm : fat_mem_size 69 = 104 := by decide
  have h1 : ¬ (9728 ≤ 0x200 + k ∧ 0x200 + k < 16896) := by omega
  simp only [imgFullRoot, imgSmall, if_neg h1]

theorem getFreeBlocks_imgFullRoot : getFreeBlocks (load_fat imgFullRoot 69) 69 = some 67 := by
  rw [load_fat_imgFullRoot]
  exact getFreeBlocks_imgSmall

/-- The slot search for a destination other than "ROOT" that meets a file of the same
name ends `diskput` with the duplicate-name exit. -/
theorem put_outcome_of_duplicate (fuel : Nat) (img : Image) (fat_table : List Byte)
    (fat_size : Nat) (destination file_name file : List Byte) (d t : Nat)
    (heap : Nat → List Byte) (stack : Int → List Byte)
    (hd : ¬ destination = [0x52, 0x4F, 0x4F, 0x54])
    (hscan : get_free_sub_dir_entries img fat_table fat_size heap destination file_name fuel
      0 0x2600 0 [0x52, 0x4F, 0x4F, 0x54, 0] none = .duplicate) :
    (Diskput.main_after_space_check fuel img fat_table fat_size destination file_name file d t
      heap stack).outcome = .duplicateName := by
  unfold Diskput.main_after_space_check
  simp only [if_neg hd, hscan]

/-- The slot search for a destination other than "ROOT" that returns without a slot ends
`diskput` with "directory not found". -/
theorem put_outcome_of_no_slot (fuel : Nat) (img : Image) (fat_table : List Byte)
    (fat_size : Nat) (destination file_name file : List Byte) (d t : Nat)
    (heap : Nat → List Byte) (stack : Int → List Byte)
    (hd : ¬ destination = [0x52, 0x4F, 0x4F, 0x54])
    (hscan : get_free_sub_dir_entries img fat_table fat_size heap destination file_name fuel
      0 0x2600 0 [0x52, 0x4F, 0x4F, 0x54, 0] none = .slot none) :
    (Diskput.main_after_space_check fuel img fat_table fat_size destination file_name file d t
      heap stack).outcome = .dirNotFound := by
  unfold Diskput.main_after_space_check
  simp only [if_neg hd, hscan]

theorem put_root_overflow :
    (Diskput.main 400 imgRootOverflow (some nameSub) nameFX (some (fileOfA 3)) 0 0 heapZero
        stackMarked).outcome = .duplicateName ∧
      (Diskput.main 400 imgFullRoot (some nameSub) nameFX (some (fileOfA 3)) 0 0 heapZero
        stackMarked).outcome = .dirNotFound := by
  have hcmp : ∀ a, strcmp_eq (trimFileName (heapZero a) (entry_filename entryXY)
      (entry_extension entryXY)) (nameFX.map toupper) = some false := fun _ => by
    show strcmp_eq (trimFileName (List.replicate 13 0) (entry_filename entryXY)
      (entry_extension entryXY)) (nameFX.map toupper) = some false
    decide
  have hd : ¬ nameSub = [0x52, 0x4F, 0x4F, 0x54] := by decide
  have hfit : ¬ int32Val (fileOfA 3).length > 67 * 512 := by decide
  constructor
  · have hB : bytes_per_sector imgRootOverflow = 512 := by decide!
    have hscan : get_free_sub_dir_entries imgRootOverflow (load_fat imgRootOverflow 69) 69 heapZero
        nameSub (nameFX.map toupper) 400 0 0x2600 0 [0x52, 0x4F, 0x4F, 0x54, 0] none
          = .duplicate := by
      rw [show (400 : Nat) = 162 + 17 * 14 from rfl,
        put_root_sectors imgRootOverflow _ _ heapZero nameSub _ _ none entryXY hB (by decide)
          (by decide) (by decide) (by decide) (by decide) hcmp 14 162 0x2600
          (fun k hk => imgRootOverflow_root_entry k hk)]
      decide!
    rw [put_main_reaches_search 400 imgRootOverflow (some nameSub) nameFX (fileOfA 3) 0 0 heapZero
      stackMarked (by decide) (by rw [load_fat_imgRootOverflow]; exact getFreeBlocks_imgFullRoot)
      hfit]
    exact put_outcome_of_duplicate _ _ _ _ _ _ _ _ _ _ _ hd hscan
  · have hB : bytes_per_sector imgFullRoot = 512 := by decide!
    have hscan : get_free_sub_dir_entries imgFullRoot (load_fat imgFullRoot 69) 69 heapZero
        nameSub (nameFX.map toupper) 400 0 0x2600 0 [0x52, 0x4F, 0x4F, 0x54, 0] none
          = .slot none := by
      rw [show (400 : Nat) = 162 + 17 * 14 from rfl,
        put_root_sectors imgFullRoot _ _ heapZero nameSub _ _ none entryXY hB (by decide)
          (by decide) (by decide) (by decide) (by decide) hcmp 14 162 0x2600
          (fun k hk => imgFullRoot_root_entry k hk)]
      decide!
    rw [put_main_reaches_search 400 imgFullRoot (some nameSub) nameFX (fileOfA 3) 0 0 heapZero
      stackMarked (by decide) getFreeBlocks_imgFullRoot hfit]
    exact put_outcome_of_no_slot _ _ _ _ _ _ _ _ _ _ _ hd hscan

/-- C25 (the claim fails on the code): the images `imgRootOverflow` and `imgFullRoot` have
the same root region, 224 slots in use (first byte `0x58`) and none with first byte `0x00`;
they differ only in data sector 33. The root scans of `disklist`, `diskinfo` and of the
subtree search of `diskput` go on behind the root region: on `imgRootOverflow` the listing
prints the 32 bytes at offset `33 * 512` as a file, the count is 1 and the insertion of
"F.X" into "SUB" ends with the duplicate-name exit; on `imgFullRoot` the listing is empty,
the count 0 and the insertion ends with "directory not found". -/
theorem root_scans_run_past_root_region :
    (∀ s, s < 224 → (imgRootOverflow (19 * 512 + 32 * s)).val = 0x58) ∧
      (∀ s, s < 224 → (imgFullRoot (19 * 512 + 32 * s)).val = 0x58) ∧
      (∀ k, k < 33 * 512 → imgRootOverflow k = imgFullRoot k) ∧
      Disklist.main 400 imgRootOverflow 51200 sectorsZero
        = .ok [.file 0 (readBytes imgRootOverflow (33 * 512) 32)] ∧
      Disklist.main 400 imgFullRoot 51200 sectorsZero = .ok [] ∧
      Diskinfo.file_count 400 imgRootOverflow 51200 sectorsZero = .ok 1 ∧
      Diskinfo.file_count 400 imgFullRoot 51200 sectorsZero = .ok 0 ∧
      (Diskput.main 400 imgRootOverflow (some nameSub) nameFX (some (fileOfA 3)) 0 0 heapZero
        stackMarked).outcome = .duplicateName ∧
      (Diskput.main 400 imgFullRoot (some nameSub) nameFX (some (fileOfA 3)) 0 0 heapZero
        stackMarked).outcome = .dirNotFound := by
  refine ⟨by decide!, by decide!, ?_, list_root_overflow.1, list_root_overflow.2,
    count_root_overflow.1, count_root_overflow.2, put_root_overflow.1, put_root_overflow.2⟩
  exact imgRootOverflow_eq_imgFullRoot

/-- C26 (the claim fails on the code): on the image `imgHighLink` the directory "SUB"
starts at cluster 3 and FAT entry 3, an odd index, holds the link `0x805`; the second
sector of the directory, at byte offset `(0x805 - 2 + 33) * 512`, holds the file "F.X".
`get_fat` returns `0xF805` for entry 3 (`-2043` as the `int` of `diskinfo`), so
`disklist` takes the link for an end of chain and prints the directory row only,
`diskinfo` goes on at the address computed from `-2043`, behind the end of the file
(2880 sectors), scans the unchanged buffer again and then reads the FAT mirror outside
its bounds, and the subtree search of `diskput` started in that directory ends with the
last deleted slot of the first sector without reaching "F.X". -/
theorem scanners_stop_at_high_link_in_odd_entry :
    specEntry (load_fat imgHighLink 2849) 3 = 0x805 ∧
      get_fat (load_fat imgHighLink 2849) 2849 3 = some 0xF805 ∧
      (Diskinfo.get_fat (load_fat imgHighLink 2849) 2849 3).map int32Val = some (-2043) ∧
      entry_filename (readBytes imgHighLink ((0x805 - 2 + 33) * 512) 32)
        = [0x46, 0x20, 0x20, 0x20, 0x20, 0x20, 0x20, 0x20] ∧
      Disklist.main 100 imgHighLink 1474560 sectorsZero = .ok [.dir 0 (readBytes imgHighLink 9728 32)] ∧
      Diskinfo.file_count 100 imgHighLink 1474560 sectorsZero = .fault ∧
      get_free_sub_dir_entries imgHighLink (load_fat imgHighLink 2849) 2849 heapZero nameSub
        (nameFX.map toupper) 100 3 ((3 + 33 - 2) * 512) 0 (nameSub ++ [0]) none = .slot (some 17888) := by
  decide!

/-- C27 (the claim fails on the code): for the root entry of `imgReadme`, name field
"README  " with an extension of three spaces, `trimFileName` writes the six letters and no
NUL: the rest of the 13-byte block keeps its previous content. With a zero-filled block the
lookup of "README" finds the file; with a block that held `0x41` bytes the result is not a
terminated string and the same lookup ends with "File not found.". -/
theorem trimFileName_without_extension_depends_on_buffer :
    entry_filename (readBytes imgReadme 9728 32) = [0x52, 0x45, 0x41, 0x44, 0x4D, 0x45, 0x20, 0x20] ∧
      entry_extension (readBytes imgReadme 9728 32) = [0x20, 0x20, 0x20] ∧
      trimFileName (heapZero 0) (entry_filename (readBytes imgReadme 9728 32))
          (entry_extension (readBytes imgReadme 9728 32))
        = [0x52, 0x45, 0x41, 0x44, 0x4D, 0x45, 0, 0, 0, 0, 0, 0, 0] ∧
      trimFileName (heapOfA 0) (entry_filename (readBytes imgReadme 9728 32))
          (entry_extension (readBytes imgReadme 9728 32))
        = [0x52, 0x45, 0x41, 0x44, 0x4D, 0x45, 0x41, 0x41, 0x41, 0x41, 0x41, 0x41, 0x41] ∧
      cstring (trimFileName (heapOfA 0) (entry_filename (readBytes imgReadme 9728 32))
          (entry_extension (readBytes imgReadme 9728 32))) = none ∧
      Diskget.main 100 imgReadme 51200 nameReadme false heapZero stackOfEE
        = ⟨.done, List.replicate 5 0xAA⟩ ∧
      Diskget.main 100 imgReadme 51200 nameReadme false heapOfA stackOfEE = ⟨.notFound, []⟩ := by
  decide!

/-- C28 (the claim fails on the code): entered with the sector count 0, the count of an
empty file, `get_file` and `put_in_data_area` never return, whatever the fuel: the count
is decremented to -1 before the test `== 0`. `diskput` of an empty host file on
`imgSmall` never ends normally (it is still transferring sectors after 100 steps), and
`diskget` of the empty root file "A.TXT" of `imgOneFile 0 0 0` never ends normally (it
leaves the FAT mirror after the first sectors). -/
theorem transfer_of_empty_file_does_not_end :
    (∀ (img : Image) (size : Nat) (stack : Int → List Byte) (fat_table : List Byte)
        (fat_size total_size fuel cur_sector : Nat) (out : List Byte),
        Diskget.get_file img size stack fat_table fat_size fuel cur_sector 0 total_size ≠ .ok out) ∧
      (∀ (B fat_size : Nat) (file : List Byte) (stack : Int → List Byte) (total_size fuel : Nat)
        (st : PutState) (cur_physical_sector : Nat) (st' : PutState),
        put_in_data_area B fat_size file stack fuel st cur_physical_sector 0 total_size ≠ .ok st') ∧
      (∀ fuel, (Diskput.main fuel imgSmall none nameCDat (some []) 0 0 heapZero stackMarked).outcome
        ≠ .done) ∧
      (Diskput.main 100 imgSmall none nameCDat (some []) 0 0 heapZero stackMarked).outcome
        = .outOfFuel ∧
      Diskget.get_file_entry_in_root (imgOneFile 0 0 0) heapZero 9728 (nameATxt.map toupper)
        = .found (readBytes (imgOneFile 0 0 0) 9728 32) ∧
      entry_size (readBytes (imgOneFile 0 0 0) 9728 32) = 0 ∧
      (∀ fuel, (Diskget.main fuel (imgOneFile 0 0 0) 51200 nameATxt false heapZero
        stackOfEE).outcome ≠ .done) ∧
      (Diskget.main 100 (imgOneFile 0 0 0) 51200 nameATxt false heapZero stackOfEE).outcome
        = .fault := by
  refine ⟨fun img size stack fat_table fat_size total_size fuel cur_sector out =>
      get_file_nonpos img size stack fat_table fat_size total_size fuel cur_sector 0 (by simp) out,
    fun B fat_size file stack total_size fuel st cur st' =>
      put_in_data_area_nonpos B fat_size file stack total_size fuel st cur 0 (by simp) st',
    ?_, ?_, by decide!, by decide!, ?_, by decide!⟩
  · intro fuel
    unfold Diskput.main
    simp only
    split
    · simp
    · split
      · simp
      · split
        · simp
        · split
          · simp
          · unfold Diskput.main_after_space_check
            simp only
            split
            · simp
            · simp
            · simp
            · simp
            · split
              · simp
              · simp
              · split
                · simp
                · split
                  · simp
                  · split
                    · simp
                    · simp
                    · rename_i st h
                      exact absurd h (put_in_data_area_nonpos _ _ _ _ _ _ _ _ _ (by simp) st)
  · rw [put_main_reaches_search 100 imgSmall none nameCDat [] 0 0 heapZero stackMarked
      (by decide) getFreeBlocks_imgSmall (by decide)]
    decide!
  · intro fuel
    have hfound : Diskget.get_file_entry_in_root (imgOneFile 0 0 0) heapZero
        (19 * bytes_per_sector (imgOneFile 0 0 0)) (nameATxt.map toupper)
          = .found (readBytes (imgOneFile 0 0 0) 9728 32) := by decide!
    have hT : ¬ total_sectors (imgOneFile 0 0 0) < 31 := by decide
    have hB : ¬ bytes_per_sector (imgOneFile 0 0 0) = 0 := by decide
    have hocc : int32Val (entry_size (readBytes (imgOneFile 0 0 0) 9728 32) /
        bytes_per_sector (imgOneFile 0 0 0) +
        (if entry_size (readBytes (imgOneFile 0 0 0) 9728 32) % bytes_per_sector (imgOneFile 0 0 0) ≠ 0
          then 1 else 0)) = 0 := by decide!
    unfold Diskget.main
    simp only [Bool.false_eq_true, if_false, if_neg hT, hfound, if_neg hB, hocc]
    split
    · rename_i out h
      exact absurd h (get_file_nonpos _ _ _ _ _ _ _ _ _ (by simp) out)
    · simp
    · simp

/-- C29: for every FAT mirror of `fat_mem_size N` bytes (offsets within the `uint16_t`
index range), every index `i < N` whose 12-bit entry is 0 and every 16-bit `v`:
`update_fat(i, v)` returns the mirror that the specification's masked write produces; that
mirror has the same length, agrees with the old one on every byte outside the two bytes
`3i/2` and `3i/2 + 1` of the entry, and its entry `i` reads `v mod 4096`. -/
theorem update_fat_free_entry_is_masked_write (fat_table : List Byte) (fat_size i v : Nat)
    (hlen : fat_table.length = fat_mem_size fat_size) (hw : fat_table.length ≤ 65536)
    (hi : i < fat_size) (hv : v < 65536) (hfree : specEntry fat_table i = 0) :
    update_fat fat_table i v = some (specWrite fat_table i v) ∧
      (specWrite fat_table i v).length = fat_table.length ∧
      (∀ k, k ≠ 3 * i / 2 → k ≠ 3 * i / 2 + 1 → (specWrite fat_table i v)[k]? = fat_table[k]?) ∧
      specEntry (specWrite fat_table i v) i = v % 4096 := by
  have hb : (3 * i + 2) / 2 < fat_table.length := by
    rw [hlen]; exact index_in_mirror _ _ hi
  exact ⟨update_fat_of_free _ _ _ hb hw hv hfree, length_specWrite _ _ _,
    fun k h1 h2 => specWrite_other_bytes _ _ _ k h1 h2, specEntry_specWrite _ _ _ hb⟩

/-- Witness for C29: the free entry 3 of `fatUsed2` and the value `0xABC`; the high nibble
of byte 4 and byte 5 are set, the low nibble of byte 4 (entry 2) is kept. -/
theorem update_fat_free_entry_is_masked_write_witness :
    specEntry fatUsed2 3 = 0 ∧
      update_fat fatUsed2 3 0xABC = some (specWrite fatUsed2 3 0xABC) ∧
      specWrite fatUsed2 3 0xABC = [0xF0, 0xFF, 0xFF, 0xFF, 0xCF, 0xAB] ++ List.replicate 98 0 :=
  ⟨by decide!,
    (update_fat_free_entry_is_masked_write fatUsed2 69 3 0xABC (by decide!) (by decide!) (by decide)
      (by decide) (by decide!)).1,
    by decide!⟩

/-- C30 (the claim fails on the code): on the image `imgOneFile 600 2 3` cluster 2 is in
use (FAT entry 2 holds the link 3 of the file "A.TXT", whose first sector is sector 33,
filled with `0xAA`). `get_free_sector` returns sector 33, whose cluster is `33 - 33 + 2 =
2`: it tests the FAT entry `33 + 33 - 2 = 64`. `diskput` of a 2-byte file ends normally and
has written to sector 33; `diskget` of "A.TXT" from the resulting image starts with the
written bytes. -/
theorem put_overwrites_sector_of_cluster_in_use :
    specEntry (load_fat (imgOneFile 600 2 3) 69) 2 = 3 ∧
      get_fat (load_fat (imgOneFile 600 2 3) 69) 69 2 = some 3 ∧
      get_free_sector (load_fat (imgOneFile 600 2 3) 69) 69 100 = .ok 33 ∧
      readBytes (imgOneFile 600 2 3) (33 * 512) 4 = [0xAA, 0xAA, 0xAA, 0xAA] ∧
      (Diskput.main 100 (imgOneFile 600 2 3) none nameCDat (some (fileOfA 2)) 0 0 heapZero
        stackMarked).outcome = .done ∧
      readBytes (Diskput.main 100 (imgOneFile 600 2 3) none nameCDat (some (fileOfA 2)) 0 0 heapZero
        stackMarked).disk (33 * 512) 4 = [0x22, 0x22, 0xAA, 0xAA] ∧
      ((Diskget.main 100 (Diskput.main 100 (imgOneFile 600 2 3) none nameCDat (some (fileOfA 2)) 0 0
        heapZero stackMarked).disk 51200 nameATxt false heapZero stackOfEE).out.take 4) = [0x22, 0x22, 0xAA, 0xAA] := by
  decide!

/-! ## Lemmas on the host file of `diskput` -/

/-- Read at or behind the end of the host file, `fread` leaves the buffer as it was. -/
theorem fread_file_at_end (file buf : List Byte) (pos n : Nat) (h : file.length ≤ pos) :
    fread_file file pos buf n = buf := by
  unfold fread_file
  rw [List.drop_eq_nil_of_le h]
  simp

theorem take_drop_at_end (file : List Byte) (pos n : Nat) (h : file.length ≤ pos) :
    ((file.drop pos).take n).length = 0 := by
  rw [List.drop_eq_nil_of_le h]
  simp

/-- With the read position at or behind the end of the host file, `put_in_data_area` does
not depend on the bytes of the file. -/
theorem put_in_data_area_file_content (B fat_size : Nat) (file file2 : List Byte)
    (stack : Int → List Byte) (total_size : Nat) :
    ∀ (fuel : Nat) (st : PutState) (cur : Nat) (sectors_needed : Int),
      file.length ≤ st.file_pos → file2.length ≤ st.file_pos →
      put_in_data_area B fat_size file stack fuel st cur sectors_needed total_size =
        put_in_data_area B fat_size file2 stack fuel st cur sectors_needed total_size := by
  intro fuel
  induction fuel with
  | zero => intro _ _ _ _ _; rfl
  | succ fuel ih =>
    intro st cur sn h1 h2
    rw [put_in_data_area, put_in_data_area]
    simp only [fread_file_at_end _ _ _ _ h1, fread_file_at_end _ _ _ _ h2,
      take_drop_at_end _ _ _ h1, take_drop_at_end _ _ _ h2]
    split
    · rfl
    · split
      · rfl
      · rfl
      · split
        · rfl
        · exact ih _ _ _ (by simpa using h1) (by simpa using h2)

theorem put_in_data_area_same_length (B fat_size : Nat) (file file2 : List Byte)
    (stack : Int → List Byte) (total_size fuel : Nat) (disk : Image) (fat_table : List Byte)
    (cur : Nat) (sectors_needed : Int) (h : file.length = file2.length) :
    put_in_data_area B fat_size file stack fuel
        { disk := disk, fat_table := fat_table, file_pos := file2.length } cur sectors_needed
        total_size =
      put_in_data_area B fat_size file2 stack fuel
        { disk := disk, fat_table := fat_table, file_pos := file2.length } cur sectors_needed
        total_size :=
  put_in_data_area_file_content B fat_size file file2 stack total_size fuel _ cur sectors_needed
    (by simp [h]) (by simp)

/-- The result of `diskput` depends on the host file through its length only. -/
theorem put_main_file_content (fuel : Nat) (img : Image) (destination : Option (List Byte))
    (file_name file file2 : List Byte) (d t : Nat) (heap : Nat → List Byte)
    (stack : Int → List Byte) (h : file.length = file2.length) :
    Diskput.main fuel img destination file_name (some file) d t heap stack =
      Diskput.main fuel img destination file_name (some file2) d t heap stack := by
  unfold Diskput.main Diskput.main_after_space_check
  simp only [h, put_in_data_area_same_length _ _ file file2 _ _ _ _ _ _ _ h]

/-! ## Claim C31 -/

set_option maxRecDepth 100000 in
/-- The 5-byte file "HELLO" with the stack `stackMarked`. -/
theorem put_hello_marked :
    Diskput.main 100 imgSmall none nameCDat (some fileHello) 0 0 heapZero stackMarked =
      ⟨.done,
        writeBytes (writeBytes imgSmall 9728 (entryCDat 5)) (33 * 512) (List.replicate 5 0x22),
        [0xF0, 0xFF, 0xFF, 0xFF, 0x0F] ++ List.replicate 99 0⟩ := by
  rw [put_main_reaches_search 100 imgSmall none nameCDat fileHello 0 0 heapZero stackMarked
    (by decide) getFreeBlocks_imgSmall (by decide)]
  rfl

set_option maxRecDepth 100000 in
/-- The 5-byte file "HELLO" with the stack `stackOf33`. -/
theorem put_hello_33 :
    Diskput.main 100 imgSmall none nameCDat (some fileHello) 0 0 heapZero stackOf33 =
      ⟨.done,
        writeBytes (writeBytes imgSmall 9728 (entryCDat 5)) (33 * 512) (List.replicate 5 0x33),
        [0xF0, 0xFF, 0xFF, 0xFF, 0x0F] ++ List.replicate 99 0⟩ := by
  rw [put_main_reaches_search 100 imgSmall none nameCDat fileHello 0 0 heapZero stackOf33
    (by decide) getFreeBlocks_imgSmall (by decide)]
  rfl

/-- After the insert of the 5-byte file whose chunk is taken from a stack filled with
`0x22`, `diskget` emits the start of data sector 33. -/
theorem get_after_put_hello_marked :
    Diskget.main 100
        (writeBytes (writeBytes imgSmall 9728 (entryCDat 5)) (33 * 512) (List.replicate 5 0x22))
        51200 nameCDat false heapZero stackOfEE = ⟨.done, List.replicate 5 0x22⟩ := by
  have h : Diskget.main 100
        (writeBytes (writeBytes imgSmall 9728 (entryCDat 5)) (33 * 512) (List.replicate 5 0x22))
        51200 nameCDat false heapZero stackOfEE =
      ⟨.done, freadAt
        (writeBytes (writeBytes imgSmall 9728 (entryCDat 5)) (33 * 512) (List.replicate 5 0x22))
        51200 (33 * 512) 5 (stackOfEE 1)⟩ := rfl
  have l : (List.replicate 5 (0x22 : Byte)).length = 5 := List.length_replicate _ _
  rw [h, freadAt_in_file _ _ _ _ _ (by decide),
    readBytes_writeBytes_inside _ _ _ _ _ (Nat.le_refl _) (by omega)]
  rfl

/-- After the insert of the 5-byte file whose chunk is taken from a stack filled with
`0x33`, `diskget` emits the start of data sector 33. -/
theorem get_after_put_hello_33 :
    Diskget.main 100
        (writeBytes (writeBytes imgSmall 9728 (entryCDat 5)) (33 * 512) (List.replicate 5 0x33))
        51200 nameCDat false heapZero stackOfEE = ⟨.done, List.replicate 5 0x33⟩ := by
  have h : Diskget.main 100
        (writeBytes (writeBytes imgSmall 9728 (entryCDat 5)) (33 * 512) (List.replicate 5 0x33))
        51200 nameCDat false heapZero stackOfEE =
      ⟨.done, freadAt
        (writeBytes (writeBytes imgSmall 9728 (entryCDat 5)) (33 * 512) (List.replicate 5 0x33))
        51200 (33 * 512) 5 (stackOfEE 1)⟩ := rfl
  have l : (List.replicate 5 (0x33 : Byte)).length = 5 := List.length_replicate _ _
  rw [h, freadAt_in_file _ _ _ _ _ (by decide),
    readBytes_writeBytes_inside _ _ _ _ _ (Nat.le_refl _) (by omega)]
  rfl

/-- C31 (the claim fails on the code): `diskput` leaves the host file positioned at its end
(`fseek(file, 0, SEEK_END)` without a later rewind), so the `fread` of `put_in_data_area`
transfers nothing and the result of `diskput` depends on the host file through its length
only. For the 5-byte file "HELLO" named "c.dat" put into the root of `imgSmall`, `diskput`
ends normally and the lookup on the resulting image finds the entry with size 5 and
cluster 2, but `diskget` emits the first 5 bytes of the prior content of the stack array
`content` (`0x22` with the stack `stackMarked`, `0x33` with `stackOf33`), whatever the 5
bytes of the host file are. -/
theorem put_single_sector_then_get_returns_stack_content :
    (∀ (fuel : Nat) (img : Image) (destination : Option (List Byte)) (file_name file file2 : List Byte)
        (d t : Nat) (heap : Nat → List Byte) (stack : Int → List Byte),
        file.length = file2.length →
        Diskput.main fuel img destination file_name (some file) d t heap stack =
          Diskput.main fuel img destination file_name (some file2) d t heap stack) ∧
      (Diskput.main 100 imgSmall none nameCDat (some fileHello) 0 0 heapZero stackMarked).outcome
        = .done ∧
      (match Diskget.get_file_entry_in_root
          (Diskput.main 100 imgSmall none nameCDat (some fileHello) 0 0 heapZero stackMarked).disk
          heapZero 9728 (nameCDat.map toupper) with
        | .found entry => some (entry_size entry, entry_cluster entry)
        | _ => none) = some (5, 2) ∧
      Diskget.main 100
        (Diskput.main 100 imgSmall none nameCDat (some fileHello) 0 0 heapZero stackMarked).disk 51200
        nameCDat false heapZero stackOfEE = ⟨.done, List.replicate 5 0x22⟩ ∧
      Diskget.main 100
        (Diskput.main 100 imgSmall none nameCDat (some fileHello) 0 0 heapZero stackOf33).disk 51200
        nameCDat false heapZero stackOfEE = ⟨.done, List.replicate 5 0x33⟩ ∧
      (∀ a b c d e : Byte, Diskget.main 100
        (Diskput.main 100 imgSmall none nameCDat (some [a, b, c, d, e]) 0 0 heapZero stackMarked).disk 51200
        nameCDat false heapZero stackOfEE = ⟨.done, List.replicate 5 0x22⟩) := by
  refine ⟨fun fuel img destination file_name file file2 d t heap stack h =>
      put_main_file_content fuel img destination file_name file file2 d t heap stack h,
    ?_, ?_, ?_, ?_, ?_⟩
  · rw [put_hello_marked]
  · rw [put_hello_marked]
    decide!
  · rw [put_hello_marked]
    exact get_after_put_hello_marked
  · rw [put_hello_33]
    exact get_after_put_hello_33
  · intro a b c d e
    rw [put_main_file_content 100 imgSmall none nameCDat [a, b, c, d, e] fileHello 0 0 heapZero
      stackMarked rfl, put_hello_marked]
    exact get_after_put_hello_marked
end SFS
